import Mathlib

/-!
# MicroSocks (stratum switching fork): a shallow embedding

Bytes are natural numbers below 256.  A `char *` argument is modelled by the
list of bytes stored from the pointer onwards; the C string it denotes is the
part before the first zero byte (`cstr`).  Pointer arithmetic `p + k` is
`List.drop k`, a pointer difference is the offset returned by `strstr`.

Loops that the source does not bound (`strreplace` with an empty pattern never
ends) take a `fuel` argument and return `none` while still running.  Received
buffers are lists holding exactly the received bytes, read with `buf[i]?`, so
that a read outside them shows up as `none`.  System calls and libc's IPv6
printing are parameters collected in `World`.

The relays are driven by a list of `Round`s, one per loop iteration: the
outcome of `select`, the bytes `read` delivers and the return values of the
`write` calls.  Bytes the relays read without having written them (behind
`buf[1024]`, behind an unterminated `malloc` block) are the fields of `Memory`.
-/

set_option maxRecDepth 100000

namespace MicroSocks

/-! ## libc string primitives -/

/-- The C string stored at a pointer: the bytes before the first NUL. -/
def cstr (mem : List Nat) : List Nat :=
  mem.takeWhile (fun c => c != 0)

/-- Result of `strlen(s)`. -/
def strlen (s : List Nat) : Nat :=
  (cstr s).length

/-- Leftmost offset at which `needle` starts in `hay` (both already C strings);
an empty needle is found at offset 0. -/
def strstrFrom (needle : List Nat) : List Nat → Option Nat
  | [] => if needle.isEmpty then some 0 else none
  | c :: hay =>
    if needle.isPrefixOf (c :: hay) then some 0
    else (strstrFrom needle hay).map (fun k => k + 1)

/-- Result of `strstr(haystack, needle)`: `none` is the NULL pointer, `some k` is the
pointer `haystack + k` to the first occurrence. -/
def strstr (haystack needle : List Nat) : Option Nat :=
  strstrFrom (cstr needle) (cstr haystack)

/-- Bytes stored by `strncpy(dst, src, n)`: the first `n` bytes of the
C string `src`, padded with zero bytes up to `n`. -/
def strncpy (src : List Nat) (n : Nat) : List Nat :=
  (cstr src).take n ++ List.replicate (n - strlen src) 0

/-- ASCII bytes of a string literal. -/
def bytes (s : String) : List Nat :=
  s.toList.map Char.toNat

/-! ## utils.h -/

def STM_SUBSCRIBE_KEY : List Nat := bytes "mining.subscribe"
def STM_AUTH_KEY : List Nat := bytes "mining.authorize"
def STM_SET_DIFFICULT_KEY : List Nat := bytes "mining.set_difficulty"
def STM_NOTIFY_KEY : List Nat := bytes "mining.notify"
def STM_SUBMIT_KEY : List Nat := bytes "mining.submit"

def STM_ACK : Nat := 0
def STM_SUBSCRIBE : Nat := 1
def STM_AUTH : Nat := 2
def STM_SET_DIFFICULT : Nat := 4
def STM_NOTIFY : Nat := 8
def STM_SUBMIT : Nat := 16
def STM_INIT_SUBSCRIBE : Nat := STM_SET_DIFFICULT + STM_NOTIFY

/-! ## utils.c -/

/-- Source: `check_pattern_in_str` returns 0 when `strstr` finds the pattern and -1 otherwise. -/
def check_pattern_in_str (original pattern : List Nat) : Int :=
  if (strstr original pattern).isSome then 0 else -1

/-- Source: `check_stratum_msg_type`, the five `if` statements in source order. -/
def check_stratum_msg_type (original : List Nat) : Nat :=
  let t0 := 0
  let t1 := if check_pattern_in_str original STM_AUTH_KEY = 0 then t0 + STM_AUTH else t0
  let t2 := if check_pattern_in_str original STM_SUBSCRIBE_KEY = 0 then t1 + STM_SUBSCRIBE else t1
  let t3 := if check_pattern_in_str original STM_SUBMIT_KEY = 0 then t2 + STM_SUBMIT else t2
  let t4 := if check_pattern_in_str original STM_SET_DIFFICULT_KEY = 0 then t3 + STM_SET_DIFFICULT else t3
  let t5 := if check_pattern_in_str original STM_NOTIFY_KEY = 0 then t4 + STM_NOTIFY else t4
  t5

/-- Source: first `for` loop of `strreplace`, counting the occurrences of the
pattern.  `oriptr` is the memory from the scan pointer on, `patcnt` a `size_t`.
Each iteration consumes one unit of `fuel`; `none` means the loop is still running. -/
def strreplace_count (pattern : List Nat) : Nat → List Nat → Nat → Option Nat
  | 0, _, _ => none
  | fuel + 1, oriptr, patcnt =>
    match strstr oriptr pattern with
    | none => some patcnt
    | some patloc =>
      strreplace_count pattern fuel (oriptr.drop (patloc + strlen pattern))
        ((patcnt + 1) % 2 ^ 64)

/-- Source: `retlen = orilen + patcnt * (replen - patlen)` in `size_t` arithmetic. -/
def strreplace_retlen (orilen patcnt replen patlen : Nat) : Nat :=
  (orilen + patcnt * ((replen + 2 ^ 64 - patlen) % 2 ^ 64)) % 2 ^ 64

/-- Source: second `for` loop of `strreplace` followed by the final `strcpy`.
`ret` holds the bytes already stored in `returned[0 .. retptr)`; the result is
the content of the returned buffer before its terminator. -/
def strreplace_copy (pattern replacement : List Nat) :
    Nat → List Nat → List Nat → Option (List Nat)
  | 0, _, _ => none
  | fuel + 1, oriptr, ret =>
    match strstr oriptr pattern with
    | none => some (ret ++ cstr oriptr)
    | some skplen =>
      let ret1 := ret ++ strncpy oriptr skplen
      let ret2 := ret1 ++ strncpy replacement (strlen replacement)
      strreplace_copy pattern replacement fuel (oriptr.drop (skplen + strlen pattern)) ret2

/-- Source: `strreplace`, assuming `malloc` succeeds.  The counting loop runs
first; the copy loop only starts once it has finished. -/
def strreplace (fuel : Nat) (original pattern replacement : List Nat) : Option (List Nat) :=
  match strreplace_count pattern fuel original 0 with
  | none => none
  | some _ => strreplace_copy pattern replacement fuel original []

/-- Specification of `substitute`: scan left to right; where the pattern starts,
emit the replacement and resume right after the occurrence (`skip` counts the
bytes of the occurrence still to be passed over); every other byte is kept. -/
def substitute_spec (pattern replacement : List Nat) : Nat → List Nat → List Nat
  | _, [] => []
  | skip + 1, _ :: rest => substitute_spec pattern replacement skip rest
  | 0, c :: rest =>
    if pattern.isPrefixOf (c :: rest) then
      replacement ++ substitute_spec pattern replacement (pattern.length - 1) rest
    else c :: substitute_spec pattern replacement 0 rest

/-- Offsets in the output of `substitute_spec` at which a replacement was
written (`pos` is the output offset reached so far). -/
def replacement_sites (pattern replacement : List Nat) : Nat → Nat → List Nat → List Nat
  | _, _, [] => []
  | skip + 1, pos, _ :: rest => replacement_sites pattern replacement skip pos rest
  | 0, pos, c :: rest =>
    if pattern.isPrefixOf (c :: rest) then
      pos :: replacement_sites pattern replacement (pattern.length - 1)
        (pos + replacement.length) rest
    else replacement_sites pattern replacement 0 (pos + 1) rest

/-- Source: `pattern_len` of `find_target_str`, the `size_t` value
`p2_locate - p1_locate - p1_len`.  The second `strstr` starts at `p1_locate`,
the start of the first occurrence of `pattern1`.  `none` stands for a NULL
result of either `strstr` (the code then dereferences or subtracts NULL). -/
def find_target_str_len (original pattern1 pattern2 : List Nat) : Option Nat :=
  match strstr original pattern1 with
  | none => none
  | some p1_locate =>
    match strstr (original.drop p1_locate) pattern2 with
    | none => none
    | some p2_off => some ((p2_off + 2 ^ 64 - strlen pattern1) % 2 ^ 64)

/-- Source: `find_target_str`; the result is the `pattern_len` bytes stored by
`strncpy(target_name, p1_locate + p1_len, pattern_len)` (no terminator is written). -/
def find_target_str (original pattern1 pattern2 : List Nat) : Option (List Nat) :=
  match strstr original pattern1 with
  | none => none
  | some p1_locate =>
    match find_target_str_len original pattern1 pattern2 with
    | none => none
    | some pattern_len =>
      some (strncpy (original.drop (p1_locate + strlen pattern1)) pattern_len)

/-- Specification of `slice_between`: the bytes strictly between the end of the
first `left` and the start of the first `right` that begins at or after that end. -/
def slice_between_spec (src left right : List Nat) : Option (List Nat) :=
  match strstrFrom left src with
  | none => none
  | some i =>
    match strstrFrom right (src.drop (i + left.length)) with
    | none => none
    | some j => some ((src.drop (i + left.length)).take j)

/-! ## sockssrv.c: constants and state -/

def VENUS_POOL_URL : List Nat := bytes "cn.stratum.slushpool.com"
def VENUS_POOL_URL_PORT : Nat := 443

inductive socksstate
  | SS_1_CONNECTED
  | SS_2_NEED_AUTH
  | SS_3_AUTHED
  deriving DecidableEq, Repr

def AM_NO_AUTH : Nat := 0
def AM_GSSAPI : Nat := 1
def AM_USERNAME : Nat := 2
def AM_INVALID : Nat := 0xFF

def EC_SUCCESS : Nat := 0
def EC_GENERAL_FAILURE : Nat := 1
def EC_NOT_ALLOWED : Nat := 2
def EC_NET_UNREACHABLE : Nat := 3
def EC_HOST_UNREACHABLE : Nat := 4
def EC_CONN_REFUSED : Nat := 5
def EC_TTL_EXPIRED : Nat := 6
def EC_COMMAND_NOT_SUPPORTED : Nat := 7
def EC_ADDRESSTYPE_NOT_SUPPORTED : Nat := 8

/-- Address family and errno numbers of the platform headers (Linux values). -/
def AF_INET : Nat := 2
def AF_INET6 : Nat := 10
def EBADF : Nat := 9
def EPROTOTYPE : Nat := 91
def EPROTONOSUPPORT : Nat := 93
def EAFNOSUPPORT : Nat := 97
def ENETDOWN : Nat := 100
def ENETUNREACH : Nat := 101
def ECONNREFUSED : Nat := 111
def EHOSTUNREACH : Nat := 113

/-- The peer address `union sockaddr_union`: family, port and the raw address
bytes (`sin_addr`, 4 bytes, or `sin6_addr`, 16 bytes). -/
structure sockaddr_union where
  family : Nat
  port : Nat
  addr : List Nat
  deriving DecidableEq, Repr

/-- Source: `struct client` as far as the negotiation uses it. -/
structure client where
  fd : Int
  addr : sockaddr_union
  deriving DecidableEq, Repr

/-- Return values of the system calls made while dialing one destination. -/
structure Dial where
  resolve_rc : Int
  socket_fd : Int
  bind_rc : Int
  connect_rc : Int
  errno : Nat

/-- What lies outside the program: the IPv6 branch of `inet_ntop`, the
network as seen through `resolve`/`socket`/`server_bindtoip`/`connect`, and
the stack bytes that follow the two-byte array `venus_port`. -/
structure World where
  inet_ntop6 : List Nat → List Nat
  dial : List Nat → Nat → Dial
  venus_port_tail : List Nat

/-- The file-scope variables of `sockssrv.c`, with their initial values. -/
structure Globals where
  auth_user : Option (List Nat) := none
  auth_pass : Option (List Nat) := none
  auth_ips : Option (List sockaddr_union) := none
  bind_mode : Bool := false
  g_real_init_sub_ret : List Nat := []
  g_venus_init_sub_ret : List Nat := []
  g_real_notify_job_ret : List Nat := []
  g_venus_notify_job_ret : List Nat := []
  g_real_diff_value : List Nat := []
  g_venus_diff_value : List Nat := []
  g_real_job_count : Int := 0
  g_venus_job_count : Int := 0
  IS_VENUS_LOOP : Int := 0

/-- Reads `len` bytes of a received buffer from offset `off`; `none` when the
range leaves the buffer. -/
def read_bytes (buf : List Nat) (off len : Nat) : Option (List Nat) :=
  if off + len ≤ buf.length then some ((buf.drop off).take len) else none

/-- Decimal text of one address byte, as `inet_ntop` prints it. -/
def dec_digits (b : Nat) : List Nat :=
  if b < 10 then [48 + b]
  else if b < 100 then [48 + b / 10, 48 + b % 10]
  else [48 + b / 100, 48 + b / 10 % 10, 48 + b % 10]

/-- Dotted-decimal text of four address bytes. -/
def dotted_decimal (a : List Nat) : List Nat :=
  dec_digits (a.getD 0 0) ++ [46] ++ dec_digits (a.getD 1 0) ++ [46]
    ++ dec_digits (a.getD 2 0) ++ [46] ++ dec_digits (a.getD 3 0)

/-- Result of `inet_ntop(af, src, dst, size)` for the two families the caller
uses: the text stored in `dst`, or `none` (NULL) when it does not fit with its
terminator. -/
def inet_ntop (w : World) (af : Nat) (src : List Nat) (size : Nat) : Option (List Nat) :=
  let text := if af = AF_INET then dotted_decimal src else w.inet_ntop6 src
  if text.length + 1 ≤ size then some text else none

/-- Outcome of the parsing part of `connect_socks_target`. -/
inductive Target
  | error (ec : Nat)
  | dest (namebuf : List Nat) (port : Nat)
  deriving DecidableEq, Repr

/-- Source: `connect_socks_target` up to the computation of `port`.
`Target.error ec` is `return -ec`; `Target.dest namebuf port` carries the
content of `namebuf` up to and including its terminator and the port, the
arguments of `resolve`.  `buf` holds the `n` received bytes; the outer `none`
is a read outside them or a write outside `namebuf[256]`. -/
def connect_socks_target_parse (w : World) (buf : List Nat) (n : Nat) : Option Target :=
  if n < 5 then some (Target.error EC_GENERAL_FAILURE) else
  buf[0]?.bind fun b0 =>
  if b0 ≠ 5 then some (Target.error EC_GENERAL_FAILURE) else
  buf[1]?.bind fun b1 =>
  if b1 ≠ 1 then some (Target.error EC_COMMAND_NOT_SUPPORTED) else
  buf[2]?.bind fun b2 =>
  if b2 ≠ 0 then some (Target.error EC_GENERAL_FAILURE) else
  buf[3]?.bind fun atyp =>
  let port_at := fun (namebuf : List Nat) (minlen : Nat) =>
    buf[minlen - 2]?.bind fun hi =>
    buf[minlen - 1]?.bind fun lo =>
    some (Target.dest namebuf ((hi <<< 8 ||| lo) % 2 ^ 16))
  let numeric := fun (af minlen alen : Nat) =>
    if n < minlen then some (Target.error EC_GENERAL_FAILURE) else
    (read_bytes buf 4 alen).bind fun a =>
    match inet_ntop w af a 256 with
    | none => some (Target.error EC_GENERAL_FAILURE)
    | some text => port_at (text ++ [0]) minlen
  if atyp = 4 then numeric AF_INET6 (4 + 2 + 16) 16
  else if atyp = 1 then numeric AF_INET (4 + 4 + 2) 4
  else if atyp = 3 then
    buf[4]?.bind fun l =>
    let minlen := 4 + 2 + l + 1
    if n < 4 + 2 + l + 1 then some (Target.error EC_GENERAL_FAILURE) else
    (read_bytes buf (4 + 1) l).bind fun name =>
    if 256 ≤ l then none else
    port_at (name ++ [0]) minlen
  else some (Target.error EC_ADDRESSTYPE_NOT_SUPPORTED)

/-- Source: the `switch (errno)` under the label `eval_errno`. -/
def eval_errno (errno : Nat) : Int :=
  if errno = EPROTOTYPE ∨ errno = EPROTONOSUPPORT ∨ errno = EAFNOSUPPORT then
    -(EC_ADDRESSTYPE_NOT_SUPPORTED : Int)
  else if errno = ECONNREFUSED then -(EC_CONN_REFUSED : Int)
  else if errno = ENETDOWN ∨ errno = ENETUNREACH then -(EC_NET_UNREACHABLE : Int)
  else if errno = EHOSTUNREACH then -(EC_HOST_UNREACHABLE : Int)
  else -(EC_GENERAL_FAILURE : Int)

/-- Source: `connect_socks_target` from `resolve` on; `resolve` reads
`namebuf` as a C string. -/
def connect_socks_target_dial (w : World) (g : Globals) (namebuf : List Nat) (port : Nat) : Int :=
  let d := w.dial (cstr namebuf) port
  if d.resolve_rc ≠ 0 then -9
  else if d.socket_fd = -1 then -(EC_CONN_REFUSED : Int)
  else if g.bind_mode ∧ d.bind_rc = -1 then eval_errno d.errno
  else if d.connect_rc = -1 then eval_errno d.errno
  else d.socket_fd

/-- Source: `connect_socks_target`. -/
def connect_socks_target (w : World) (g : Globals) (buf : List Nat) (n : Nat) : Option Int :=
  match connect_socks_target_parse w buf n with
  | none => none
  | some (Target.error ec) => some (-(ec : Int))
  | some (Target.dest namebuf port) => some (connect_socks_target_dial w g namebuf port)

/-- Source: `is_authed`. -/
def is_authed (c authedip : sockaddr_union) : Bool :=
  if authedip.family = c.family then
    let af := authedip.family
    let cmpbytes := if af = AF_INET then 4 else 16
    c.addr.take cmpbytes == authedip.addr.take cmpbytes
  else false

/-- Source: the `while` loop of `check_auth_method`; the first argument is
`n_methods`, the last `idx`. -/
def check_auth_method_loop (g : Globals) (cl : client) (buf : List Nat) (n : Nat) :
    Nat → Nat → Option Nat
  | 0, _ => some AM_INVALID
  | n_methods + 1, idx =>
    if idx < n then
      buf[idx]?.bind fun m =>
      if m = AM_NO_AUTH then
        if g.auth_user.isNone then some AM_NO_AUTH
        else
          match g.auth_ips with
          | some ips =>
            if ips.any (is_authed cl.addr) then some AM_NO_AUTH
            else check_auth_method_loop g cl buf n n_methods (idx + 1)
          | none => check_auth_method_loop g cl buf n n_methods (idx + 1)
      else if m = AM_USERNAME then
        if g.auth_user.isSome then some AM_USERNAME
        else check_auth_method_loop g cl buf n n_methods (idx + 1)
      else check_auth_method_loop g cl buf n n_methods (idx + 1)
    else some AM_INVALID

/-- Source: `check_auth_method`. -/
def check_auth_method (g : Globals) (cl : client) (buf : List Nat) (n : Nat) : Option Nat :=
  buf[0]?.bind fun b0 =>
  if b0 ≠ 5 then some AM_INVALID else
  if 1 ≥ n then some AM_INVALID else
  buf[1]?.bind fun n_methods =>
  check_auth_method_loop g cl buf n n_methods 2

/-- Source: `check_credentials`; `strcmp` compares the C strings held in
`user`/`pass` with `auth_user`/`auth_pass` (a NULL one gives `none`). -/
def check_credentials (g : Globals) (buf : List Nat) (n : Nat) : Option Nat :=
  if n < 5 then some EC_GENERAL_FAILURE else
  buf[0]?.bind fun b0 =>
  if b0 ≠ 1 then some EC_GENERAL_FAILURE else
  buf[1]?.bind fun ulen =>
  if n < 2 + ulen + 2 then some EC_GENERAL_FAILURE else
  buf[2 + ulen]?.bind fun plen =>
  if n < 2 + ulen + 1 + plen then some EC_GENERAL_FAILURE else
  (read_bytes buf 2 ulen).bind fun uname =>
  (read_bytes buf (2 + ulen + 1) plen).bind fun passwd =>
  if 256 ≤ ulen ∨ 256 ≤ plen then none else
  let user := uname ++ [0]
  let pass := passwd ++ [0]
  g.auth_user.bind fun auth_user =>
  if cstr user = cstr auth_user then
    g.auth_pass.bind fun auth_pass =>
    if cstr pass = cstr auth_pass then some EC_SUCCESS else some EC_NOT_ALLOWED
  else some EC_NOT_ALLOWED

/-- Source: `add_auth_ip`. -/
def add_auth_ip (g : Globals) (cl : client) : Globals :=
  { g with auth_ips := g.auth_ips.map (fun ips => ips ++ [cl.addr]) }

/-- Bytes written by `send_auth_response(fd, version, meth)`. -/
def send_auth_response (version meth : Nat) : List Nat :=
  [version % 256, meth % 256]

/-- Bytes written by `send_error(fd, ec)`. -/
def send_error (ec : Nat) : List Nat :=
  [5, ec % 256, 0, 1, 0, 0, 0, 0, 0, 0]

/-- Observable actions of one client thread. -/
inductive Event
  | auth_method (am : Nat)
  | credentials (ret : Nat)
  | write (data : List Nat)
  | connect_target (buf : List Nat) (ret : Int)
  | copyloop (remotefd : Int)
  deriving DecidableEq, Repr

/-- How the `while (recv ...)` loop of `clientthread` goes on after a frame:
`next` waits for the next frame, `breakloop` leaves the loop, `hang` is the
wait loop on `IS_VENUS_LOOP` that no other thread ends, `undefined` is an
out-of-range access. -/
inductive Flow
  | next
  | breakloop
  | hang
  | undefined
  deriving DecidableEq, Repr

/-- Effect of handling one received frame. -/
structure Step where
  globals : Globals
  state : socksstate
  events : List Event
  flow : Flow

/-- Source: the buffer `venus_buf` built in the venus branch of `clientthread`,
cut to the length `5 + strlen(venus_pool) + 2` passed to `connect_socks_target`.
The second `strcat` appends `venus_port` read as a C string. -/
def venus_request (w : World) (buf : List Nat) : Option (List Nat) :=
  (read_bytes buf 0 4).bind fun hdr =>
  let venus_port := [VENUS_POOL_URL_PORT / 256 % 256, VENUS_POOL_URL_PORT % 256]
  let venus_buf := hdr ++ [strlen VENUS_POOL_URL % 256] ++ cstr VENUS_POOL_URL
    ++ cstr (venus_port ++ w.venus_port_tail)
  some ((venus_buf ++ List.replicate 1024 0).take (5 + strlen VENUS_POOL_URL + 2))

/-- Source: the body of the `switch (t->state)` in `clientthread` for one
received frame `buf` (`n = buf.length`). -/
def clientthread_step (w : World) (g : Globals) (cl : client) (st : socksstate)
    (buf : List Nat) : Step :=
  let n := buf.length
  match st with
  | socksstate.SS_1_CONNECTED =>
    match check_auth_method g cl buf n with
    | none => { globals := g, state := st, events := [], flow := Flow.undefined }
    | some am =>
      let st1 := if am = AM_NO_AUTH then socksstate.SS_3_AUTHED
        else if am = AM_USERNAME then socksstate.SS_2_NEED_AUTH else st
      { globals := g, state := st1,
        events := [Event.auth_method am, Event.write (send_auth_response 5 am)],
        flow := if am = AM_INVALID then Flow.breakloop else Flow.next }
  | socksstate.SS_2_NEED_AUTH =>
    match check_credentials g buf n with
    | none => { globals := g, state := st, events := [], flow := Flow.undefined }
    | some ret =>
      let evs := [Event.credentials ret, Event.write (send_auth_response 1 ret)]
      if ret ≠ EC_SUCCESS then
        { globals := g, state := st, events := evs, flow := Flow.breakloop }
      else
        { globals := if g.auth_ips.isSome then add_auth_ip g cl else g,
          state := socksstate.SS_3_AUTHED, events := evs, flow := Flow.next }
  | socksstate.SS_3_AUTHED =>
    if g.IS_VENUS_LOOP > 6 then
      { globals := g, state := st, events := [], flow := Flow.hang }
    else
      let g1 := { g with IS_VENUS_LOOP := 7 }
      let call : Option (Globals × List Nat × Int) :=
        if g1.IS_VENUS_LOOP = -1 then
          let g2 := { g1 with IS_VENUS_LOOP := 1 }
          (venus_request w buf).bind fun venus_buf =>
          (connect_socks_target w g2 venus_buf venus_buf.length).map fun ret =>
            (g2, venus_buf, ret)
        else
          (connect_socks_target w g1 buf n).map fun ret => (g1, buf, ret)
      match call with
      | none => { globals := g1, state := st, events := [], flow := Flow.undefined }
      | some (g3, arg, ret) =>
        if ret < 0 then
          { globals := g3, state := st,
            events := [Event.connect_target arg ret, Event.write (send_error (ret * -1).toNat)],
            flow := Flow.breakloop }
        else
          { globals := { g3 with IS_VENUS_LOOP := 4 }, state := st,
            events := [Event.connect_target arg ret, Event.write (send_error EC_SUCCESS),
              Event.copyloop ret],
            flow := Flow.breakloop }

/-- A run of one client thread: globals at the end, state after each handled
frame, actions in order, and how the loop ended. -/
structure Run where
  globals : Globals
  states : List socksstate
  events : List Event
  flow : Flow

/-- Source: the `while ((n = recv(...)) > 0)` loop of `clientthread` over the
frames delivered by `recv`; an empty frame (or no frame) is `recv` returning 0. -/
def clientthread_loop (w : World) (cl : client) :
    Globals → socksstate → List (List Nat) → Run
  | g, _, [] => { globals := g, states := [], events := [], flow := Flow.breakloop }
  | g, st, buf :: rest =>
    if buf = [] then { globals := g, states := [], events := [], flow := Flow.breakloop }
    else
      let r := clientthread_step w g cl st buf
      match r.flow with
      | Flow.next =>
        let run := clientthread_loop w cl r.globals r.state rest
        { run with states := r.state :: run.states, events := r.events ++ run.events }
      | f => { globals := r.globals, states := [r.state], events := r.events, flow := f }

/-- Source: `clientthread`, which starts in `SS_1_CONNECTED`. -/
def clientthread (w : World) (g : Globals) (cl : client) (frames : List (List Nat)) : Run :=
  let run := clientthread_loop w cl g socksstate.SS_1_CONNECTED frames
  { run with states := socksstate.SS_1_CONNECTED :: run.states }

/-- Position of a negotiation state in the order Connected, NeedAuth, Authed. -/
def socksstate.rank : socksstate → Nat
  | socksstate.SS_1_CONNECTED => 0
  | socksstate.SS_2_NEED_AUTH => 1
  | socksstate.SS_3_AUTHED => 2

/-- A world in which every dial succeeds with descriptor 7. -/
def world_ok : World :=
  { inet_ntop6 := fun _ => bytes "::",
    dial := fun _ _ => { resolve_rc := 0, socket_fd := 7, bind_rc := 0, connect_rc := 0, errno := 0 },
    venus_port_tail := [] }

/-- A peer at 10.0.0.1. -/
def peer1 : client :=
  { fd := 5, addr := { family := AF_INET, port := 40000, addr := [10, 0, 0, 1] } }

/-- A request is rejected with `code` before any dial: the parser returns the
error, `connect_socks_target` returns `-code`, and (once the wait on
`IS_VENUS_LOOP` is passed) the thread writes the 10-byte error reply and
leaves the loop without relaying. -/
def Rejected (w : World) (g : Globals) (buf : List Nat) (code : Nat) : Prop :=
  connect_socks_target_parse w buf buf.length = some (Target.error code)
    ∧ connect_socks_target w g buf buf.length = some (-(code : Int))
    ∧ send_error code = [5, code, 0, 1, 0, 0, 0, 0, 0, 0]
    ∧ ∀ cl : client, g.IS_VENUS_LOOP ≤ 6 →
        (clientthread_step w g cl socksstate.SS_3_AUTHED buf).events
          = [Event.connect_target buf (-(code : Int)),
             Event.write [5, code, 0, 1, 0, 0, 0, 0, 0, 0]]
        ∧ (clientthread_step w g cl socksstate.SS_3_AUTHED buf).flow = Flow.breakloop

/-- The peer's (family, address) is in the auth-IP cache, port ignored. -/
def in_auth_cache (g : Globals) (cl : client) : Prop :=
  ∃ ips, g.auth_ips = some ips
    ∧ ∃ e ∈ ips, e.family = cl.addr.family ∧ e.addr = cl.addr.addr

/-- Globals of a server started with `-u u -P p -1` after the peer 10.0.0.1 has
authenticated once (from another source port). -/
def globals_auth_once : Globals :=
  { auth_user := some (bytes "u"), auth_pass := some (bytes "p"),
    auth_ips := some [{ family := AF_INET, port := 51000, addr := [10, 0, 0, 1] }] }

/-- A user/pass frame passes the version and length checks of
`check_credentials` with the given ULEN and PLEN bytes. -/
def creds_frame_ok (buf : List Nat) (ulen plen : Nat) : Prop :=
  5 ≤ buf.length ∧ buf[0]? = some 1 ∧ buf[1]? = some ulen ∧ ulen + 4 ≤ buf.length
    ∧ buf[2 + ulen]? = some plen ∧ ulen + 3 + plen ≤ buf.length

/-- The UNAME field of a user/pass frame. -/
def creds_uname (buf : List Nat) (ulen : Nat) : List Nat :=
  (buf.drop 2).take ulen

/-- The PASSWD field of a user/pass frame. -/
def creds_passwd (buf : List Nat) (ulen plen : Nat) : List Nat :=
  (buf.drop (2 + ulen + 1)).take plen

/-- Globals of a server started with `-u u -P p`. -/
def globals_up : Globals :=
  { auth_user := some (bytes "u"), auth_pass := some (bytes "p") }

/-- Source: the lookup loop over `auth_ips` in `check_auth_method`, as a
predicate on the peer (false when `auth_ips` is NULL). -/
def cache_hit (g : Globals) (cl : client) : Bool :=
  match g.auth_ips with
  | some ips => ips.any (is_authed cl.addr)
  | none => false

/-- Every call of `connect_socks_target` in a trace comes after a
`check_credentials` that returned EC_SUCCESS. -/
def ConnectAfterAuth (events : List Event) : Prop :=
  ∀ pre buf ret post, events = pre ++ Event.connect_target buf ret :: post →
    Event.credentials EC_SUCCESS ∈ pre

/-- Presence indicator used by the specification: 1 when `key` occurs in `b`
as a contiguous byte sequence, 0 otherwise. -/
def present (key b : List Nat) : Nat :=
  if key <:+: b then 1 else 0

/-! ## sockssrv.c: the relays -/

/-- Memory the relays read without having written it: the stack bytes that
follow `buf[1024]`, and the heap bytes that follow the blocks returned by
`malloc` to the slices of one call: `after_block` for the first slice taken,
`after_block2` for the second one (`old_id_buf` in `repalce_id_send`), each
block having its own neighbourhood on the heap. -/
structure Memory where
  after_buf : List Nat
  after_block : List Nat
  after_block2 : List Nat

/-- Outcome of `select` in one iteration of a relay: 0 (timeout), -1 with
`EINTR`, -1 with another error, `fd1` readable, or only `fd2` readable. -/
inductive Select
  | timeout
  | interrupted
  | failed
  | fd1_ready
  | fd2_ready
  deriving DecidableEq, Repr

/-- One iteration of a relay as the outside world drives it: the `select`
outcome, the bytes `read` delivers (`n` is their number, the empty list stands
for `n <= 0`), and the values returned by the `write` calls that follow. -/
structure Round where
  select : Select
  data : List Nat
  writes : List Int

/-- Bytes accepted by one socket in one write loop; `to_fd1` tells which. -/
structure Output where
  to_fd1 : Bool
  bytes : List Nat
  deriving DecidableEq, Repr

/-- How a relay loop goes on: `next` iteration, `exit ret` (the function
returns `ret`; 0 for the `void` relay), or `waiting` for more input from the
outside world. -/
inductive LoopFlow
  | next
  | exit (ret : Int)
  | waiting
  deriving DecidableEq, Repr

/-- State of a write loop when it stops. -/
inductive WriteStatus
  | complete
  | failed
  | waiting
  deriving DecidableEq, Repr

/-- Result of a write loop: the bytes accepted, how it stopped, and the write
results not consumed. -/
structure Written where
  bytes : List Nat
  status : WriteStatus
  rest : List Int

/-- Source: `while (sent < n) { m = write(outfd, buf + sent, n - sent); if (m < 0)
return; sent += m; }` over the `n = data.length` bytes of `data`, fed with the
successive return values of `write`. -/
def write_loop (data : List Nat) : Nat → List Int → Written
  | sent, [] =>
    if sent < data.length then { bytes := [], status := WriteStatus.waiting, rest := [] }
    else { bytes := [], status := WriteStatus.complete, rest := [] }
  | sent, m :: rest =>
    if sent < data.length then
      if m < 0 then { bytes := [], status := WriteStatus.failed, rest := rest }
      else
        let w := write_loop data (sent + m.toNat) rest
        { w with bytes := (data.drop sent).take m.toNat ++ w.bytes }
    else { bytes := [], status := WriteStatus.complete, rest := m :: rest }

/-- Bytes accepted by a single `write(fd, data, data.length)` whose result is ignored. -/
def write_once (data : List Nat) (results : List Int) : List Nat :=
  match results with
  | [] => []
  | m :: _ => if m < 0 then [] else data.take m.toNat

/-- Content of `char buf[1024] = {0}` after `read` stored `data` in it, followed
by what lies behind the array. -/
def chunk_mem (mem : Memory) (data : List Nat) : List Nat :=
  data ++ List.replicate (1024 - data.length) 0 ++ mem.after_buf

/-- Effect of one iteration of `copyloop`. -/
structure CopyStep where
  retry : Nat
  outputs : List Output
  flow : LoopFlow

/-- Source: one iteration of the `while (1)` loop of `copyloop`. -/
def copyloop_step (retry : Nat) (r : Round) : CopyStep :=
  match r.select with
  | Select.timeout =>
    { retry := retry, outputs := [{ to_fd1 := true, bytes := write_once (send_error EC_TTL_EXPIRED) r.writes }],
      flow := LoopFlow.exit 0 }
  | Select.interrupted => { retry := retry, outputs := [], flow := LoopFlow.next }
  | Select.failed => { retry := retry, outputs := [], flow := LoopFlow.exit 0 }
  | sel =>
    let to_fd1 := decide (sel = Select.fd2_ready)
    if r.data.length ≤ 0 then
      if retry < 6 then { retry := retry + 1, outputs := [], flow := LoopFlow.next }
      else { retry := retry, outputs := [], flow := LoopFlow.exit 0 }
    else
      let w := write_loop r.data 0 r.writes
      { retry := retry, outputs := [{ to_fd1 := to_fd1, bytes := w.bytes }],
        flow := match w.status with
          | WriteStatus.complete => LoopFlow.next
          | WriteStatus.failed => LoopFlow.exit 0
          | WriteStatus.waiting => LoopFlow.waiting }

/-- A run of a relay: what each write loop sent, in order, and how the run stands. -/
structure CopyRun where
  outputs : List Output
  flow : LoopFlow

/-- Source: the `while (1)` loop of `copyloop` over the rounds the outside
world provides; with no round left the relay waits in `select`. -/
def copyloop_loop : Nat → List Round → CopyRun
  | _, [] => { outputs := [], flow := LoopFlow.waiting }
  | retry, r :: rest =>
    let s := copyloop_step retry r
    match s.flow with
    | LoopFlow.next =>
      let run := copyloop_loop s.retry rest
      { run with outputs := s.outputs ++ run.outputs }
    | f => { outputs := s.outputs, flow := f }

/-- Source: `copyloop`, which starts with `retry = 0`. -/
def copyloop (rounds : List Round) : CopyRun :=
  copyloop_loop 0 rounds

/-- A round in which `read` returned `n <= 0`. -/
def Round.is_empty_read (r : Round) : Bool :=
  (r.select == Select.fd1_ready || r.select == Select.fd2_ready) && r.data.isEmpty

/-- A round in which a socket was readable and, if bytes were read, every
`write` returns a positive count and there are enough of them. -/
def Round.quiet (r : Round) : Prop :=
  (r.select = Select.fd1_ready ∨ r.select = Select.fd2_ready)
    ∧ (∀ m ∈ r.writes, 0 < m) ∧ r.data.length ≤ r.writes.length

/-- What a quiet round that delivered bytes puts on the other socket. -/
def Round.forwarded (r : Round) : Output :=
  { to_fd1 := decide (r.select = Select.fd2_ready), bytes := r.data }

/-- The forwarded chunks of a session, one per round that delivered bytes, in order. -/
def forwarded_outputs (rounds : List Round) : List Output :=
  (rounds.filter (fun r => !r.data.isEmpty)).map Round.forwarded

/-- A round in which the client socket is readable and `read` returns 0. -/
def round_empty : Round :=
  { select := Select.fd1_ready, data := [], writes := [] }

/-- A round in which the client sends `abc` and the writes go through in pieces of 1 and 2 bytes. -/
def round_abc : Round :=
  { select := Select.fd1_ready, data := bytes "abc", writes := [1, 2, 1] }

/-- Effect of one iteration of `copyloop_simple` or `copyloop_venus`. -/
structure RelayStep where
  globals : Globals
  retry : Nat
  outputs : List Output
  flow : LoopFlow

/-- The tail of an iteration of `copyloop_simple`: the write loop over the `n`
bytes read. -/
def copyloop_simple_forward (g : Globals) (retry : Nat) (to_fd1 : Bool) (r : Round) :
    RelayStep :=
  let w := write_loop r.data 0 r.writes
  { globals := g, retry := retry, outputs := [{ to_fd1 := to_fd1, bytes := w.bytes }],
    flow := match w.status with
      | WriteStatus.complete => LoopFlow.next
      | WriteStatus.failed => LoopFlow.exit (-1)
      | WriteStatus.waiting => LoopFlow.waiting }

/-- Source: one iteration of the `while (1)` loop of `copyloop_simple`. -/
def copyloop_simple_step (mem : Memory) (g : Globals) (retry : Nat) (r : Round) : RelayStep :=
  match r.select with
  | Select.timeout =>
    { globals := g, retry := retry,
      outputs := [{ to_fd1 := true, bytes := write_once (send_error EC_TTL_EXPIRED) r.writes }],
      flow := LoopFlow.exit (-1) }
  | Select.interrupted => { globals := g, retry := retry, outputs := [], flow := LoopFlow.next }
  | Select.failed => { globals := g, retry := retry, outputs := [], flow := LoopFlow.exit (-1) }
  | sel =>
    let from_fd2 := decide (sel = Select.fd2_ready)
    if r.data.length ≤ 0 then
      if retry < 3 then { globals := g, retry := retry + 1, outputs := [], flow := LoopFlow.next }
      else { globals := g, retry := retry, outputs := [], flow := LoopFlow.exit (-1) }
    else if check_stratum_msg_type (chunk_mem mem r.data) = STM_NOTIFY ∧ from_fd2 = true then
      if g.IS_VENUS_LOOP = 1 then
        let g1 := { g with g_venus_job_count := g.g_venus_job_count + 1 }
        if g1.g_venus_job_count > 3 then
          { globals := { g1 with g_real_job_count := 0, IS_VENUS_LOOP := 0 }, retry := retry,
            outputs := [], flow := LoopFlow.exit 1 }
        else copyloop_simple_forward g1 retry from_fd2 r
      else if g.IS_VENUS_LOOP = 0 then
        let g1 := { g with g_real_job_count := g.g_real_job_count + 1 }
        if g1.g_real_job_count > 5 then
          { globals := { g1 with g_venus_job_count := 0, IS_VENUS_LOOP := 1 }, retry := retry,
            outputs := [], flow := LoopFlow.exit 1 }
        else copyloop_simple_forward g1 retry from_fd2 r
      else copyloop_simple_forward g retry from_fd2 r
    else copyloop_simple_forward g retry from_fd2 r

/-- A run of `copyloop_simple` or `copyloop_venus`. -/
structure RelayRun where
  globals : Globals
  outputs : List Output
  flow : LoopFlow

/-- Source: the `while (1)` loop of `copyloop_simple`. -/
def copyloop_simple_loop (mem : Memory) : Globals → Nat → List Round → RelayRun
  | g, _, [] => { globals := g, outputs := [], flow := LoopFlow.waiting }
  | g, retry, r :: rest =>
    let s := copyloop_simple_step mem g retry r
    match s.flow with
    | LoopFlow.next =>
      let run := copyloop_simple_loop mem s.globals s.retry rest
      { run with outputs := s.outputs ++ run.outputs }
    | f => { globals := s.globals, outputs := s.outputs, flow := f }

/-- Source: `copyloop_simple`, which starts with `retry = 0`. -/
def copyloop_simple (mem : Memory) (g : Globals) (rounds : List Round) : RelayRun :=
  copyloop_simple_loop mem g 0 rounds

/-- A server-to-client NOTIFY chunk: only `fd2` is readable, at least one byte
is read, the classifier returns STM_NOTIFY on the buffer, and every `write`
returns a positive count (with enough of them). -/
def Round.notify_from_upstream (mem : Memory) (r : Round) : Prop :=
  r.select = Select.fd2_ready ∧ 1 ≤ r.data.length
    ∧ check_stratum_msg_type (chunk_mem mem r.data) = STM_NOTIFY
    ∧ (∀ m ∈ r.writes, 0 < m) ∧ r.data.length ≤ r.writes.length

/-- Memory in which the relay buffer and every allocated block are followed by a zero byte. -/
def mem_zero : Memory :=
  { after_buf := [0], after_block := [0], after_block2 := [0] }

/-- Memory of a heap that was used before: the first slice of a call is
followed by the bytes `ZZ`, the second one by `ZZ1`, left there by blocks that
were filled and freed earlier, before the next zero byte. -/
def mem_dirty : Memory :=
  { after_buf := [0], after_block := bytes "ZZ" ++ [0], after_block2 := bytes "ZZ1" ++ [0] }

/-- A NOTIFY line arriving from upstream, written to the client in one piece. -/
def round_notify : Round :=
  { select := Select.fd2_ready,
    data := bytes "\x7b\"id\":null,\"method\":\"mining.notify\",\"params\":[\"j\"]\x7d\n",
    writes := List.replicate 64 64 }

/-! ## sockssrv.c: the MITM relay -/

def g_result_true_msg_template : List Nat :=
  bytes "\x7b\"id\": REPLACE_PATTERN,\"result\": true,\"error\": null\x7d"

def g_set_diff_msg_template : List Nat :=
  bytes "\x7b\"id\": null,\"method\": \"mining.set_difficulty\",\"params\": [REPLACE_PATTERN]\x7d"

def REPLACE_PATTERN : List Nat := bytes "REPLACE_PATTERN"

def VENUS_WORKER_NAME : List Nat := bytes "rayraycoin.v2"

/-- Source: `find_target_str_with_pattern`; the result is the `pattern_len`
bytes stored by `strncpy(target_name, p1_locate, pattern_len)`, from the start
of `pattern1` through the end of `pattern2` (no terminator is written). -/
def find_target_str_with_pattern (original pattern1 pattern2 : List Nat) :
    Option (List Nat) :=
  match strstr original pattern1 with
  | none => none
  | some p1_locate =>
    match strstr (original.drop p1_locate) pattern2 with
    | none => none
    | some p2_off =>
      let pattern_len := (p2_off + strlen pattern2) % 2 ^ 64
      some (strncpy (original.drop p1_locate) pattern_len)

/-- A call of `strreplace` that is waited for: its result, or `none` when it
never returns.  One more unit of fuel than the length of the original covers
every call with a non-empty pattern. -/
def strreplace_call (original pattern replacement : List Nat) : Option (List Nat) :=
  strreplace (strlen original + 1) original pattern replacement

/-- Source: `send_buf`; `failed` is the return value -1 (also for an empty
string, for which nothing is written), `complete` the return value 0. -/
def send_buf (buf : List Nat) (results : List Int) : Written :=
  let n := strlen buf
  if n ≤ 0 then { bytes := [], status := WriteStatus.failed, rest := results }
  else write_loop (cstr buf) 0 results

/-- Consecutive `send_buf` calls of one iteration followed by `continue` (or
by the end of the loop body); the return values are ignored, as in the source.
One `Output` is recorded per call. -/
def send_seq : List (Bool × List Nat) → List Int → List Output × LoopFlow
  | [], _ => ([], LoopFlow.next)
  | (to_fd1, buf) :: more, results =>
    let w := send_buf buf results
    match w.status with
    | WriteStatus.waiting => ([{ to_fd1 := to_fd1, bytes := w.bytes }], LoopFlow.waiting)
    | _ =>
      let tail := send_seq more w.rest
      ({ to_fd1 := to_fd1, bytes := w.bytes } :: tail.1, tail.2)

/-- The string passed to `send_buf` by `repalce_id_send(outfd, new_buf, old_buf)`.
The two slices are read back as C strings, so they run on into the bytes that
follow their blocks.  `none` is a NULL from `strstr` or a `strreplace` that
does not return. -/
def repalce_id_payload (mem : Memory) (new_buf old_buf : List Nat) : Option (List Nat) :=
  (find_target_str_with_pattern new_buf (bytes "\"id\":") (bytes ",")).bind fun new_id_buf =>
  (find_target_str_with_pattern old_buf (bytes "\"id\":") (bytes ",")).bind fun old_id_buf =>
  strreplace_call old_buf (old_id_buf ++ mem.after_block2) (new_id_buf ++ mem.after_block)

/-- The string passed to `send_buf` by `repalce_name_send(outfd, buf)`. -/
def repalce_name_payload (mem : Memory) (buf : List Nat) : Option (List Nat) :=
  (find_target_str_with_pattern buf (bytes "[\"") (bytes ",")).bind fun real_name_buf =>
  strreplace_call buf (real_name_buf ++ mem.after_block) VENUS_WORKER_NAME

/-- Source: `backup_msg(src, dst)`; the bytes `strcpy` stores in `dst` before
the terminator.  No bound of `dst` is looked at. -/
def backup_msg (src : List Nat) : List Nat :=
  cstr src

/-- One iteration that ends in `send_buf` calls. -/
def relay_sends (g : Globals) (msgs : List (Bool × List Nat)) (results : List Int) :
    RelayStep :=
  { globals := g, retry := 0, outputs := (send_seq msgs results).1,
    flow := (send_seq msgs results).2 }

/-- Source: one iteration of the `while (1)` loop of `copyloop_venus`.
`none` is a NULL from `strstr` used by a slice, or a `strreplace` that does
not return. -/
def copyloop_venus_step (mem : Memory) (g : Globals) (r : Round) : Option RelayStep :=
  match r.select with
  | Select.timeout =>
    some { globals := g, retry := 0,
           outputs := [{ to_fd1 := true, bytes := write_once (send_error EC_TTL_EXPIRED) r.writes }],
           flow := LoopFlow.exit (-1) }
  | Select.interrupted => some { globals := g, retry := 0, outputs := [], flow := LoopFlow.next }
  | Select.failed => some { globals := g, retry := 0, outputs := [], flow := LoopFlow.exit (-1) }
  | sel =>
    let from_fd1 := decide (sel = Select.fd1_ready)
    let to_fd1 := !from_fd1
    if r.data.length ≤ 0 then
      some { globals := g, retry := 0, outputs := [], flow := LoopFlow.exit (-1) }
    else
      let buf := chunk_mem mem r.data
      let ty := check_stratum_msg_type buf
      let default_send := fun (g1 : Globals) => some (relay_sends g1 [(to_fd1, buf)] r.writes)
      if ty = STM_SUBSCRIBE ∧ from_fd1 = true then
        if g.IS_VENUS_LOOP = 1 then
          if strlen g.g_venus_init_sub_ret > 0 then
            (repalce_id_payload mem buf g.g_venus_init_sub_ret).map fun p =>
              relay_sends g [(true, p)] r.writes
          else default_send g
        else if g.IS_VENUS_LOOP = 0 then
          if strlen g.g_real_init_sub_ret > 0 then
            (repalce_id_payload mem buf g.g_real_init_sub_ret).map fun p =>
              relay_sends g [(true, p)] r.writes
          else default_send g
        else default_send g
      else if ty = STM_AUTH ∧ from_fd1 = true then
        if g.IS_VENUS_LOOP = 1 then
          if strlen g.g_venus_diff_value > 0 then
            (repalce_id_payload mem buf g_result_true_msg_template).bind fun p1 =>
            (strreplace_call g_set_diff_msg_template REPLACE_PATTERN g.g_venus_diff_value).map
              fun p2 =>
              relay_sends g [(true, p1), (true, p2), (true, g.g_venus_notify_job_ret)] r.writes
          else
            (repalce_name_payload mem buf).map fun p => relay_sends g [(to_fd1, p)] r.writes
        else if g.IS_VENUS_LOOP = 0 then
          if strlen g.g_real_diff_value > 0 then
            (repalce_id_payload mem buf g_result_true_msg_template).bind fun p1 =>
            (strreplace_call g_set_diff_msg_template REPLACE_PATTERN g.g_real_diff_value).map
              fun p2 =>
              relay_sends g [(true, p1), (true, p2), (true, g.g_real_notify_job_ret)] r.writes
          else default_send g
        else default_send g
      else if ty = STM_SUBMIT ∧ from_fd1 = true then
        if g.IS_VENUS_LOOP = 1 then
          (repalce_name_payload mem buf).map fun p => relay_sends g [(to_fd1, p)] r.writes
        else default_send g
      else if ty = STM_INIT_SUBSCRIBE ∧ from_fd1 = false then
        if g.IS_VENUS_LOOP = 1 then
          default_send { g with g_venus_init_sub_ret := backup_msg buf }
        else if g.IS_VENUS_LOOP = 0 then
          default_send { g with g_real_init_sub_ret := backup_msg buf }
        else default_send g
      else if ty = STM_SET_DIFFICULT ∧ from_fd1 = false then
        if g.IS_VENUS_LOOP = 1 then
          (find_target_str buf (bytes "\"params\":[") (bytes "]")).bind fun diff =>
            default_send { g with g_venus_diff_value := cstr (diff ++ mem.after_block) }
        else if g.IS_VENUS_LOOP = 0 then
          (find_target_str buf (bytes "\"params\":[") (bytes "]")).bind fun diff =>
            default_send { g with g_real_diff_value := cstr (diff ++ mem.after_block) }
        else default_send g
      else if ty = STM_NOTIFY ∧ from_fd1 = false then
        if g.IS_VENUS_LOOP = 1 then
          let g1 := { g with g_venus_notify_job_ret := backup_msg buf,
                             g_venus_job_count := g.g_venus_job_count + 1 }
          if g1.g_venus_job_count > 3 then
            some { globals := { g1 with g_real_job_count := 0, IS_VENUS_LOOP := 0 }, retry := 0,
                   outputs := [], flow := LoopFlow.exit 1 }
          else default_send g1
        else if g.IS_VENUS_LOOP = 0 then
          let g1 := { g with g_real_notify_job_ret := backup_msg buf,
                             g_real_job_count := g.g_real_job_count + 1 }
          if g1.g_venus_job_count > 5 then
            some { globals := { g1 with g_venus_job_count := 0, IS_VENUS_LOOP := 1 }, retry := 0,
                   outputs := [], flow := LoopFlow.exit 1 }
          else default_send g1
        else default_send g
      else default_send g

/-- Source: the `while (1)` loop of `copyloop_venus`; `none` as in the step. -/
def copyloop_venus : Memory → Globals → List Round → Option RelayRun
  | _, g, [] => some { globals := g, outputs := [], flow := LoopFlow.waiting }
  | mem, g, r :: rest =>
    match copyloop_venus_step mem g r with
    | none => none
    | some s =>
      match s.flow with
      | LoopFlow.next =>
        (copyloop_venus mem s.globals rest).map fun run =>
          { run with outputs := s.outputs ++ run.outputs }
      | f => some { globals := s.globals, outputs := s.outputs, flow := f }

/-- A world in which the venus pool answers on descriptor 9 and every other
destination on descriptor 7. -/
def world_split : World :=
  { inet_ntop6 := fun _ => bytes "::",
    dial := fun host port =>
      { resolve_rc := 0,
        socket_fd := if host = VENUS_POOL_URL ∧ port = VENUS_POOL_URL_PORT then 9 else 7,
        bind_rc := 0, connect_rc := 0, errno := 0 },
    venus_port_tail := [] }

/-- A round delivering the text `str` from the client (`fd1`) or from upstream,
with 256 writes that take up to 2048 bytes each. -/
def round_of (from_client : Bool) (str : String) : Round :=
  { select := if from_client then Select.fd1_ready else Select.fd2_ready,
    data := bytes str, writes := List.replicate 256 2048 }

/-- A 600-byte upstream chunk naming both `mining.set_difficulty` and `mining.notify`. -/
def round_long_subscribe_reply : Round :=
  { select := Select.fd2_ready,
    data := bytes "mining.set_difficulty mining.notify " ++ List.replicate 564 120,
    writes := [2048] }

/-- An upstream `mining.set_difficulty` chunk whose params list is 300 bytes long. -/
def round_long_difficulty : Round :=
  { select := Select.fd2_ready,
    data := bytes "\x7b\"method\":\"mining.set_difficulty\",\"params\":[" ++ List.replicate 300 49
      ++ bytes "]\x7d\n",
    writes := [2048] }

/-- None of the six conditions of the `if ... else if` chain of `copyloop_venus`
holds for a chunk classified `ty` that came from the client (`from_fd1`) or
from upstream. -/
def no_rule_matches (ty : Nat) (from_fd1 : Bool) : Prop :=
  ¬ (ty = STM_SUBSCRIBE ∧ from_fd1 = true) ∧ ¬ (ty = STM_AUTH ∧ from_fd1 = true)
    ∧ ¬ (ty = STM_SUBMIT ∧ from_fd1 = true) ∧ ¬ (ty = STM_INIT_SUBSCRIBE ∧ from_fd1 = false)
    ∧ ¬ (ty = STM_SET_DIFFICULT ∧ from_fd1 = false) ∧ ¬ (ty = STM_NOTIFY ∧ from_fd1 = false)

/-- A three-byte chunk from the client with a zero byte in the middle. -/
def round_with_nul : Round :=
  { select := Select.fd1_ready, data := [0x41, 0, 0x42], writes := [3, 3, 3] }

/-- The synthesized OK result: the result-true template with its `"id": ...,`
field taken from a request whose id text (between `"id":` and the comma) is `x`. -/
def result_true_reply (x : List Nat) : List Nat :=
  bytes "\x7b\"id\":" ++ x ++ bytes ",\"result\": true,\"error\": null\x7d"

/-- The set-difficulty template with its placeholder replaced by `d`. -/
def set_difficulty_reply (d : List Nat) : List Nat :=
  bytes "\x7b\"id\": null,\"method\": \"mining.set_difficulty\",\"params\": [" ++ d
    ++ bytes "]\x7d"

/-- Globals in phase VENUS with a cached difficulty and a cached notify. -/
def globals_venus_cached : Globals :=
  { IS_VENUS_LOOP := 1, g_venus_diff_value := bytes "1024",
    g_venus_notify_job_ret := bytes "\x7b\"id\":null,\"method\":\"mining.notify\"\x7d\n" }

/-- A client `mining.authorize` request with id 2. -/
def round_auth : Round :=
  round_of true
    "\x7b\"id\": 2, \"method\": \"mining.authorize\", \"params\": [\"bob\", \"x\"]\x7d\n"

/-- A world in which name resolution succeeds and `socket()` fails with
`EAFNOSUPPORT`. -/
def world_no_socket : World :=
  { inet_ntop6 := fun _ => bytes "::",
    dial := fun _ _ =>
      { resolve_rc := 0, socket_fd := -1, bind_rc := 0, connect_rc := 0, errno := EAFNOSUPPORT },
    venus_port_tail := [] }

/-- A world in which `connect()` fails with the given `errno`. -/
def world_connect_fails (errno : Nat) : World :=
  { inet_ntop6 := fun _ => bytes "::",
    dial := fun _ _ =>
      { resolve_rc := 0, socket_fd := 7, bind_rc := 0, connect_rc := -1, errno := errno },
    venus_port_tail := [] }

/-- A CONNECT request for 10.0.0.2, port 80. -/
def connect_request : List Nat := [5, 1, 0, 1, 10, 0, 0, 2, 0, 80]

/-- The reply code `clientthread` sends for a negative return value `ret` of
`connect_socks_target` (`send_error(fd, ret * -1)`). -/
def reply_code (ret : Int) : Nat := (ret * -1).toNat

/-- The reply code the error table assigns to an `errno`. -/
def errno_reply_spec (errno : Nat) : Nat :=
  if errno = EPROTOTYPE ∨ errno = EPROTONOSUPPORT ∨ errno = EAFNOSUPPORT then 8
  else if errno = ECONNREFUSED then 5
  else if errno = ENETDOWN ∨ errno = ENETUNREACH then 3
  else if errno = EHOSTUNREACH then 4
  else 1

/-- An upstream `mining.set_difficulty` line in the layout of
`g_set_diff_msg_template`, with a blank between the colon and the bracket. -/
def round_spaced_difficulty : Round :=
  round_of false
    "\x7b\"id\": null,\"method\": \"mining.set_difficulty\",\"params\": [2048]\x7d\n"

/-- A client `mining.subscribe` line whose `id` member comes last, so that no
comma follows it. -/
def round_subscribe_id_last : Round :=
  round_of true "\x7b\"method\":\"mining.subscribe\",\"params\":[],\"id\":1\x7d\n"

/-- REAL phase with a cached subscribe reply. -/
def globals_real_cached : Globals :=
  { g_real_init_sub_ret := bytes "\x7b\"id\":1,\"result\":[[],\"00\",4],\"error\":null\x7d\n" }

theorem cstr_of_nulfree (s : List Nat) (h : ∀ c ∈ s, c ≠ 0) : cstr s = s := by
  unfold cstr
  rw [List.takeWhile_eq_self_iff]
  intro c hc
  simpa using h c hc

theorem cstr_nulfree (s : List Nat) : ∀ c ∈ cstr s, c ≠ 0 := by
  intro c hc
  have := List.mem_takeWhile_imp hc
  simpa using this

theorem cstr_idem (s : List Nat) : cstr (cstr s) = cstr s :=
  cstr_of_nulfree _ (cstr_nulfree s)

theorem strstrFrom_eq_none_iff (n h : List Nat) :
    strstrFrom n h = none ↔ ¬ n <:+: h := by
  induction h with
  | nil =>
    cases n <;> simp [strstrFrom]
  | cons c h ih =>
    unfold strstrFrom
    by_cases hp : n.isPrefixOf (c :: h) = true
    · have hp2 : n <+: c :: h := List.isPrefixOf_iff_prefix.mp hp
      simp only [hp, if_true]
      constructor
      · intro hh; cases hh
      · intro hh; exact absurd hp2.isInfix hh
    · have hp2 : ¬ n <+: c :: h := fun hh => hp (List.isPrefixOf_iff_prefix.mpr hh)
      simp only [hp, Bool.false_eq_true, if_false, Option.map_eq_none', ih]
      rw [List.infix_cons_iff]
      tauto

theorem strstrFrom_eq_some (n : List Nat) :
    ∀ (h : List Nat) (k : Nat), strstrFrom n h = some k →
      n <+: h.drop k ∧ k ≤ h.length ∧ ∀ j, j < k → ¬ n <+: h.drop j := by
  intro h
  induction h with
  | nil =>
    intro k hk
    cases n with
    | nil =>
      simp [strstrFrom] at hk
      subst hk
      simp
    | cons a n => simp [strstrFrom] at hk
  | cons c h ih =>
    intro k hk
    unfold strstrFrom at hk
    by_cases hp : n.isPrefixOf (c :: h) = true
    · simp only [hp, if_true, Option.some.injEq] at hk
      subst hk
      exact ⟨by simpa using List.isPrefixOf_iff_prefix.mp hp, Nat.zero_le _, by intro j hj; omega⟩
    · simp only [hp, Bool.false_eq_true, if_false, Option.map_eq_some'] at hk
      obtain ⟨k', hk', rfl⟩ := hk
      obtain ⟨h1, h2, h3⟩ := ih k' hk'
      refine ⟨by simpa using h1, by simp; omega, ?_⟩
      intro j hj
      cases j with
      | zero => simpa using fun hh => hp (List.isPrefixOf_iff_prefix.mpr hh)
      | succ j => simpa using h3 j (by omega)

theorem strstrFrom_isSome_iff (n h : List Nat) :
    (strstrFrom n h).isSome ↔ n <:+: h := by
  rw [← not_iff_not, ← strstrFrom_eq_none_iff]
  cases strstrFrom n h <;> simp

theorem check_pattern_in_str_eq_zero_iff (b key : List Nat)
    (hb : ∀ c ∈ b, c ≠ 0) (hk : ∀ c ∈ key, c ≠ 0) :
    check_pattern_in_str b key = 0 ↔ key <:+: b := by
  unfold check_pattern_in_str strstr
  rw [cstr_of_nulfree b hb, cstr_of_nulfree key hk, ← strstrFrom_isSome_iff]
  cases strstrFrom key b <;> simp

/-- C1: on a NUL-free buffer the classifier returns the sum of the five base
flags weighted by the presence of their method names. -/
theorem check_stratum_msg_type_additive (b : List Nat) (hb : ∀ c ∈ b, c ≠ 0) :
    check_stratum_msg_type b =
      1 * present STM_SUBSCRIBE_KEY b + 2 * present STM_AUTH_KEY b
        + 4 * present STM_SET_DIFFICULT_KEY b + 8 * present STM_NOTIFY_KEY b
        + 16 * present STM_SUBMIT_KEY b := by
  have h1 := check_pattern_in_str_eq_zero_iff b STM_SUBSCRIBE_KEY hb (by decide)
  have h2 := check_pattern_in_str_eq_zero_iff b STM_AUTH_KEY hb (by decide)
  have h3 := check_pattern_in_str_eq_zero_iff b STM_SET_DIFFICULT_KEY hb (by decide)
  have h4 := check_pattern_in_str_eq_zero_iff b STM_NOTIFY_KEY hb (by decide)
  have h5 := check_pattern_in_str_eq_zero_iff b STM_SUBMIT_KEY hb (by decide)
  simp only [check_stratum_msg_type, present, h1, h2, h3, h4, h5, STM_AUTH, STM_SUBSCRIBE,
    STM_SUBMIT, STM_SET_DIFFICULT, STM_NOTIFY]
  split_ifs <;> rfl

/-- C1 witnesses: the plain notify line classifies as 8 and the subscribe
response carrying both set_difficulty and notify classifies as 12. -/
theorem check_stratum_msg_type_additive_witness :
    check_stratum_msg_type
        (bytes "\x7b\"id\":1,\"method\":\"mining.notify\",\"params\":[...]\x7d") = 8
    ∧ check_stratum_msg_type
        (bytes "\x7b\"id\":1,\"result\":[[[\"mining.set_difficulty\",\"x\"],[\"mining.notify\",\"y\"]], ...]\x7d") = 12 :=
  ⟨(check_stratum_msg_type_additive _ (by decide)).trans (by decide),
   (check_stratum_msg_type_additive _ (by decide)).trans (by decide)⟩

/-! ## `strreplace` against its specification -/

theorem strstr_of_nulfree (o p : List Nat) (ho : ∀ c ∈ o, c ≠ 0) (hp : ∀ c ∈ p, c ≠ 0) :
    strstr o p = strstrFrom p o := by
  unfold strstr
  rw [cstr_of_nulfree o ho, cstr_of_nulfree p hp]

theorem nulfree_drop (s : List Nat) (n : Nat) (h : ∀ c ∈ s, c ≠ 0) :
    ∀ c ∈ s.drop n, c ≠ 0 :=
  fun c hc => h c (List.mem_of_mem_drop hc)

theorem occurs_of_prefix_drop {p s : List Nat} {j : Nat} (h : p <+: s.drop j) : p <:+: s :=
  h.isInfix.trans (List.drop_suffix j s).isInfix

theorem substitute_spec_skip (pat rep : List Nat) :
    ∀ (s : List Nat) (skip : Nat),
      substitute_spec pat rep skip s = substitute_spec pat rep 0 (s.drop skip) := by
  intro s
  induction s with
  | nil => intro skip; cases skip <;> simp [substitute_spec]
  | cons c rest ih =>
    intro skip
    cases skip with
    | zero => simp
    | succ k => simp only [substitute_spec, List.drop_succ_cons]; exact ih k

theorem substitute_spec_keep (pat rep : List Nat) :
    ∀ (k : Nat) (s : List Nat), k ≤ s.length → (∀ j, j < k → ¬ pat <+: s.drop j) →
      substitute_spec pat rep 0 s = s.take k ++ substitute_spec pat rep 0 (s.drop k) := by
  intro k
  induction k with
  | zero => intro s _ _; simp
  | succ k ih =>
    intro s hk hno
    cases s with
    | nil => simp at hk
    | cons c rest =>
      have h0 : ¬ pat <+: c :: rest := by simpa using hno 0 (by omega)
      have h0b : pat.isPrefixOf (c :: rest) = false := by
        rw [Bool.eq_false_iff]; exact fun hh => h0 (List.isPrefixOf_iff_prefix.mp hh)
      have hrest := ih rest (by simpa using hk) (fun j hj => by simpa using hno (j + 1) (by omega))
      simp only [substitute_spec, h0b, Bool.false_eq_true, if_false, List.take_succ_cons,
        List.drop_succ_cons, List.cons_append]
      rw [← hrest]

theorem substitute_spec_found (pat rep s : List Nat) (k : Nat) (hne : pat ≠ [])
    (hk : strstrFrom pat s = some k) :
    substitute_spec pat rep 0 s
      = s.take k ++ rep ++ substitute_spec pat rep 0 (s.drop (k + pat.length)) := by
  obtain ⟨hpre, hle, hno⟩ := strstrFrom_eq_some pat s k hk
  rw [substitute_spec_keep pat rep k s hle hno, List.append_assoc]
  congr 1
  cases hd : s.drop k with
  | nil =>
    rw [hd] at hpre
    exact absurd (List.prefix_nil.mp hpre) hne
  | cons c rest =>
    rw [hd] at hpre
    have hb : pat.isPrefixOf (c :: rest) = true := List.isPrefixOf_iff_prefix.mpr hpre
    have hlen : 1 ≤ pat.length := List.length_pos.mpr hne
    simp only [substitute_spec, hb, if_true]
    rw [substitute_spec_skip]
    have : s.drop (k + pat.length) = rest.drop (pat.length - 1) := by
      rw [← List.drop_drop, hd]
      obtain ⟨m, hm⟩ : ∃ m, pat.length = m + 1 := ⟨pat.length - 1, by omega⟩
      rw [hm]; simp
    rw [this]

theorem substitute_spec_absent (pat rep s : List Nat) (h : ¬ pat <:+: s) :
    substitute_spec pat rep 0 s = s := by
  have := substitute_spec_keep pat rep s.length s (Nat.le_refl _)
    (fun j _ hh => h (occurs_of_prefix_drop hh))
  simpa [substitute_spec] using this

theorem strstrFrom_found_bound (pat s : List Nat) (k : Nat) (hne : pat ≠ [])
    (hk : strstrFrom pat s = some k) : k + pat.length ≤ s.length := by
  obtain ⟨hpre, hle, _⟩ := strstrFrom_eq_some pat s k hk
  have := hpre.length_le
  simp at this
  have hlen : 1 ≤ pat.length := List.length_pos.mpr hne
  omega

theorem strreplace_count_terminates (pat : List Nat) (hp : ∀ c ∈ pat, c ≠ 0) (hne : pat ≠ []) :
    ∀ (fuel : Nat) (o : List Nat) (cnt : Nat), (∀ c ∈ o, c ≠ 0) → o.length < fuel →
      ∃ r, strreplace_count pat fuel o cnt = some r := by
  intro fuel
  induction fuel with
  | zero => intro o cnt _ hf; omega
  | succ fuel ih =>
    intro o cnt ho hf
    unfold strreplace_count
    rw [strstr_of_nulfree o pat ho hp]
    cases hk : strstrFrom pat o with
    | none => exact ⟨cnt, rfl⟩
    | some k =>
      have hb := strstrFrom_found_bound pat o k hne hk
      have hlen : 1 ≤ pat.length := List.length_pos.mpr hne
      simp only [strlen, cstr_of_nulfree pat hp]
      apply ih _ _ (nulfree_drop o _ ho)
      simp; omega

theorem strncpy_of_le (s : List Nat) (n : Nat) (hs : ∀ c ∈ s, c ≠ 0) (hn : n ≤ s.length) :
    strncpy s n = s.take n := by
  unfold strncpy strlen
  rw [cstr_of_nulfree s hs, Nat.sub_eq_zero_of_le hn]
  simp

theorem strreplace_copy_spec (pat rep : List Nat) (hp : ∀ c ∈ pat, c ≠ 0)
    (hr : ∀ c ∈ rep, c ≠ 0) (hne : pat ≠ []) :
    ∀ (fuel : Nat) (o ret : List Nat), (∀ c ∈ o, c ≠ 0) → o.length < fuel →
      strreplace_copy pat rep fuel o ret = some (ret ++ substitute_spec pat rep 0 o) := by
  intro fuel
  induction fuel with
  | zero => intro o ret _ hf; omega
  | succ fuel ih =>
    intro o ret ho hf
    unfold strreplace_copy
    rw [strstr_of_nulfree o pat ho hp]
    cases hk : strstrFrom pat o with
    | none =>
      have habs : ¬ pat <:+: o := (strstrFrom_eq_none_iff pat o).mp hk
      simp only [cstr_of_nulfree o ho, substitute_spec_absent pat rep o habs]
    | some k =>
      have hb := strstrFrom_found_bound pat o k hne hk
      have hlen : 1 ≤ pat.length := List.length_pos.mpr hne
      simp only [strlen, cstr_of_nulfree pat hp, cstr_of_nulfree rep hr]
      rw [ih _ _ (nulfree_drop o _ ho) (by simp; omega),
        strncpy_of_le o k ho (by omega), strncpy_of_le rep rep.length hr (Nat.le_refl _),
        substitute_spec_found pat rep o k hne hk]
      simp

theorem strreplace_eq_substitute_spec (src pat rep : List Nat) (fuel : Nat)
    (hs : ∀ c ∈ src, c ≠ 0) (hp : ∀ c ∈ pat, c ≠ 0) (hr : ∀ c ∈ rep, c ≠ 0)
    (hne : pat ≠ []) (hf : src.length < fuel) :
    strreplace fuel src pat rep = some (substitute_spec pat rep 0 src) := by
  unfold strreplace
  obtain ⟨r, hr1⟩ := strreplace_count_terminates pat hp hne fuel src 0 hs hf
  rw [hr1]
  simpa using strreplace_copy_spec pat rep hp hr hne fuel src [] hs hf

/-- C2: with a non-empty pattern `strreplace` terminates (any fuel above the
length of `src` suffices) and returns `src` with the occurrences met by the
left-to-right non-overlapping scan replaced; `src` itself when the pattern
does not occur. -/
theorem strreplace_refines_substitute (src pat rep : List Nat) (fuel : Nat)
    (hs : ∀ c ∈ src, c ≠ 0) (hp : ∀ c ∈ pat, c ≠ 0) (hr : ∀ c ∈ rep, c ≠ 0)
    (hne : pat ≠ []) (hf : src.length < fuel) :
    strreplace fuel src pat rep = some (substitute_spec pat rep 0 src)
      ∧ (¬ pat <:+: src → strreplace fuel src pat rep = some src) := by
  have hmain := strreplace_eq_substitute_spec src pat rep fuel hs hp hr hne hf
  exact ⟨hmain, fun habs => by rw [hmain, substitute_spec_absent pat rep src habs]⟩

/-- C2 witness: replacing `aa` by `b` in `aaaxaaaa` gives `baxbb`, and `xyz`,
which has no `aa`, comes back unchanged. -/
theorem strreplace_refines_substitute_witness :
    strreplace 9 (bytes "aaaxaaaa") (bytes "aa") (bytes "b") = some (bytes "baxbb")
      ∧ strreplace 4 (bytes "xyz") (bytes "aa") (bytes "b") = some (bytes "xyz") :=
  ⟨(strreplace_refines_substitute (bytes "aaaxaaaa") (bytes "aa") (bytes "b") 9
      (by decide) (by decide) (by decide) (by decide) (by decide)).1.trans (by decide),
   (strreplace_refines_substitute (bytes "xyz") (bytes "aa") (bytes "b") 4
      (by decide) (by decide) (by decide) (by decide) (by decide)).2 (by decide)⟩

/-! ## Round trip of `strreplace` -/

theorem strstrFrom_eq_some_of (n h : List Nat) (k : Nat) (hpre : n <+: h.drop k)
    (hno : ∀ j, j < k → ¬ n <+: h.drop j) :
    strstrFrom n h = some k := by
  cases hk : strstrFrom n h with
  | none =>
    exact absurd (occurs_of_prefix_drop hpre) ((strstrFrom_eq_none_iff n h).mp hk)
  | some k2 =>
    obtain ⟨h1, _, h3⟩ := strstrFrom_eq_some n h k2 hk
    rcases Nat.lt_trichotomy k2 k with hlt | heq | hgt
    · exact absurd h1 (hno k2 hlt)
    · rw [heq]
    · exact absurd hpre (h3 k hgt)

theorem strstrFrom_split (n h : List Nat) (k : Nat) (hk : strstrFrom n h = some k) :
    h = h.take k ++ n ++ h.drop (k + n.length) := by
  obtain ⟨⟨t, ht⟩, _, _⟩ := strstrFrom_eq_some n h k hk
  have h2 : h.drop (k + n.length) = t := by
    rw [← List.drop_drop, ← ht]; simp
  rw [h2, List.append_assoc, ht, List.take_append_drop]

theorem infix_exists_drop (p s : List Nat) (hne : p ≠ []) (h : p <:+: s) :
    ∃ i, i < s.length ∧ p <+: s.drop i := by
  obtain ⟨u, v, rfl⟩ := h
  refine ⟨u.length, ?_, ?_⟩
  · have : 1 ≤ p.length := List.length_pos.mpr hne
    simp; omega
  · simp [List.append_assoc]

theorem replacement_sites_skip (pat rep : List Nat) :
    ∀ (s : List Nat) (skip pos : Nat),
      replacement_sites pat rep skip pos s = replacement_sites pat rep 0 pos (s.drop skip) := by
  intro s
  induction s with
  | nil => intro skip pos; cases skip <;> simp [replacement_sites]
  | cons c rest ih =>
    intro skip pos
    cases skip with
    | zero => simp
    | succ k => simp only [replacement_sites, List.drop_succ_cons]; exact ih k pos

theorem replacement_sites_keep (pat rep : List Nat) :
    ∀ (k : Nat) (s : List Nat) (pos : Nat), k ≤ s.length →
      (∀ j, j < k → ¬ pat <+: s.drop j) →
      replacement_sites pat rep 0 pos s = replacement_sites pat rep 0 (pos + k) (s.drop k) := by
  intro k
  induction k with
  | zero => intro s pos _ _; simp
  | succ k ih =>
    intro s pos hk hno
    cases s with
    | nil => simp at hk
    | cons c rest =>
      have h0 : ¬ pat <+: c :: rest := by simpa using hno 0 (by omega)
      have h0b : pat.isPrefixOf (c :: rest) = false := by
        rw [Bool.eq_false_iff]; exact fun hh => h0 (List.isPrefixOf_iff_prefix.mp hh)
      have hrest := ih rest (pos + 1) (by simpa using hk)
        (fun j hj => by simpa using hno (j + 1) (by omega))
      simp only [replacement_sites, h0b, Bool.false_eq_true, if_false, List.drop_succ_cons]
      rw [hrest]
      congr 1
      omega

theorem replacement_sites_found (pat rep s : List Nat) (k pos : Nat) (hne : pat ≠ [])
    (hk : strstrFrom pat s = some k) :
    replacement_sites pat rep 0 pos s
      = (pos + k) :: replacement_sites pat rep 0 (pos + k + rep.length)
          (s.drop (k + pat.length)) := by
  obtain ⟨hpre, hle, hno⟩ := strstrFrom_eq_some pat s k hk
  rw [replacement_sites_keep pat rep k s pos hle hno]
  cases hd : s.drop k with
  | nil =>
    rw [hd] at hpre
    exact absurd (List.prefix_nil.mp hpre) hne
  | cons c rest =>
    rw [hd] at hpre
    have hb : pat.isPrefixOf (c :: rest) = true := List.isPrefixOf_iff_prefix.mpr hpre
    have hlen : 1 ≤ pat.length := List.length_pos.mpr hne
    simp only [replacement_sites, hb, if_true]
    rw [replacement_sites_skip]
    have : s.drop (k + pat.length) = rest.drop (pat.length - 1) := by
      rw [← List.drop_drop, hd]
      obtain ⟨m, hm⟩ : ∃ m, pat.length = m + 1 := ⟨pat.length - 1, by omega⟩
      rw [hm]; simp
    rw [this]

theorem replacement_sites_ge (pat rep : List Nat) :
    ∀ (s : List Nat) (skip pos x : Nat), x ∈ replacement_sites pat rep skip pos s → pos ≤ x := by
  intro s
  induction s with
  | nil => intro skip pos x hx; cases skip <;> simp [replacement_sites] at hx
  | cons c rest ih =>
    intro skip pos x hx
    cases skip with
    | succ k => exact ih k pos x (by simpa [replacement_sites] using hx)
    | zero =>
      simp only [replacement_sites] at hx
      split_ifs at hx with hb
      · rcases List.mem_cons.mp hx with rfl | hx2
        · exact Nat.le_refl _
        · have := ih _ _ x hx2; omega
      · have := ih _ _ x hx; omega

theorem replacement_sites_absent (pat rep s : List Nat) (pos : Nat) (h : ¬ pat <:+: s) :
    replacement_sites pat rep 0 pos s = [] := by
  have := replacement_sites_keep pat rep s.length s pos (Nat.le_refl _)
    (fun j _ hh => h (occurs_of_prefix_drop hh))
  simpa [replacement_sites] using this

theorem substitute_spec_mem (pat rep : List Nat) :
    ∀ (s : List Nat) (skip c : Nat), c ∈ substitute_spec pat rep skip s → c ∈ s ∨ c ∈ rep := by
  intro s
  induction s with
  | nil => intro skip c hc; cases skip <;> simp [substitute_spec] at hc
  | cons d rest ih =>
    intro skip c hc
    cases skip with
    | succ k =>
      rcases ih k c (by simpa [substitute_spec] using hc) with h | h
      · exact Or.inl (List.mem_cons_of_mem _ h)
      · exact Or.inr h
    | zero =>
      simp only [substitute_spec] at hc
      split_ifs at hc with hb
      · rcases List.mem_append.mp hc with h | h
        · exact Or.inr h
        · rcases ih _ c h with h2 | h2
          · exact Or.inl (List.mem_cons_of_mem _ h2)
          · exact Or.inr h2
      · rcases List.mem_cons.mp hc with h | h
        · exact Or.inl (h ▸ List.mem_cons_self _ _)
        · rcases ih _ c h with h2 | h2
          · exact Or.inl (List.mem_cons_of_mem _ h2)
          · exact Or.inr h2

theorem substitute_spec_roundtrip (a b : List Nat) (ha : a ≠ []) (hb : b ≠ []) :
    ∀ (n : Nat) (s : List Nat) (pos : Nat), s.length ≤ n →
      (∀ i, i < (substitute_spec a b 0 s).length → b <+: (substitute_spec a b 0 s).drop i →
          pos + i ∈ replacement_sites a b 0 pos s) →
      substitute_spec b a 0 (substitute_spec a b 0 s) = s := by
  intro n
  induction n with
  | zero =>
    intro s pos hlen _
    have : s = [] := List.length_eq_zero.mp (by omega)
    subst this
    simp [substitute_spec]
  | succ n ih =>
    intro s pos hlen hsites
    have hb1 : 1 ≤ b.length := List.length_pos.mpr hb
    have ha1 : 1 ≤ a.length := List.length_pos.mpr ha
    cases hk : strstrFrom a s with
    | none =>
      have habs := (strstrFrom_eq_none_iff a s).mp hk
      rw [substitute_spec_absent a b s habs] at hsites ⊢
      rw [replacement_sites_absent a b s pos habs] at hsites
      apply substitute_spec_absent
      intro hin
      obtain ⟨i, hi, hp⟩ := infix_exists_drop b s hb hin
      simpa using hsites i hi hp
    | some k =>
      have hbound := strstrFrom_found_bound a s k ha hk
      rw [substitute_spec_found a b s k ha hk] at hsites ⊢
      rw [replacement_sites_found a b s k pos ha hk] at hsites
      have hlen_take : (s.take k).length = k := by simp; omega
      have hdropk : (s.take k ++ b ++ substitute_spec a b 0 (s.drop (k + a.length))).drop k
          = b ++ substitute_spec a b 0 (s.drop (k + a.length)) := by
        rw [List.append_assoc, List.drop_left' hlen_take]
      have hdrop : (s.take k ++ b ++ substitute_spec a b 0 (s.drop (k + a.length))).drop
          (k + b.length) = substitute_spec a b 0 (s.drop (k + a.length)) := by
        rw [← List.drop_drop, hdropk, List.drop_left]
      have htake : (s.take k ++ b ++ substitute_spec a b 0 (s.drop (k + a.length))).take k
          = s.take k := by
        rw [List.append_assoc, List.take_left' hlen_take]
      have hfirst : strstrFrom b
          (s.take k ++ b ++ substitute_spec a b 0 (s.drop (k + a.length))) = some k := by
        apply strstrFrom_eq_some_of
        · rw [hdropk]; exact List.prefix_append _ _
        · intro j hj hp
          have hmem := hsites j (by simp; omega) hp
          rcases List.mem_cons.mp hmem with h1 | h2
          · omega
          · have := replacement_sites_ge _ _ _ _ _ _ h2; omega
      rw [substitute_spec_found b a _ k hb hfirst, hdrop, htake]
      have hrec : substitute_spec b a 0 (substitute_spec a b 0 (s.drop (k + a.length)))
          = s.drop (k + a.length) := by
        apply ih (s.drop (k + a.length)) (pos + k + b.length) (by simp; omega)
        intro i hi hp
        have hmem := hsites (k + b.length + i) (by simp; omega)
          (by rw [← List.drop_drop, hdrop]; exact hp)
        rcases List.mem_cons.mp hmem with h1 | h2
        · omega
        · have e : pos + (k + b.length + i) = pos + k + b.length + i := by omega
          rw [e] at h2; exact h2
      rw [hrec]
      exact (strstrFrom_split a s k hk).symm

/-- C3 (as stated, refuted): with `a = "a"`, `b = "b"`, `s = "b"` neither string
contains the other and `a` does not occur at all in `strreplace(s, a, b) = "b"`,
yet replacing back yields `"a"`, which is not `s`. -/
theorem strreplace_roundtrip_counterexample :
    bytes "a" ≠ [] ∧ bytes "b" ≠ []
      ∧ ¬ bytes "a" <:+: bytes "b" ∧ ¬ bytes "b" <:+: bytes "a"
      ∧ strreplace 2 (bytes "b") (bytes "a") (bytes "b") = some (bytes "b")
      ∧ ¬ bytes "a" <:+: bytes "b"
      ∧ strreplace 2 (bytes "b") (bytes "b") (bytes "a") = some (bytes "a")
      ∧ bytes "a" ≠ bytes "b" := by
  decide

/-- C3 (amended): when `b` occurs in `strreplace(s, a, b)` only at the offsets
where a replacement was written, replacing `b` by `a` in it gives `s` back. -/
theorem strreplace_roundtrip (s a b : List Nat) (fuel : Nat)
    (hs : ∀ c ∈ s, c ≠ 0) (ha0 : ∀ c ∈ a, c ≠ 0) (hb0 : ∀ c ∈ b, c ≠ 0)
    (ha : a ≠ []) (hb : b ≠ []) (_hab : ¬ a <:+: b) (_hba : ¬ b <:+: a)
    (hf : s.length < fuel)
    (hf2 : ∀ out, strreplace fuel s a b = some out → out.length < fuel)
    (hsites : ∀ out, strreplace fuel s a b = some out →
      ∀ i, i < out.length → b <+: out.drop i → i ∈ replacement_sites a b 0 0 s) :
    (strreplace fuel s a b).bind (fun out => strreplace fuel out b a) = some s := by
  have h1 := strreplace_eq_substitute_spec s a b fuel hs ha0 hb0 ha hf
  have hnf : ∀ c ∈ substitute_spec a b 0 s, c ≠ 0 := fun c hc =>
    (substitute_spec_mem a b s 0 c hc).elim (hs c) (hb0 c)
  have h2 := strreplace_eq_substitute_spec (substitute_spec a b 0 s) b a fuel hnf hb0 ha0 hb
    (hf2 _ h1)
  rw [h1, Option.some_bind, h2]
  congr 1
  apply substitute_spec_roundtrip a b ha hb s.length s 0 (Nat.le_refl _)
  intro i hi hp
  simpa using hsites _ h1 i hi hp

/-- C3 witness: `xay` with `a` replaced by `b` is `xby`, where `b` occurs only
at the replacement site 1, and replacing back gives `xay`. -/
theorem strreplace_roundtrip_witness :
    (strreplace 4 (bytes "xay") (bytes "a") (bytes "b")).bind
      (fun out => strreplace 4 out (bytes "b") (bytes "a")) = some (bytes "xay") :=
  have hout : strreplace 4 (bytes "xay") (bytes "a") (bytes "b") = some (bytes "xby") := by
    decide
  strreplace_roundtrip (bytes "xay") (bytes "a") (bytes "b") 4
    (by decide) (by decide) (by decide) (by decide) (by decide) (by decide) (by decide)
    (by decide)
    (fun out h => by
      rw [hout] at h
      rw [← Option.some.inj h]
      decide)
    (fun out h => by
      rw [hout] at h
      rw [← Option.some.inj h]
      decide)

/-! ## `find_target_str` -/

theorem length_strncpy (src : List Nat) (n : Nat) : (strncpy src n).length = n := by
  unfold strncpy strlen
  simp
  omega

/-- C4 (failing input): with `left = right = ","` on `x","job","y` the second
search finds `right` at the start of `left`, so the computed length is
`0 - 3` in `size_t`, while the field between the first two separators is `job`. -/
theorem find_target_str_same_delimiters :
    slice_between_spec (bytes "x\",\"job\",\"y") (bytes "\",\"") (bytes "\",\"")
        = some (bytes "job")
      ∧ find_target_str_len (bytes "x\",\"job\",\"y") (bytes "\",\"") (bytes "\",\"")
        = some (2 ^ 64 - 3)
      ∧ find_target_str (bytes "x\",\"job\",\"y") (bytes "\",\"") (bytes "\",\"")
        ≠ some (bytes "job") := by
  refine ⟨by decide, by decide, ?_⟩
  intro h
  have hl : find_target_str_len (bytes "x\",\"job\",\"y") (bytes "\",\"") (bytes "\",\"")
      = some (2 ^ 64 - 3) := by decide
  have h1 : strstr (bytes "x\",\"job\",\"y") (bytes "\",\"") = some 1 := by decide
  simp only [find_target_str, h1, hl, Option.some.injEq] at h
  have := congrArg List.length h
  rw [length_strncpy] at this
  revert this
  decide

/-! ## CONNECT request parsing -/

theorem port_bytes (hi lo : Nat) (h1 : hi < 256) (h2 : lo < 256) :
    (hi <<< 8 ||| lo) % 2 ^ 16 = hi * 256 + lo := by
  have h := Nat.mul_add_lt_is_or (i := 8) (b := lo) (by simpa using h2) hi
  rw [Nat.shiftLeft_eq, Nat.mul_comm hi (2 ^ 8), ← h]
  omega

theorem getElem?_after (pre t : List Nat) (k : Nat) :
    (pre ++ t)[pre.length + k]? = t[k]? := by
  rw [List.getElem?_append_right (by omega)]; simp

theorem getElem?_after0 (pre : List Nat) (x : Nat) (t : List Nat) :
    (pre ++ x :: t)[pre.length]? = some x := by
  have := getElem?_after pre (x :: t) 0
  simpa using this

theorem getElem?_after1 (pre : List Nat) (x y : Nat) (t : List Nat) :
    (pre ++ x :: y :: t)[pre.length + 1]? = some y := by
  have := getElem?_after pre (x :: y :: t) 1
  simpa using this

theorem dec_digits_length_le (b : Nat) : (dec_digits b).length ≤ 3 := by
  unfold dec_digits
  split_ifs <;> simp

theorem dotted_decimal_length_le (a : List Nat) : (dotted_decimal a).length ≤ 15 := by
  unfold dotted_decimal
  have h0 := dec_digits_length_le (a.getD 0 0)
  have h1 := dec_digits_length_le (a.getD 1 0)
  have h2 := dec_digits_length_le (a.getD 2 0)
  have h3 := dec_digits_length_le (a.getD 3 0)
  simp only [List.length_append, List.length_cons, List.length_nil]
  omega

theorem parse_ipv4 (w : World) (a0 a1 a2 a3 ph pl : Nat) (tail : List Nat)
    (hph : ph < 256) (hpl : pl < 256) :
    connect_socks_target_parse w (5 :: 1 :: 0 :: 1 :: a0 :: a1 :: a2 :: a3 :: ph :: pl :: tail)
        (tail.length + 10)
      = some (Target.dest (dotted_decimal [a0, a1, a2, a3] ++ [0]) (ph * 256 + pl)) := by
  have hfit : (dotted_decimal [a0, a1, a2, a3]).length ≤ 255 := by
    have := dotted_decimal_length_le [a0, a1, a2, a3]; omega
  have hport : (ph <<< 8 ||| pl) % 65536 = ph * 256 + pl := port_bytes ph pl hph hpl
  have h5 : ¬ tail.length + 10 < 5 := by omega
  simp [connect_socks_target_parse, read_bytes, inet_ntop, AF_INET, hfit, hport, h5]

theorem parse_ipv6 (w : World) (addr : List Nat) (ph pl : Nat) (tail : List Nat)
    (hlen : addr.length = 16) (hfit : (w.inet_ntop6 addr).length < 256)
    (hph : ph < 256) (hpl : pl < 256) :
    connect_socks_target_parse w (5 :: 1 :: 0 :: 4 :: (addr ++ ph :: pl :: tail))
        (tail.length + 22)
      = some (Target.dest (w.inet_ntop6 addr ++ [0]) (ph * 256 + pl)) := by
  have hfit2 : (w.inet_ntop6 addr).length ≤ 255 := by omega
  have hport : (ph <<< 8 ||| pl) % 65536 = ph * 256 + pl := port_bytes ph pl hph hpl
  have h5 : ¬ tail.length + 22 < 5 := by omega
  have hi : (5 :: 1 :: 0 :: 4 :: (addr ++ ph :: pl :: tail))[20]? = some ph := by
    have := getElem?_after0 addr ph (pl :: tail)
    rw [hlen] at this
    simpa using this
  have hj : (5 :: 1 :: 0 :: 4 :: (addr ++ ph :: pl :: tail))[21]? = some pl := by
    have := getElem?_after1 addr ph pl tail
    rw [hlen] at this
    simpa using this
  have htake : List.take 16 (addr ++ ph :: pl :: tail) = addr := by
    rw [← hlen]; simp
  simp [connect_socks_target_parse, read_bytes, inet_ntop, AF_INET, AF_INET6, hfit2, hport,
    h5, hi, hj, htake, hlen]

theorem parse_domain (w : World) (name : List Nat) (ph pl : Nat) (tail : List Nat)
    (hlen : name.length < 256) (hph : ph < 256) (hpl : pl < 256) :
    connect_socks_target_parse w (5 :: 1 :: 0 :: 3 :: name.length :: (name ++ ph :: pl :: tail))
        (tail.length + name.length + 7)
      = some (Target.dest (name ++ [0]) (ph * 256 + pl)) := by
  have hport : (ph <<< 8 ||| pl) % 65536 = ph * 256 + pl := port_bytes ph pl hph hpl
  have h5 : ¬ tail.length + name.length + 7 < 5 := by omega
  have h6 : ¬ tail.length + name.length + 7 < 4 + 2 + name.length + 1 := by omega
  have h7 : ¬ 256 ≤ name.length := by omega
  have hi : (5 :: 1 :: 0 :: 3 :: name.length :: (name ++ ph :: pl :: tail))[4 + 2 + name.length + 1 - 2]?
      = some ph := by
    have : 4 + 2 + name.length + 1 - 2 = name.length + 5 := by omega
    rw [this]
    simp only [List.getElem?_cons_succ, getElem?_after0]
  have hj : (5 :: 1 :: 0 :: 3 :: name.length :: (name ++ ph :: pl :: tail))[4 + 2 + name.length + 1 - 1]?
      = some pl := by
    have : 4 + 2 + name.length + 1 - 1 = (name.length + 1) + 5 := by omega
    rw [this]
    simp only [List.getElem?_cons_succ, getElem?_after1]
  have hrd : read_bytes (5 :: 1 :: 0 :: 3 :: name.length :: (name ++ ph :: pl :: tail))
      (4 + 1) name.length = some name := by
    unfold read_bytes
    rw [if_pos (by simp; omega)]
    simp
  simp only [connect_socks_target_parse, h5, h6, h7, hi, hj, hrd, hport, if_false,
    List.getElem?_cons_zero, List.getElem?_cons_succ, Option.some_bind, ne_eq, not_true_eq_false,
    OfNat.ofNat_ne_one, OfNat.ofNat_ne_zero, not_false_eq_true, if_true]
  simp [hport]

theorem connect_socks_target_guard_irrelevant (w : World) (g : Globals) (x : Int)
    (buf : List Nat) (n : Nat) :
    connect_socks_target w { g with IS_VENUS_LOOP := x } buf n = connect_socks_target w g buf n := by
  unfold connect_socks_target connect_socks_target_dial
  rfl

theorem step_authed_error (w : World) (g : Globals) (cl : client) (buf : List Nat) (code : Nat)
    (hg : g.IS_VENUS_LOOP ≤ 6) (hc : 0 < code)
    (hp : connect_socks_target_parse w buf buf.length = some (Target.error code)) :
    (clientthread_step w g cl socksstate.SS_3_AUTHED buf).events
        = [Event.connect_target buf (-(code : Int)), Event.write (send_error code)]
      ∧ (clientthread_step w g cl socksstate.SS_3_AUTHED buf).flow = Flow.breakloop := by
  have hg2 : ¬ g.IS_VENUS_LOOP > 6 := by omega
  have hneg : (-(code : Int)) < 0 := by omega
  have h7 : ¬ ((7 : Int) = -1) := by decide
  simp only [clientthread_step, hg2, if_false, h7, connect_socks_target, hp, Option.map_some',
    hneg, if_true]
  simp

theorem step_authed_success (w : World) (g : Globals) (cl : client) (buf : List Nat) (fd : Int)
    (hg : g.IS_VENUS_LOOP ≤ 6) (hfd : 0 ≤ fd)
    (hp : connect_socks_target w g buf buf.length = some fd) :
    (clientthread_step w g cl socksstate.SS_3_AUTHED buf).events
        = [Event.connect_target buf fd, Event.write [5, 0, 0, 1, 0, 0, 0, 0, 0, 0],
           Event.copyloop fd] := by
  have hg2 : ¬ g.IS_VENUS_LOOP > 6 := by omega
  have hneg : ¬ fd < 0 := by omega
  have h7 : ¬ ((7 : Int) = -1) := by decide
  simp only [clientthread_step, hg2, if_false, h7, connect_socks_target_guard_irrelevant, hp,
    Option.map_some', hneg]
  simp [send_error, EC_SUCCESS]

theorem rejected_of_parse (w : World) (g : Globals) (buf : List Nat) (code : Nat)
    (hc : 0 < code) (hc2 : code < 256)
    (hp : connect_socks_target_parse w buf buf.length = some (Target.error code)) :
    Rejected w g buf code := by
  have hs : send_error code = [5, code, 0, 1, 0, 0, 0, 0, 0, 0] := by
    simp [send_error, Nat.mod_eq_of_lt hc2]
  refine ⟨hp, by simp [connect_socks_target, hp], hs, ?_⟩
  intro cl hg
  rw [← hs]
  exact step_authed_error w g cl buf code hg hc hp

/-- C5: an accepted CONNECT request hands the resolver the dotted-decimal text
of bytes 4..7 (ATYP 01), the `L` name bytes after the length byte (ATYP 03) or
the textual form of bytes 4..19 (ATYP 04), each with the big-endian port that
follows; after a successful dial the reply is `05 00 00 01 00 00 00 00 00 00`. -/
theorem connect_socks_target_destination (w : World) :
    (∀ (a0 a1 a2 a3 ph pl : Nat) (tail : List Nat), ph < 256 → pl < 256 →
      connect_socks_target_parse w
          (5 :: 1 :: 0 :: 1 :: a0 :: a1 :: a2 :: a3 :: ph :: pl :: tail) (tail.length + 10)
        = some (Target.dest (dotted_decimal [a0, a1, a2, a3] ++ [0]) (ph * 256 + pl)))
    ∧ (∀ (name : List Nat) (ph pl : Nat) (tail : List Nat),
        name.length < 256 → ph < 256 → pl < 256 →
      connect_socks_target_parse w
          (5 :: 1 :: 0 :: 3 :: name.length :: (name ++ ph :: pl :: tail))
          (tail.length + name.length + 7)
        = some (Target.dest (name ++ [0]) (ph * 256 + pl)))
    ∧ (∀ (addr : List Nat) (ph pl : Nat) (tail : List Nat), addr.length = 16 →
        (w.inet_ntop6 addr).length < 256 → ph < 256 → pl < 256 →
      connect_socks_target_parse w (5 :: 1 :: 0 :: 4 :: (addr ++ ph :: pl :: tail))
          (tail.length + 22)
        = some (Target.dest (w.inet_ntop6 addr ++ [0]) (ph * 256 + pl)))
    ∧ (∀ (g : Globals) (cl : client) (buf : List Nat) (fd : Int), g.IS_VENUS_LOOP ≤ 6 →
        0 ≤ fd → connect_socks_target w g buf buf.length = some fd →
      (clientthread_step w g cl socksstate.SS_3_AUTHED buf).events
        = [Event.connect_target buf fd, Event.write [5, 0, 0, 1, 0, 0, 0, 0, 0, 0],
           Event.copyloop fd]) :=
  ⟨fun a0 a1 a2 a3 ph pl tail hph hpl => parse_ipv4 w a0 a1 a2 a3 ph pl tail hph hpl,
   fun name ph pl tail hl hph hpl => parse_domain w name ph pl tail hl hph hpl,
   fun addr ph pl tail hl hfit hph hpl => parse_ipv6 w addr ph pl tail hl hfit hph hpl,
   fun g cl buf fd hg hfd hp => step_authed_success w g cl buf fd hg hfd hp⟩

/-- C5 witness: `05 01 00 01 7F 00 00 01 00 50` targets `127.0.0.1` port 80, and
with a dial that succeeds the reply is `05 00 00 01 00 00 00 00 00 00`. -/
theorem connect_socks_target_destination_witness :
    connect_socks_target_parse world_ok [5, 1, 0, 1, 127, 0, 0, 1, 0, 80] 10
        = some (Target.dest (bytes "127.0.0.1" ++ [0]) 80)
      ∧ (clientthread_step world_ok {} peer1 socksstate.SS_3_AUTHED
          [5, 1, 0, 1, 127, 0, 0, 1, 0, 80]).events
        = [Event.connect_target [5, 1, 0, 1, 127, 0, 0, 1, 0, 80] 7,
           Event.write [5, 0, 0, 1, 0, 0, 0, 0, 0, 0], Event.copyloop 7] :=
  ⟨((connect_socks_target_destination world_ok).1 127 0 0 1 0 80 [] (by decide)
      (by decide)).trans (by decide),
   (connect_socks_target_destination world_ok).2.2.2 {} peer1
      [5, 1, 0, 1, 127, 0, 0, 1, 0, 80] 7 (by decide) (by decide) (by decide)⟩

/-- C6: a request of at least 5 bytes starting with 05 is rejected with 07 when
CMD is not 01, with 08 when CMD=01, RSV=00 and ATYP is not 01, 03 or 04, and
with 01 when the address type is valid but the request is shorter than
header, address and port; no dial happens and the reply is
`05 <code> 00 01 00 00 00 00 00 00`. -/
theorem connect_socks_target_rejects (w : World) (g : Globals) (buf : List Nat)
    (h5 : 5 ≤ buf.length) (h0 : buf[0]? = some 5) :
    (∀ cmd, buf[1]? = some cmd → cmd ≠ 1 → Rejected w g buf 7)
    ∧ (buf[1]? = some 1 → buf[2]? = some 0 →
        (∀ atyp, buf[3]? = some atyp → atyp ≠ 1 → atyp ≠ 3 → atyp ≠ 4 → Rejected w g buf 8)
        ∧ (buf[3]? = some 1 → buf.length < 10 → Rejected w g buf 1)
        ∧ (buf[3]? = some 4 → buf.length < 22 → Rejected w g buf 1)
        ∧ (buf[3]? = some 3 → ∀ L, buf[4]? = some L → buf.length < 7 + L →
            Rejected w g buf 1)) := by
  have hn : ¬ buf.length < 5 := by omega
  refine ⟨?_, ?_⟩
  · intro cmd h1 hcmd
    apply rejected_of_parse w g buf 7 (by decide) (by decide)
    simp [connect_socks_target_parse, hn, h0, h1, hcmd, EC_COMMAND_NOT_SUPPORTED]
  · intro h1 h2
    refine ⟨?_, ?_, ?_, ?_⟩
    · intro atyp h3 ha1 ha3 ha4
      apply rejected_of_parse w g buf 8 (by decide) (by decide)
      simp [connect_socks_target_parse, hn, h0, h1, h2, h3, ha1, ha3, ha4,
        EC_ADDRESSTYPE_NOT_SUPPORTED]
    · intro h3 hlen
      apply rejected_of_parse w g buf 1 (by decide) (by decide)
      simp [connect_socks_target_parse, hn, h0, h1, h2, h3, hlen, EC_GENERAL_FAILURE]
    · intro h3 hlen
      apply rejected_of_parse w g buf 1 (by decide) (by decide)
      simp [connect_socks_target_parse, hn, h0, h1, h2, h3, hlen, EC_GENERAL_FAILURE]
    · intro h3 L h4 hlen
      apply rejected_of_parse w g buf 1 (by decide) (by decide)
      have hlen2 : buf.length < 4 + 2 + L + 1 := by omega
      simp [connect_socks_target_parse, hn, h0, h1, h2, h3, h4, hlen2, EC_GENERAL_FAILURE]

/-- C6 witness: the BIND request `05 02 00 01 7F 00 00 01 00 50` is rejected with 07. -/
theorem connect_socks_target_rejects_witness :
    Rejected world_ok {} [5, 2, 0, 1, 127, 0, 0, 1, 0, 80] 7 :=
  (connect_socks_target_rejects world_ok {} [5, 2, 0, 1, 127, 0, 0, 1, 0, 80]
    (by decide) (by decide)).1 2 (by decide) (by decide)

/-- C7 (as stated, refuted): in the Authed state the bytes
`05 01 02 00 01 7F 00 00 01 00 50` carry CMD=01 and RSV=02, so the reply is
`05 01 00 01 00 00 00 00 00 00`; no reply with code byte 07 is written. -/
theorem s4_reply_code_counterexample :
    (clientthread_step world_ok {} peer1 socksstate.SS_3_AUTHED
        [5, 1, 2, 0, 1, 127, 0, 0, 1, 0, 80]).events
      = [Event.connect_target [5, 1, 2, 0, 1, 127, 0, 0, 1, 0, 80] (-1),
         Event.write [5, 1, 0, 1, 0, 0, 0, 0, 0, 0]]
    ∧ ¬ ∃ reply, Event.write reply ∈ (clientthread_step world_ok {} peer1
          socksstate.SS_3_AUTHED [5, 1, 2, 0, 1, 127, 0, 0, 1, 0, 80]).events
        ∧ reply[1]? = some 7 := by
  have h : (clientthread_step world_ok {} peer1 socksstate.SS_3_AUTHED
        [5, 1, 2, 0, 1, 127, 0, 0, 1, 0, 80]).events
      = [Event.connect_target [5, 1, 2, 0, 1, 127, 0, 0, 1, 0, 80] (-1),
         Event.write [5, 1, 0, 1, 0, 0, 0, 0, 0, 0]] := by decide
  refine ⟨h, ?_⟩
  rintro ⟨reply, hmem, hcode⟩
  rw [h] at hmem
  simp at hmem
  subst hmem
  simp at hcode

/-- C7 (amended): once the wait on `IS_VENUS_LOOP` is passed, the Authed state
answers `05 01 02 00 01 7F 00 00 01 00 50` with code 01 and the BIND request
`05 02 00 01 7F 00 00 01 00 50` with code 07. -/
theorem s4_reply_code (w : World) (g : Globals) (cl : client) (hg : g.IS_VENUS_LOOP ≤ 6) :
    (clientthread_step w g cl socksstate.SS_3_AUTHED
        [5, 1, 2, 0, 1, 127, 0, 0, 1, 0, 80]).events
      = [Event.connect_target [5, 1, 2, 0, 1, 127, 0, 0, 1, 0, 80] (-1),
         Event.write [5, 1, 0, 1, 0, 0, 0, 0, 0, 0]]
    ∧ (clientthread_step w g cl socksstate.SS_3_AUTHED
        [5, 2, 0, 1, 127, 0, 0, 1, 0, 80]).events
      = [Event.connect_target [5, 2, 0, 1, 127, 0, 0, 1, 0, 80] (-7),
         Event.write [5, 7, 0, 1, 0, 0, 0, 0, 0, 0]] :=
  ⟨(step_authed_error w g cl [5, 1, 2, 0, 1, 127, 0, 0, 1, 0, 80] 1 hg (by decide) rfl).1,
   (step_authed_error w g cl [5, 2, 0, 1, 127, 0, 0, 1, 0, 80] 7 hg (by decide) rfl).1⟩

/-- C7 witness: the amended scenario on a fresh connection state. -/
theorem s4_reply_code_witness :
    (clientthread_step world_ok {} peer1 socksstate.SS_3_AUTHED
        [5, 1, 2, 0, 1, 127, 0, 0, 1, 0, 80]).events
      = [Event.connect_target [5, 1, 2, 0, 1, 127, 0, 0, 1, 0, 80] (-1),
         Event.write [5, 1, 0, 1, 0, 0, 0, 0, 0, 0]]
    ∧ (clientthread_step world_ok {} peer1 socksstate.SS_3_AUTHED
        [5, 2, 0, 1, 127, 0, 0, 1, 0, 80]).events
      = [Event.connect_target [5, 2, 0, 1, 127, 0, 0, 1, 0, 80] (-7),
         Event.write [5, 7, 0, 1, 0, 0, 0, 0, 0, 0]] :=
  s4_reply_code world_ok {} peer1 (by decide)

/-! ## Method selection -/

theorem any_is_authed_of_in_cache (g : Globals) (cl : client) (ips : List sockaddr_union)
    (hips : g.auth_ips = some ips) (h : in_auth_cache g cl) :
    ips.any (is_authed cl.addr) = true := by
  obtain ⟨ips2, h2, e, he, hf, ha⟩ := h
  rw [hips] at h2
  cases h2
  rw [List.any_eq_true]
  exact ⟨e, he, by simp [is_authed, hf, ha]⟩

theorem check_auth_method_loop_no_auth (g : Globals) (cl : client) (post : List Nat) (n : Nat)
    (hu : g.auth_user.isSome = true) (hc : in_auth_cache g cl) :
    ∀ (pre hdr : List Nat) (n_methods : Nat), 2 ∉ pre → pre.length < n_methods →
      hdr.length + pre.length < n →
      check_auth_method_loop g cl (hdr ++ (pre ++ 0 :: post)) n n_methods hdr.length
        = some AM_NO_AUTH := by
  obtain ⟨ips, hips, hin⟩ := hc
  have hany := any_is_authed_of_in_cache g cl ips hips ⟨ips, hips, hin⟩
  have hnone : g.auth_user.isNone = false := by
    cases hg : g.auth_user with
    | none => rw [hg] at hu; cases hu
    | some u => rfl
  intro pre
  induction pre with
  | nil =>
    intro hdr n_methods _ hlen hn
    obtain ⟨k, rfl⟩ : ∃ k, n_methods = k + 1 := ⟨n_methods - 1, by simp at hlen; omega⟩
    have hidx : hdr.length < n := by simpa using hn
    have hget : (hdr ++ ([] ++ 0 :: post))[hdr.length]? = some 0 :=
      getElem?_after0 hdr 0 post
    unfold check_auth_method_loop
    rw [if_pos hidx, hget, Option.some_bind]
    simp [AM_NO_AUTH, hnone, hips, hany]
  | cons m pre ih =>
    intro hdr n_methods h2 hlen hn
    obtain ⟨k, rfl⟩ : ∃ k, n_methods = k + 1 := ⟨n_methods - 1, by simp at hlen; omega⟩
    have hidx : hdr.length < n := by simp at hn; omega
    have hm2 : m ≠ 2 := fun h => h2 (h ▸ List.mem_cons_self _ _)
    have hrec := ih (hdr ++ [m]) k (fun h => h2 (List.mem_cons_of_mem _ h))
      (by simp at hlen; omega) (by simp at hn ⊢; omega)
    have hlist : hdr ++ [m] ++ (pre ++ 0 :: post) = hdr ++ (m :: pre ++ 0 :: post) := by simp
    rw [hlist] at hrec
    have hl : (hdr ++ [m]).length = hdr.length + 1 := by simp
    rw [hl] at hrec
    have hget : (hdr ++ (m :: pre ++ 0 :: post))[hdr.length]? = some m :=
      getElem?_after0 hdr m (pre ++ 0 :: post)
    unfold check_auth_method_loop
    rw [if_pos hidx, hget, Option.some_bind]
    by_cases hm0 : m = AM_NO_AUTH
    · simp [hm0, hnone, hips, hany]
    · simp only [hm0, if_false, AM_USERNAME, hm2]
      exact hrec

/-- C8 (as stated, refuted): with credentials configured and the peer in the
auth-IP cache, the well-formed frame `05 02 02 00` contains NO_AUTH, yet
`check_auth_method` returns AM_USERNAME: the reply is `05 02` and the
connection moves to NeedAuth. -/
theorem auth_once_counterexample :
    globals_auth_once.auth_user.isSome = true
      ∧ in_auth_cache globals_auth_once peer1
      ∧ 0 ∈ [2, 0]
      ∧ check_auth_method globals_auth_once peer1 [5, 2, 2, 0] 4 = some AM_USERNAME
      ∧ (clientthread_step world_ok globals_auth_once peer1 socksstate.SS_1_CONNECTED
          [5, 2, 2, 0]).state = socksstate.SS_2_NEED_AUTH
      ∧ (clientthread_step world_ok globals_auth_once peer1 socksstate.SS_1_CONNECTED
          [5, 2, 2, 0]).events = [Event.auth_method 2, Event.write [5, 2]] := by
  refine ⟨by decide, ?_, by decide, by decide, by decide, by decide⟩
  exact ⟨_, rfl, _, List.mem_cons_self _ _, by decide, by decide⟩

/-- C8 (amended): with credentials configured and the peer in the auth-IP cache,
a well-formed method-select frame whose list offers NO_AUTH with no
USERNAME/PASSWORD before it makes `check_auth_method` return AM_NO_AUTH; the
reply is `05 00` and the connection goes from Connected to Authed. -/
theorem auth_once (w : World) (g : Globals) (cl : client) (pre post : List Nat)
    (hu : g.auth_user.isSome = true) (hc : in_auth_cache g cl)
    (hpre : 2 ∉ pre) (_hlen : (pre ++ 0 :: post).length < 256) :
    check_auth_method g cl (5 :: (pre ++ 0 :: post).length :: (pre ++ 0 :: post))
        ((pre ++ 0 :: post).length + 2) = some AM_NO_AUTH
      ∧ (clientthread_step w g cl socksstate.SS_1_CONNECTED
          (5 :: (pre ++ 0 :: post).length :: (pre ++ 0 :: post))).state = socksstate.SS_3_AUTHED
      ∧ (clientthread_step w g cl socksstate.SS_1_CONNECTED
          (5 :: (pre ++ 0 :: post).length :: (pre ++ 0 :: post))).events
          = [Event.auth_method 0, Event.write [5, 0]]
      ∧ (clientthread_step w g cl socksstate.SS_1_CONNECTED
          (5 :: (pre ++ 0 :: post).length :: (pre ++ 0 :: post))).flow = Flow.next := by
  have hloop := check_auth_method_loop_no_auth g cl post ((pre ++ 0 :: post).length + 2) hu hc
    pre [5, (pre ++ 0 :: post).length] (pre ++ 0 :: post).length hpre (by simp)
    (by simp; omega)
  have hcam : check_auth_method g cl (5 :: (pre ++ 0 :: post).length :: (pre ++ 0 :: post))
      ((pre ++ 0 :: post).length + 2) = some AM_NO_AUTH := by
    unfold check_auth_method
    simpa using hloop
  have hn : (5 :: (pre ++ 0 :: post).length :: (pre ++ 0 :: post)).length
      = (pre ++ 0 :: post).length + 2 := by simp
  refine ⟨hcam, ?_, ?_, ?_⟩ <;>
    simp only [clientthread_step, hn, hcam] <;> simp [AM_NO_AUTH, AM_INVALID, send_auth_response]

/-- C8 witness: the cached peer offering GSSAPI then NO_AUTH (`05 02 01 00`). -/
theorem auth_once_witness :
    check_auth_method globals_auth_once peer1 [5, 2, 1, 0] 4 = some AM_NO_AUTH
      ∧ (clientthread_step world_ok globals_auth_once peer1 socksstate.SS_1_CONNECTED
          [5, 2, 1, 0]).state = socksstate.SS_3_AUTHED
      ∧ (clientthread_step world_ok globals_auth_once peer1 socksstate.SS_1_CONNECTED
          [5, 2, 1, 0]).events = [Event.auth_method 0, Event.write [5, 0]]
      ∧ (clientthread_step world_ok globals_auth_once peer1 socksstate.SS_1_CONNECTED
          [5, 2, 1, 0]).flow = Flow.next :=
  auth_once world_ok globals_auth_once peer1 [1] [] (by decide)
    ⟨_, rfl, _, List.mem_cons_self _ _, by decide, by decide⟩ (by decide) (by decide)

/-! ## User/password subnegotiation -/

theorem cstr_append_zero (x y : List Nat) : cstr (x ++ 0 :: y) = cstr x := by
  induction x with
  | nil => simp [cstr]
  | cons c x ih =>
    unfold cstr at ih ⊢
    by_cases hc : c = 0
    · simp [List.takeWhile, hc]
    · simp [List.takeWhile, hc, ih]

theorem check_credentials_of_frame_ok (g : Globals) (buf : List Nat) (ulen plen : Nat)
    (user pass : List Nat) (hb : ∀ b ∈ buf, b < 256)
    (hu : g.auth_user = some user) (hp : g.auth_pass = some pass)
    (hok : creds_frame_ok buf ulen plen) :
    check_credentials g buf buf.length
      = some (if cstr (creds_uname buf ulen) = cstr user
                  ∧ cstr (creds_passwd buf ulen plen) = cstr pass
              then EC_SUCCESS else EC_NOT_ALLOWED) := by
  obtain ⟨h5, h0, h1, h2, h3, h4⟩ := hok
  have hul : ulen < 256 := hb ulen (List.getElem?_mem h1)
  have hpl : plen < 256 := hb plen (List.getElem?_mem h3)
  have c1 : ¬ buf.length < 5 := by omega
  have c2 : ¬ buf.length < 2 + ulen + 2 := by omega
  have c3 : ¬ buf.length < 2 + ulen + 1 + plen := by omega
  have c4 : ¬ (256 ≤ ulen ∨ 256 ≤ plen) := by omega
  have r1 : read_bytes buf 2 ulen = some (creds_uname buf ulen) := by
    unfold read_bytes creds_uname
    rw [if_pos (by omega)]
  have r2 : read_bytes buf (2 + ulen + 1) plen = some (creds_passwd buf ulen plen) := by
    unfold read_bytes creds_passwd
    rw [if_pos (by omega)]
  unfold check_credentials
  rw [if_neg c1, h0, Option.some_bind, if_neg (by simp), h1, Option.some_bind, if_neg c2, h3,
    Option.some_bind, if_neg c3, r1, Option.some_bind, r2, Option.some_bind, if_neg c4, hu,
    Option.some_bind, hp]
  simp only [Option.some_bind, show ([0] : List Nat) = 0 :: [] from rfl, cstr_append_zero]
  by_cases e1 : cstr (creds_uname buf ulen) = cstr user
  · by_cases e2 : cstr (creds_passwd buf ulen plen) = cstr pass
    · simp [e1, e2]
    · simp [e1, e2]
  · simp [e1]

theorem check_credentials_success_inv (g : Globals) (buf : List Nat) (user pass : List Nat)
    (hu : g.auth_user = some user) (hp : g.auth_pass = some pass)
    (h : check_credentials g buf buf.length = some EC_SUCCESS) :
    ∃ ulen plen, creds_frame_ok buf ulen plen
      ∧ cstr (creds_uname buf ulen) = cstr user
      ∧ cstr (creds_passwd buf ulen plen) = cstr pass := by
  unfold check_credentials at h
  by_cases c1 : buf.length < 5
  · rw [if_pos c1] at h; cases h
  rw [if_neg c1] at h
  obtain ⟨b0, hb0, h⟩ := Option.bind_eq_some.mp h
  by_cases cv : b0 ≠ 1
  · rw [if_pos cv] at h; cases h
  rw [if_neg cv] at h
  have hb01 : b0 = 1 := not_not.mp cv
  subst hb01
  obtain ⟨ulen, hul, h⟩ := Option.bind_eq_some.mp h
  by_cases c2 : buf.length < 2 + ulen + 2
  · rw [if_pos c2] at h; cases h
  rw [if_neg c2] at h
  obtain ⟨plen, hpl, h⟩ := Option.bind_eq_some.mp h
  by_cases c3 : buf.length < 2 + ulen + 1 + plen
  · rw [if_pos c3] at h; cases h
  rw [if_neg c3] at h
  obtain ⟨uname, hr1, h⟩ := Option.bind_eq_some.mp h
  obtain ⟨passwd, hr2, h⟩ := Option.bind_eq_some.mp h
  by_cases c4 : 256 ≤ ulen ∨ 256 ≤ plen
  · rw [if_pos c4] at h; cases h
  rw [if_neg c4, hu, Option.some_bind] at h
  have e1 : uname = creds_uname buf ulen := by
    unfold read_bytes at hr1
    split_ifs at hr1
    exact (Option.some.inj hr1).symm
  have e2 : passwd = creds_passwd buf ulen plen := by
    unfold read_bytes at hr2
    split_ifs at hr2
    exact (Option.some.inj hr2).symm
  subst e1 e2
  simp only [show ([0] : List Nat) = 0 :: [] from rfl, cstr_append_zero] at h
  refine ⟨ulen, plen, ⟨by omega, hb0, hul, by omega, hpl, by omega⟩, ?_⟩
  by_cases e1 : cstr (creds_uname buf ulen) = cstr user
  · rw [if_pos e1, hp, Option.some_bind] at h
    by_cases e2 : cstr (creds_passwd buf ulen plen) = cstr pass
    · exact ⟨e1, e2⟩
    · rw [if_neg e2] at h; cases h
  · rw [if_neg e1] at h; cases h

/-- C9 (as stated, refuted): with user `u` and password `p` the frame
`01 03 75 00 78 01 70` is accepted although its UNAME bytes `75 00 78` are not
the configured user; and with an empty configured password the frame
`01 01 75 00`, whose fields lie within the received bytes and equal the
configured values, is answered with EC_GENERAL_FAILURE. -/
theorem check_credentials_counterexample :
    (check_credentials globals_up [1, 3, 0x75, 0, 0x78, 1, 0x70] 7 = some EC_SUCCESS
      ∧ creds_uname [1, 3, 0x75, 0, 0x78, 1, 0x70] 3 = [0x75, 0, 0x78]
      ∧ creds_uname [1, 3, 0x75, 0, 0x78, 1, 0x70] 3 ≠ bytes "u")
    ∧ (check_credentials { auth_user := some (bytes "u"), auth_pass := some [] }
          [1, 1, 0x75, 0] 4 = some EC_GENERAL_FAILURE
      ∧ ([1, 1, 0x75, 0] : List Nat)[0]? = some 1
      ∧ ([1, 1, 0x75, 0] : List Nat)[1]? = some 1
      ∧ ([1, 1, 0x75, 0] : List Nat)[2 + 1]? = some 0
      ∧ 2 + 1 + 1 + 0 ≤ ([1, 1, 0x75, 0] : List Nat).length
      ∧ creds_uname [1, 1, 0x75, 0] 1 = bytes "u"
      ∧ creds_passwd [1, 1, 0x75, 0] 1 0 = []) := by
  decide

/-- C9 (amended): `check_credentials` returns EC_SUCCESS exactly for frames
that pass its version and length checks and whose UNAME and PASSWD, read up to
their first zero byte, equal the configured user and password (reply `01 00`);
a frame passing the checks with another user or password gets EC_NOT_ALLOWED,
reply `01 02`, and the thread leaves the loop. -/
theorem check_credentials_spec (w : World) (g : Globals) (cl : client) (buf : List Nat)
    (user pass : List Nat) (hb : ∀ b ∈ buf, b < 256)
    (hu : g.auth_user = some user) (hp : g.auth_pass = some pass) :
    (check_credentials g buf buf.length = some EC_SUCCESS ↔
      ∃ ulen plen, creds_frame_ok buf ulen plen
        ∧ cstr (creds_uname buf ulen) = cstr user
        ∧ cstr (creds_passwd buf ulen plen) = cstr pass)
    ∧ (check_credentials g buf buf.length = some EC_SUCCESS →
        (clientthread_step w g cl socksstate.SS_2_NEED_AUTH buf).events
            = [Event.credentials 0, Event.write [1, 0]]
          ∧ (clientthread_step w g cl socksstate.SS_2_NEED_AUTH buf).state
            = socksstate.SS_3_AUTHED)
    ∧ (∀ ulen plen, creds_frame_ok buf ulen plen →
        ¬ (cstr (creds_uname buf ulen) = cstr user
            ∧ cstr (creds_passwd buf ulen plen) = cstr pass) →
        check_credentials g buf buf.length = some EC_NOT_ALLOWED
          ∧ (clientthread_step w g cl socksstate.SS_2_NEED_AUTH buf).events
            = [Event.credentials 2, Event.write [1, 2]]
          ∧ (clientthread_step w g cl socksstate.SS_2_NEED_AUTH buf).flow = Flow.breakloop) := by
  refine ⟨⟨check_credentials_success_inv g buf user pass hu hp, ?_⟩, ?_, ?_⟩
  · rintro ⟨ulen, plen, hok, e1, e2⟩
    rw [check_credentials_of_frame_ok g buf ulen plen user pass hb hu hp hok, if_pos ⟨e1, e2⟩]
  · intro h
    simp only [clientthread_step, h]
    simp [EC_SUCCESS, send_auth_response]
  · intro ulen plen hok hne
    have h := check_credentials_of_frame_ok g buf ulen plen user pass hb hu hp hok
    rw [if_neg hne] at h
    refine ⟨h, ?_, ?_⟩ <;> simp only [clientthread_step, h] <;>
      simp [EC_SUCCESS, EC_NOT_ALLOWED, send_auth_response]

/-- C9 witness: with user `u` and password `p`, `01 01 75 01 70` succeeds and
`01 01 75 01 71` is refused with reply `01 02`. -/
theorem check_credentials_spec_witness :
    check_credentials globals_up [1, 1, 0x75, 1, 0x70] 5 = some EC_SUCCESS
    ∧ (check_credentials globals_up [1, 1, 0x75, 1, 0x71] 5 = some EC_NOT_ALLOWED
        ∧ (clientthread_step world_ok globals_up peer1 socksstate.SS_2_NEED_AUTH
            [1, 1, 0x75, 1, 0x71]).events = [Event.credentials 2, Event.write [1, 2]]
        ∧ (clientthread_step world_ok globals_up peer1 socksstate.SS_2_NEED_AUTH
            [1, 1, 0x75, 1, 0x71]).flow = Flow.breakloop) :=
  ⟨(check_credentials_spec world_ok globals_up peer1 [1, 1, 0x75, 1, 0x70] (bytes "u")
      (bytes "p") (by decide) rfl rfl).1.mpr
      ⟨1, 1, by unfold creds_frame_ok; decide, by decide, by decide⟩,
   (check_credentials_spec world_ok globals_up peer1 [1, 1, 0x75, 1, 0x71] (bytes "u")
      (bytes "p") (by decide) rfl rfl).2.2 1 1 (by unfold creds_frame_ok; decide) (by decide)⟩

/-! ## The negotiation state machine -/

theorem clientthread_loop_cons (w : World) (cl : client) (g : Globals) (st : socksstate)
    (buf : List Nat) (rest : List (List Nat)) (hne : buf ≠ []) :
    clientthread_loop w cl g st (buf :: rest)
      = if (clientthread_step w g cl st buf).flow = Flow.next then
          { globals := (clientthread_loop w cl (clientthread_step w g cl st buf).globals
              (clientthread_step w g cl st buf).state rest).globals,
            states := (clientthread_step w g cl st buf).state ::
              (clientthread_loop w cl (clientthread_step w g cl st buf).globals
                (clientthread_step w g cl st buf).state rest).states,
            events := (clientthread_step w g cl st buf).events ++
              (clientthread_loop w cl (clientthread_step w g cl st buf).globals
                (clientthread_step w g cl st buf).state rest).events,
            flow := (clientthread_loop w cl (clientthread_step w g cl st buf).globals
              (clientthread_step w g cl st buf).state rest).flow }
        else
          { globals := (clientthread_step w g cl st buf).globals,
            states := [(clientthread_step w g cl st buf).state],
            events := (clientthread_step w g cl st buf).events,
            flow := (clientthread_step w g cl st buf).flow } := by
  rw [clientthread_loop, if_neg hne]
  generalize clientthread_step w g cl st buf = r
  obtain ⟨gl, st2, evs, fl⟩ := r
  cases fl <;> simp

theorem clientthread_step_authed_state (w : World) (g : Globals) (cl : client)
    (buf : List Nat) :
    (clientthread_step w g cl socksstate.SS_3_AUTHED buf).state = socksstate.SS_3_AUTHED := by
  simp only [clientthread_step]
  split_ifs <;> first | rfl | (split <;> first | rfl | (split_ifs <;> rfl))

theorem clientthread_step_rank (w : World) (g : Globals) (cl : client) (st : socksstate)
    (buf : List Nat) : st.rank ≤ (clientthread_step w g cl st buf).state.rank := by
  cases st with
  | SS_1_CONNECTED => exact Nat.zero_le _
  | SS_2_NEED_AUTH =>
    simp only [clientthread_step]
    cases check_credentials g buf buf.length with
    | none => exact Nat.le_refl _
    | some ret =>
      simp only
      by_cases hr : ret ≠ EC_SUCCESS
      · rw [if_pos hr]
      · rw [if_neg hr]; simp [socksstate.rank]
  | SS_3_AUTHED =>
    rw [clientthread_step_authed_state]

theorem clientthread_loop_monotone (w : World) (cl : client) :
    ∀ (frames : List (List Nat)) (g : Globals) (st : socksstate),
      List.Chain' (fun a b => a.rank ≤ b.rank)
        (st :: (clientthread_loop w cl g st frames).states) := by
  intro frames
  induction frames with
  | nil => intro g st; simp [clientthread_loop]
  | cons buf rest ih =>
    intro g st
    by_cases hne : buf = []
    · simp [clientthread_loop, hne]
    · rw [clientthread_loop_cons w cl g st buf rest hne]
      split_ifs
      · exact List.Chain'.cons (clientthread_step_rank w g cl st buf) (ih _ _)
      · exact List.Chain'.cons (clientthread_step_rank w g cl st buf) (List.chain'_singleton _)

theorem check_auth_method_loop_ne_no_auth (g : Globals) (cl : client) (buf : List Nat) (n : Nat)
    (hu : g.auth_user.isSome = true) (hc : cache_hit g cl = false) :
    ∀ (n_methods idx : Nat),
      check_auth_method_loop g cl buf n n_methods idx ≠ some AM_NO_AUTH := by
  have hnone : g.auth_user.isNone = false := by
    cases hg : g.auth_user with
    | none => rw [hg] at hu; cases hu
    | some u => rfl
  intro n_methods
  induction n_methods with
  | zero => intro idx; simp [check_auth_method_loop, AM_INVALID, AM_NO_AUTH]
  | succ k ih =>
    intro idx
    unfold check_auth_method_loop
    by_cases hidx : idx < n
    · rw [if_pos hidx]
      cases hb : buf[idx]? with
      | none => simp
      | some m =>
        rw [Option.some_bind]
        by_cases hm0 : m = AM_NO_AUTH
        · rw [if_pos hm0]
          simp only [hnone, Bool.false_eq_true, if_false]
          cases hips : g.auth_ips with
          | none => exact ih _
          | some ips =>
            have hany : ips.any (is_authed cl.addr) = false := by
              simpa [cache_hit, hips] using hc
            simp only [hany, Bool.false_eq_true, if_false]
            exact ih _
        · rw [if_neg hm0]
          by_cases hm2 : m = AM_USERNAME
          · rw [if_pos hm2, if_pos hu]
            simp [AM_USERNAME, AM_NO_AUTH]
          · rw [if_neg hm2]
            exact ih _
    · rw [if_neg hidx]
      simp [AM_INVALID, AM_NO_AUTH]

theorem check_auth_method_ne_no_auth (g : Globals) (cl : client) (buf : List Nat) (n : Nat)
    (hu : g.auth_user.isSome = true) (hc : cache_hit g cl = false) :
    check_auth_method g cl buf n ≠ some AM_NO_AUTH := by
  unfold check_auth_method
  cases h0 : buf[0]? with
  | none => simp
  | some b0 =>
    rw [Option.some_bind]
    by_cases hv : b0 ≠ 5
    · rw [if_pos hv]; simp [AM_INVALID, AM_NO_AUTH]
    rw [if_neg hv]
    by_cases hn : 1 ≥ n
    · rw [if_pos hn]; simp [AM_INVALID, AM_NO_AUTH]
    rw [if_neg hn]
    cases h1 : buf[1]? with
    | none => simp
    | some k =>
      rw [Option.some_bind]
      exact check_auth_method_loop_ne_no_auth g cl buf n hu hc k 2

theorem connectAfterAuth_nil : ConnectAfterAuth [] := by
  intro pre buf ret post h
  simp at h

theorem connectAfterAuth_prepend (e : Event) (evs : List Event)
    (he : ∀ buf ret, e ≠ Event.connect_target buf ret) (h : ConnectAfterAuth evs) :
    ConnectAfterAuth (e :: evs) := by
  intro pre buf ret post hsplit
  cases pre with
  | nil =>
    simp at hsplit
    exact absurd hsplit.1 (he buf ret)
  | cons p pre =>
    simp at hsplit
    exact List.mem_cons_of_mem _ (h pre buf ret post hsplit.2)

theorem connectAfterAuth_after_success (evs : List Event) :
    ConnectAfterAuth (Event.credentials EC_SUCCESS :: evs) := by
  intro pre buf ret post hsplit
  cases pre with
  | nil => simp at hsplit
  | cons p pre =>
    simp at hsplit
    rw [← hsplit.1]
    exact List.mem_cons_self _ _

theorem connectAfterAuth_append (pre evs : List Event)
    (hpre : ∀ e ∈ pre, ∀ buf ret, e ≠ Event.connect_target buf ret)
    (h : ConnectAfterAuth evs) : ConnectAfterAuth (pre ++ evs) := by
  induction pre with
  | nil => simpa using h
  | cons e pre ih =>
    exact connectAfterAuth_prepend e (pre ++ evs) (hpre e (List.mem_cons_self _ _))
      (ih (fun e2 he2 => hpre e2 (List.mem_cons_of_mem _ he2)))

theorem clientthread_step_pre_auth (w : World) (g : Globals) (cl : client) (st : socksstate)
    (buf : List Nat) (hst : st ≠ socksstate.SS_3_AUTHED)
    (hu : g.auth_user.isSome = true) (hc : cache_hit g cl = false) :
    (∃ tail, (clientthread_step w g cl st buf).events = Event.credentials EC_SUCCESS :: tail)
    ∨ ((∀ e ∈ (clientthread_step w g cl st buf).events, ∀ b ret,
          e ≠ Event.connect_target b ret)
        ∧ ((clientthread_step w g cl st buf).flow = Flow.next →
            (clientthread_step w g cl st buf).globals = g
              ∧ (clientthread_step w g cl st buf).state ≠ socksstate.SS_3_AUTHED)) := by
  cases st with
  | SS_3_AUTHED => exact absurd rfl hst
  | SS_1_CONNECTED =>
    right
    have hne := check_auth_method_ne_no_auth g cl buf buf.length hu hc
    simp only [clientthread_step]
    cases ham : check_auth_method g cl buf buf.length with
    | none => simp
    | some am =>
      have ham0 : am ≠ AM_NO_AUTH := fun h => hne (by rw [ham, h])
      simp only [if_neg ham0]
      refine ⟨by simp, fun _ => ⟨trivial, ?_⟩⟩
      split_ifs <;> simp
  | SS_2_NEED_AUTH =>
    simp only [clientthread_step]
    cases hcr : check_credentials g buf buf.length with
    | none => right; simp
    | some ret =>
      simp only
      by_cases hr : ret ≠ EC_SUCCESS
      · right
        rw [if_pos hr]
        simp
      · left
        rw [if_neg hr]
        have hr2 : ret = EC_SUCCESS := not_not.mp hr
        exact ⟨_, by rw [hr2]⟩

theorem clientthread_loop_guarded (w : World) (cl : client) :
    ∀ (frames : List (List Nat)) (g : Globals) (st : socksstate),
      st ≠ socksstate.SS_3_AUTHED → g.auth_user.isSome = true → cache_hit g cl = false →
      ConnectAfterAuth (clientthread_loop w cl g st frames).events := by
  intro frames
  induction frames with
  | nil => intro g st _ _ _; simpa [clientthread_loop] using connectAfterAuth_nil
  | cons buf rest ih =>
    intro g st hst hu hc
    by_cases hne : buf = []
    · simpa [clientthread_loop, hne] using connectAfterAuth_nil
    · rw [clientthread_loop_cons w cl g st buf rest hne]
      rcases clientthread_step_pre_auth w g cl st buf hst hu hc with ⟨tail, ht⟩ | ⟨hno, hnext⟩
      · split_ifs
        · simp only [ht, List.cons_append]
          exact connectAfterAuth_after_success _
        · simp only [ht]
          exact connectAfterAuth_after_success _
      · split_ifs with hf
        · obtain ⟨hg, hs⟩ := hnext hf
          simp only
          apply connectAfterAuth_append _ _ hno
          rw [hg]
          exact ih g _ hs hu hc
        · simp only
          have := connectAfterAuth_append _ [] hno connectAfterAuth_nil
          simpa using this

/-- C10: over any sequence of frames the negotiation state never moves backwards
in the order Connected, NeedAuth, Authed; and when credentials are configured
and the peer is not in the auth-IP cache, every call of `connect_socks_target`
comes after a `check_credentials` of the same connection that returned
EC_SUCCESS. -/
theorem negotiation_monotone_guarded (w : World) (g : Globals) (cl : client)
    (frames : List (List Nat)) :
    List.Chain' (fun a b => a.rank ≤ b.rank) (clientthread w g cl frames).states
      ∧ (g.auth_user.isSome = true → cache_hit g cl = false →
          ConnectAfterAuth (clientthread w g cl frames).events) :=
  ⟨clientthread_loop_monotone w cl frames g socksstate.SS_1_CONNECTED,
   fun hu hc => clientthread_loop_guarded w cl frames g socksstate.SS_1_CONNECTED
      (by decide) hu hc⟩

/-- C10 witness: with user `u` and password `p`, the session `05 01 02`,
`01 01 75 01 70`, CONNECT 127.0.0.1:80 visits Connected, NeedAuth, Authed, Authed
and its `connect_socks_target` call follows the successful credentials check. -/
theorem negotiation_monotone_guarded_witness :
    (clientthread world_ok globals_up peer1
        [[5, 1, 2], [1, 1, 0x75, 1, 0x70], [5, 1, 0, 1, 127, 0, 0, 1, 0, 80]]).states
      = [socksstate.SS_1_CONNECTED, socksstate.SS_2_NEED_AUTH, socksstate.SS_3_AUTHED,
         socksstate.SS_3_AUTHED]
    ∧ Event.connect_target [5, 1, 0, 1, 127, 0, 0, 1, 0, 80] 7 ∈
        (clientthread world_ok globals_up peer1
          [[5, 1, 2], [1, 1, 0x75, 1, 0x70], [5, 1, 0, 1, 127, 0, 0, 1, 0, 80]]).events
    ∧ List.Chain' (fun a b => a.rank ≤ b.rank)
        (clientthread world_ok globals_up peer1
          [[5, 1, 2], [1, 1, 0x75, 1, 0x70], [5, 1, 0, 1, 127, 0, 0, 1, 0, 80]]).states
    ∧ ConnectAfterAuth
        (clientthread world_ok globals_up peer1
          [[5, 1, 2], [1, 1, 0x75, 1, 0x70], [5, 1, 0, 1, 127, 0, 0, 1, 0, 80]]).events :=
  ⟨by decide, by decide,
   (negotiation_monotone_guarded world_ok globals_up peer1
      [[5, 1, 2], [1, 1, 0x75, 1, 0x70], [5, 1, 0, 1, 127, 0, 0, 1, 0, 80]]).1,
   (negotiation_monotone_guarded world_ok globals_up peer1
      [[5, 1, 2], [1, 1, 0x75, 1, 0x70], [5, 1, 0, 1, 127, 0, 0, 1, 0, 80]]).2
      (by decide) (by decide)⟩

/-! ## The plain relay -/

theorem write_loop_all (data : List Nat) :
    ∀ (results : List Int) (sent : Nat), (∀ m ∈ results, 0 < m) →
      data.length - sent ≤ results.length →
      (write_loop data sent results).bytes = data.drop sent
        ∧ (write_loop data sent results).status = WriteStatus.complete
        ∧ (∀ m ∈ (write_loop data sent results).rest, 0 < m)
        ∧ results.length ≤ (write_loop data sent results).rest.length + (data.length - sent) := by
  intro results
  induction results with
  | nil =>
    intro sent _ hlen
    have hs : ¬ sent < data.length := by simp at hlen; omega
    simp [write_loop, hs, List.drop_eq_nil_of_le (Nat.le_of_not_lt hs)]
  | cons m rest ih =>
    intro sent hpos hlen
    by_cases hs : sent < data.length
    · have hm : 0 < m := hpos m (List.mem_cons_self _ _)
      have hm2 : ¬ m < 0 := by omega
      have hk : 1 ≤ m.toNat := by omega
      obtain ⟨h1, h2, h3, h4⟩ := ih (sent + m.toNat)
        (fun x hx => hpos x (List.mem_cons_of_mem _ hx)) (by simp at hlen; omega)
      simp only [write_loop, hs, if_true, hm2, if_false]
      refine ⟨?_, h2, h3, by simp; omega⟩
      rw [h1, ← List.drop_drop, List.take_append_drop]
    · simp only [write_loop, hs, if_false]
      exact ⟨(List.drop_eq_nil_of_le (Nat.le_of_not_lt hs)).symm, trivial, hpos, by omega⟩

theorem copyloop_step_data (retry : Nat) (r : Round) (hq : r.quiet) (hne : 1 ≤ r.data.length) :
    copyloop_step retry r
      = { retry := retry,
          outputs := [{ to_fd1 := decide (r.select = Select.fd2_ready), bytes := r.data }],
          flow := LoopFlow.next } := by
  obtain ⟨hsel, hpos, hlen⟩ := hq
  obtain ⟨h1, h2, _, _⟩ := write_loop_all r.data r.writes 0 hpos (by omega)
  have hn : ¬ r.data.length ≤ 0 := by omega
  rcases hsel with h | h <;>
    simp [copyloop_step, h, hn, h1, h2]

theorem copyloop_step_empty (retry : Nat) (r : Round) (hq : r.quiet) (he : r.data = []) :
    copyloop_step retry r
      = if retry < 6 then { retry := retry + 1, outputs := [], flow := LoopFlow.next }
        else { retry := retry, outputs := [], flow := LoopFlow.exit 0 } := by
  obtain ⟨hsel, _, _⟩ := hq
  rcases hsel with h | h <;> simp [copyloop_step, h, he]

theorem copyloop_loop_cons (retry : Nat) (r : Round) (rest : List Round) :
    copyloop_loop retry (r :: rest)
      = if (copyloop_step retry r).flow = LoopFlow.next then
          { outputs := (copyloop_step retry r).outputs
              ++ (copyloop_loop (copyloop_step retry r).retry rest).outputs,
            flow := (copyloop_loop (copyloop_step retry r).retry rest).flow }
        else
          { outputs := (copyloop_step retry r).outputs, flow := (copyloop_step retry r).flow } := by
  rw [copyloop_loop]
  generalize copyloop_step retry r = st
  obtain ⟨rt, outs, fl⟩ := st
  cases fl <;> simp

theorem is_empty_read_of_quiet (r : Round) (hq : r.quiet) :
    r.is_empty_read = r.data.isEmpty := by
  obtain ⟨hsel, _, _⟩ := hq
  rcases hsel with h | h <;> simp [Round.is_empty_read, h]

theorem copyloop_loop_tolerates :
    ∀ (rounds : List Round) (retry : Nat), (∀ r ∈ rounds, r.quiet) →
      retry + rounds.countP Round.is_empty_read ≤ 6 →
      copyloop_loop retry rounds
        = { outputs := forwarded_outputs rounds, flow := LoopFlow.waiting } := by
  intro rounds
  induction rounds with
  | nil => intro retry _ _; simp [copyloop_loop, forwarded_outputs]
  | cons r rest ih =>
    intro retry hq hcount
    have hqr := hq r (List.mem_cons_self _ _)
    have hqrest : ∀ x ∈ rest, x.quiet := fun x hx => hq x (List.mem_cons_of_mem _ hx)
    rw [copyloop_loop_cons]
    cases hd : r.data with
    | nil =>
      have he : r.is_empty_read = true := by rw [is_empty_read_of_quiet r hqr, hd]; rfl
      rw [List.countP_cons_of_pos _ _ he] at hcount
      have hlt : retry < 6 := by omega
      rw [copyloop_step_empty retry r hqr hd, if_pos hlt]
      simp only [if_true, List.nil_append]
      rw [ih (retry + 1) hqrest (by omega)]
      simp [forwarded_outputs, hd]
    | cons c cs =>
      have he : ¬ r.is_empty_read = true := by rw [is_empty_read_of_quiet r hqr, hd]; simp
      rw [List.countP_cons_of_neg _ _ he] at hcount
      rw [copyloop_step_data retry r hqr (by rw [hd]; simp)]
      simp only [if_true]
      rw [ih retry hqrest hcount]
      simp [forwarded_outputs, hd, Round.forwarded]

theorem copyloop_loop_seventh :
    ∀ (pre : List Round) (retry : Nat) (e : Round) (post : List Round),
      (∀ r ∈ pre, r.quiet) → e.quiet → e.data = [] →
      retry + pre.countP Round.is_empty_read = 6 →
      copyloop_loop retry (pre ++ e :: post)
        = { outputs := forwarded_outputs pre, flow := LoopFlow.exit 0 } := by
  intro pre
  induction pre with
  | nil =>
    intro retry e post _ hqe he hcount
    have hr : ¬ retry < 6 := by simp at hcount; omega
    rw [List.nil_append, copyloop_loop_cons, copyloop_step_empty retry e hqe he, if_neg hr]
    simp [forwarded_outputs]
  | cons r rest ih =>
    intro retry e post hq hqe he hcount
    have hqr := hq r (List.mem_cons_self _ _)
    have hqrest : ∀ x ∈ rest, x.quiet := fun x hx => hq x (List.mem_cons_of_mem _ hx)
    rw [List.cons_append, copyloop_loop_cons]
    cases hd : r.data with
    | nil =>
      have her : r.is_empty_read = true := by rw [is_empty_read_of_quiet r hqr, hd]; rfl
      rw [List.countP_cons_of_pos _ _ her] at hcount
      have hlt : retry < 6 := by omega
      rw [copyloop_step_empty retry r hqr hd, if_pos hlt]
      simp only [if_true, List.nil_append]
      rw [ih (retry + 1) e post hqrest hqe he (by omega)]
      simp [forwarded_outputs, hd]
    | cons c cs =>
      have her : ¬ r.is_empty_read = true := by rw [is_empty_read_of_quiet r hqr, hd]; simp
      rw [List.countP_cons_of_neg _ _ her] at hcount
      rw [copyloop_step_data retry r hqr (by rw [hd]; simp)]
      simp only [if_true]
      rw [ih retry e post hqrest hqe he hcount]
      simp [forwarded_outputs, hd, Round.forwarded]

/-- C11: in `copyloop` a read of `n >= 1` bytes whose writes all return a
positive count puts exactly those bytes, once and in order, on the other
socket before the next iteration; and over a session the relay goes on
through 6 empty reads and returns on the 7th. -/
theorem copyloop_forwards_and_retries :
    (∀ (retry : Nat) (r : Round), r.quiet → 1 ≤ r.data.length → r.data.length ≤ 1024 →
      copyloop_step retry r
        = { retry := retry,
            outputs := [{ to_fd1 := decide (r.select = Select.fd2_ready), bytes := r.data }],
            flow := LoopFlow.next })
    ∧ (∀ rounds : List Round, (∀ r ∈ rounds, r.quiet) →
        rounds.countP Round.is_empty_read ≤ 6 →
        copyloop rounds = { outputs := forwarded_outputs rounds, flow := LoopFlow.waiting })
    ∧ (∀ (pre : List Round) (e : Round) (post : List Round), (∀ r ∈ pre, r.quiet) →
        e.quiet → e.data = [] → pre.countP Round.is_empty_read = 6 →
        copyloop (pre ++ e :: post)
          = { outputs := forwarded_outputs pre, flow := LoopFlow.exit 0 }) :=
  ⟨fun retry r hq h1 _ => copyloop_step_data retry r hq h1,
   fun rounds hq hc => copyloop_loop_tolerates rounds 0 hq (by omega),
   fun pre e post hq hqe he hc => copyloop_loop_seventh pre 0 e post hq hqe he (by omega)⟩

theorem round_empty_quiet : round_empty.quiet :=
  ⟨Or.inl rfl, by decide, by decide⟩

theorem round_abc_quiet : round_abc.quiet :=
  ⟨Or.inl rfl, by decide, by decide⟩

theorem quiet_replicate_empty (k : Nat) : ∀ r ∈ List.replicate k round_empty, r.quiet := by
  intro r hr
  rw [(List.mem_replicate.mp hr).2]
  exact round_empty_quiet

/-- C11 witness: `abc` written in pieces of 1 and 2 bytes arrives whole on the
upstream socket; a session with 6 empty reads still forwards the chunk that
follows, and one with 7 returns at the 7th. -/
theorem copyloop_forwards_and_retries_witness :
    copyloop_step 0 round_abc
        = { retry := 0, outputs := [{ to_fd1 := false, bytes := bytes "abc" }],
            flow := LoopFlow.next }
    ∧ copyloop (List.replicate 6 round_empty ++ [round_abc])
        = { outputs := [{ to_fd1 := false, bytes := bytes "abc" }], flow := LoopFlow.waiting }
    ∧ copyloop (List.replicate 6 round_empty ++ round_empty :: [round_abc])
        = { outputs := [], flow := LoopFlow.exit 0 } :=
  ⟨(copyloop_forwards_and_retries.1 0 round_abc round_abc_quiet (by decide) (by decide)).trans
      rfl,
   (copyloop_forwards_and_retries.2.1 (List.replicate 6 round_empty ++ [round_abc])
      (fun r hr => (List.mem_append.mp hr).elim (quiet_replicate_empty 6 r)
        (fun h => by rw [List.mem_singleton.mp h]; exact round_abc_quiet))
      (by decide)).trans rfl,
   (copyloop_forwards_and_retries.2.2 (List.replicate 6 round_empty) round_empty [round_abc]
      (quiet_replicate_empty 6) round_empty_quiet rfl (by decide)).trans rfl⟩

/-! ## The switching relay -/

theorem copyloop_simple_loop_cons (mem : Memory) (g : Globals) (retry : Nat) (r : Round)
    (rest : List Round) :
    copyloop_simple_loop mem g retry (r :: rest)
      = if (copyloop_simple_step mem g retry r).flow = LoopFlow.next then
          { globals := (copyloop_simple_loop mem (copyloop_simple_step mem g retry r).globals
              (copyloop_simple_step mem g retry r).retry rest).globals,
            outputs := (copyloop_simple_step mem g retry r).outputs
              ++ (copyloop_simple_loop mem (copyloop_simple_step mem g retry r).globals
                (copyloop_simple_step mem g retry r).retry rest).outputs,
            flow := (copyloop_simple_loop mem (copyloop_simple_step mem g retry r).globals
              (copyloop_simple_step mem g retry r).retry rest).flow }
        else
          { globals := (copyloop_simple_step mem g retry r).globals,
            outputs := (copyloop_simple_step mem g retry r).outputs,
            flow := (copyloop_simple_step mem g retry r).flow } := by
  rw [copyloop_simple_loop]
  generalize copyloop_simple_step mem g retry r = st
  obtain ⟨gl, rt, outs, fl⟩ := st
  cases fl <;> simp

theorem copyloop_simple_forward_all (g : Globals) (retry : Nat) (to_fd1 : Bool) (r : Round)
    (hpos : ∀ m ∈ r.writes, 0 < m) (hlen : r.data.length ≤ r.writes.length) :
    copyloop_simple_forward g retry to_fd1 r
      = { globals := g, retry := retry, outputs := [{ to_fd1 := to_fd1, bytes := r.data }],
          flow := LoopFlow.next } := by
  obtain ⟨h1, h2, _, _⟩ := write_loop_all r.data r.writes 0 hpos (by omega)
  simp [copyloop_simple_forward, h1, h2]

theorem copyloop_simple_step_notify (mem : Memory) (g : Globals) (retry : Nat) (r : Round)
    (hn : r.notify_from_upstream mem) :
    copyloop_simple_step mem g retry r
      = if g.IS_VENUS_LOOP = 1 then
          if g.g_venus_job_count + 1 > 3 then
            { globals := { g with g_venus_job_count := g.g_venus_job_count + 1,
                                  g_real_job_count := 0, IS_VENUS_LOOP := 0 },
              retry := retry, outputs := [], flow := LoopFlow.exit 1 }
          else
            { globals := { g with g_venus_job_count := g.g_venus_job_count + 1 },
              retry := retry, outputs := [{ to_fd1 := true, bytes := r.data }],
              flow := LoopFlow.next }
        else if g.IS_VENUS_LOOP = 0 then
          if g.g_real_job_count + 1 > 5 then
            { globals := { g with g_real_job_count := g.g_real_job_count + 1,
                                  g_venus_job_count := 0, IS_VENUS_LOOP := 1 },
              retry := retry, outputs := [], flow := LoopFlow.exit 1 }
          else
            { globals := { g with g_real_job_count := g.g_real_job_count + 1 },
              retry := retry, outputs := [{ to_fd1 := true, bytes := r.data }],
              flow := LoopFlow.next }
        else
          { globals := g, retry := retry, outputs := [{ to_fd1 := true, bytes := r.data }],
            flow := LoopFlow.next } := by
  obtain ⟨hsel, h1, hty, hpos, hlen⟩ := hn
  have hn0 : ¬ r.data.length ≤ 0 := by omega
  simp only [copyloop_simple_step, hsel, hn0, if_false, hty, decide_True, and_self, if_true,
    copyloop_simple_forward_all _ retry true r hpos hlen]

theorem copyloop_simple_step_real (mem : Memory) (g : Globals) (retry : Nat) (r : Round)
    (hn : r.notify_from_upstream mem) (hp : g.IS_VENUS_LOOP = 0)
    (hthr : ¬ g.g_real_job_count + 1 > 5) :
    copyloop_simple_step mem g retry r
      = { globals := { g with g_real_job_count := g.g_real_job_count + 1 }, retry := retry,
          outputs := [{ to_fd1 := true, bytes := r.data }], flow := LoopFlow.next } := by
  rw [copyloop_simple_step_notify mem g retry r hn]
  rw [if_neg (by rw [hp]; decide), if_pos hp]
  rw [if_neg hthr]

theorem copyloop_simple_step_real_flip (mem : Memory) (g : Globals) (retry : Nat) (r : Round)
    (hn : r.notify_from_upstream mem) (hp : g.IS_VENUS_LOOP = 0)
    (hthr : g.g_real_job_count + 1 > 5) :
    copyloop_simple_step mem g retry r
      = { globals := { g with g_real_job_count := g.g_real_job_count + 1, g_venus_job_count := 0,
                              IS_VENUS_LOOP := 1 },
          retry := retry, outputs := [], flow := LoopFlow.exit 1 } := by
  rw [copyloop_simple_step_notify mem g retry r hn]
  rw [if_neg (by rw [hp]; decide), if_pos hp]
  rw [if_pos hthr]

theorem copyloop_simple_real_wait (mem : Memory) :
    ∀ (rounds : List Round) (g : Globals) (retry : Nat), g.IS_VENUS_LOOP = 0 →
      (∀ r ∈ rounds, r.notify_from_upstream mem) →
      g.g_real_job_count + (rounds.length : Int) ≤ 5 →
      (copyloop_simple_loop mem g retry rounds).flow = LoopFlow.waiting
        ∧ (copyloop_simple_loop mem g retry rounds).outputs = rounds.map Round.forwarded := by
  intro rounds
  induction rounds with
  | nil => intro g retry _ _ _; simp [copyloop_simple_loop]
  | cons r rest ih =>
    intro g retry hp hn hc
    have hnr := hn r (List.mem_cons_self _ _)
    have hlen : ((r :: rest).length : Int) = (rest.length : Int) + 1 := by simp
    have hthr : ¬ g.g_real_job_count + 1 > 5 := by omega
    rw [copyloop_simple_loop_cons, copyloop_simple_step_real mem g retry r hnr hp hthr]
    obtain ⟨h1, h2⟩ := ih { g with g_real_job_count := g.g_real_job_count + 1 } retry hp
      (fun x hx => hn x (List.mem_cons_of_mem _ hx)) (by simp only; omega)
    simp only [if_true]
    refine ⟨h1, ?_⟩
    rw [h2]
    simp [Round.forwarded, hnr.1]

theorem copyloop_simple_real_flip (mem : Memory) :
    ∀ (pre : List Round) (g : Globals) (retry : Nat) (r : Round) (post : List Round),
      g.IS_VENUS_LOOP = 0 → (∀ x ∈ pre, x.notify_from_upstream mem) →
      r.notify_from_upstream mem → g.g_real_job_count + (pre.length : Int) = 5 →
      (copyloop_simple_loop mem g retry (pre ++ r :: post)).flow = LoopFlow.exit 1
        ∧ (copyloop_simple_loop mem g retry (pre ++ r :: post)).globals.IS_VENUS_LOOP = 1
        ∧ (copyloop_simple_loop mem g retry (pre ++ r :: post)).globals.g_venus_job_count = 0
        ∧ (copyloop_simple_loop mem g retry (pre ++ r :: post)).outputs
            = pre.map Round.forwarded := by
  intro pre
  induction pre with
  | nil =>
    intro g retry r post hp _ hnr hc
    have hthr : g.g_real_job_count + 1 > 5 := by simp at hc; omega
    rw [List.nil_append, copyloop_simple_loop_cons,
      copyloop_simple_step_real_flip mem g retry r hnr hp hthr]
    simp
  | cons x rest ih =>
    intro g retry r post hp hn hnr hc
    have hnx := hn x (List.mem_cons_self _ _)
    have hlen : ((x :: rest).length : Int) = (rest.length : Int) + 1 := by simp
    have hthr : ¬ g.g_real_job_count + 1 > 5 := by omega
    rw [List.cons_append, copyloop_simple_loop_cons,
      copyloop_simple_step_real mem g retry x hnx hp hthr]
    obtain ⟨h1, h2, h3, h4⟩ := ih { g with g_real_job_count := g.g_real_job_count + 1 } retry r post hp
      (fun y hy => hn y (List.mem_cons_of_mem _ hy)) hnr (by simp only; omega)
    simp only [if_true]
    refine ⟨h1, h2, h3, ?_⟩
    rw [h4]
    simp [Round.forwarded, hnx.1]

theorem copyloop_simple_step_venus (mem : Memory) (g : Globals) (retry : Nat) (r : Round)
    (hn : r.notify_from_upstream mem) (hp : g.IS_VENUS_LOOP = 1)
    (hthr : ¬ g.g_venus_job_count + 1 > 3) :
    copyloop_simple_step mem g retry r
      = { globals := { g with g_venus_job_count := g.g_venus_job_count + 1 }, retry := retry,
          outputs := [{ to_fd1 := true, bytes := r.data }], flow := LoopFlow.next } := by
  rw [copyloop_simple_step_notify mem g retry r hn]
  rw [if_pos hp]
  rw [if_neg hthr]

theorem copyloop_simple_step_venus_flip (mem : Memory) (g : Globals) (retry : Nat) (r : Round)
    (hn : r.notify_from_upstream mem) (hp : g.IS_VENUS_LOOP = 1)
    (hthr : g.g_venus_job_count + 1 > 3) :
    copyloop_simple_step mem g retry r
      = { globals := { g with g_venus_job_count := g.g_venus_job_count + 1, g_real_job_count := 0,
                              IS_VENUS_LOOP := 0 },
          retry := retry, outputs := [], flow := LoopFlow.exit 1 } := by
  rw [copyloop_simple_step_notify mem g retry r hn]
  rw [if_pos hp]
  rw [if_pos hthr]

theorem copyloop_simple_venus_wait (mem : Memory) :
    ∀ (rounds : List Round) (g : Globals) (retry : Nat), g.IS_VENUS_LOOP = 1 →
      (∀ r ∈ rounds, r.notify_from_upstream mem) →
      g.g_venus_job_count + (rounds.length : Int) ≤ 3 →
      (copyloop_simple_loop mem g retry rounds).flow = LoopFlow.waiting
        ∧ (copyloop_simple_loop mem g retry rounds).outputs = rounds.map Round.forwarded := by
  intro rounds
  induction rounds with
  | nil => intro g retry _ _ _; simp [copyloop_simple_loop]
  | cons r rest ih =>
    intro g retry hp hn hc
    have hnr := hn r (List.mem_cons_self _ _)
    have hlen : ((r :: rest).length : Int) = (rest.length : Int) + 1 := by simp
    have hthr : ¬ g.g_venus_job_count + 1 > 3 := by omega
    rw [copyloop_simple_loop_cons, copyloop_simple_step_venus mem g retry r hnr hp hthr]
    obtain ⟨h1, h2⟩ := ih { g with g_venus_job_count := g.g_venus_job_count + 1 } retry hp
      (fun x hx => hn x (List.mem_cons_of_mem _ hx)) (by simp only; omega)
    simp only [if_true]
    refine ⟨h1, ?_⟩
    rw [h2]
    simp [Round.forwarded, hnr.1]

theorem copyloop_simple_venus_flip (mem : Memory) :
    ∀ (pre : List Round) (g : Globals) (retry : Nat) (r : Round) (post : List Round),
      g.IS_VENUS_LOOP = 1 → (∀ x ∈ pre, x.notify_from_upstream mem) →
      r.notify_from_upstream mem → g.g_venus_job_count + (pre.length : Int) = 3 →
      (copyloop_simple_loop mem g retry (pre ++ r :: post)).flow = LoopFlow.exit 1
        ∧ (copyloop_simple_loop mem g retry (pre ++ r :: post)).globals.IS_VENUS_LOOP = 0
        ∧ (copyloop_simple_loop mem g retry (pre ++ r :: post)).globals.g_real_job_count = 0
        ∧ (copyloop_simple_loop mem g retry (pre ++ r :: post)).outputs
            = pre.map Round.forwarded := by
  intro pre
  induction pre with
  | nil =>
    intro g retry r post hp _ hnr hc
    have hthr : g.g_venus_job_count + 1 > 3 := by simp at hc; omega
    rw [List.nil_append, copyloop_simple_loop_cons,
      copyloop_simple_step_venus_flip mem g retry r hnr hp hthr]
    simp
  | cons x rest ih =>
    intro g retry r post hp hn hnr hc
    have hnx := hn x (List.mem_cons_self _ _)
    have hlen : ((x :: rest).length : Int) = (rest.length : Int) + 1 := by simp
    have hthr : ¬ g.g_venus_job_count + 1 > 3 := by omega
    rw [List.cons_append, copyloop_simple_loop_cons,
      copyloop_simple_step_venus mem g retry x hnx hp hthr]
    obtain ⟨h1, h2, h3, h4⟩ := ih { g with g_venus_job_count := g.g_venus_job_count + 1 } retry r post hp
      (fun y hy => hn y (List.mem_cons_of_mem _ hy)) hnr (by simp only; omega)
    simp only [if_true]
    refine ⟨h1, h2, h3, ?_⟩
    rw [h4]
    simp [Round.forwarded, hnx.1]

theorem notify_take (mem : Memory) (rounds : List Round) (k : Nat)
    (h : ∀ x ∈ rounds, x.notify_from_upstream mem) :
    ∀ x ∈ rounds.take k, x.notify_from_upstream mem :=
  fun x hx => h x (List.mem_of_mem_take hx)

/-- C12: in `copyloop_simple`, starting in phase REAL with both counters zero,
the relay is still running after any of the first five server-to-client NOTIFY
chunks and returns 1 with phase VENUS on the 6th; called again from there it
is still running after any of the next three and returns 1 with phase REAL on
the 4th. -/
theorem copyloop_simple_phase_flips (mem : Memory) (g : Globals)
    (hp : g.IS_VENUS_LOOP = 0) (hr : g.g_real_job_count = 0) (_hv : g.g_venus_job_count = 0)
    (pre : List Round) (r6 : Round) (post : List Round) (hlen : pre.length = 5)
    (hpre : ∀ x ∈ pre, x.notify_from_upstream mem) (h6 : r6.notify_from_upstream mem)
    (pre2 : List Round) (r4 : Round) (post2 : List Round) (hlen2 : pre2.length = 3)
    (hpre2 : ∀ x ∈ pre2, x.notify_from_upstream mem) (h4 : r4.notify_from_upstream mem) :
    (∀ k, (copyloop_simple mem g (pre.take k)).flow = LoopFlow.waiting)
    ∧ (copyloop_simple mem g (pre ++ r6 :: post)).flow = LoopFlow.exit 1
    ∧ (copyloop_simple mem g (pre ++ r6 :: post)).globals.IS_VENUS_LOOP = 1
    ∧ (∀ k, (copyloop_simple mem (copyloop_simple mem g (pre ++ r6 :: post)).globals
          (pre2.take k)).flow = LoopFlow.waiting)
    ∧ (copyloop_simple mem (copyloop_simple mem g (pre ++ r6 :: post)).globals
          (pre2 ++ r4 :: post2)).flow = LoopFlow.exit 1
    ∧ (copyloop_simple mem (copyloop_simple mem g (pre ++ r6 :: post)).globals
          (pre2 ++ r4 :: post2)).globals.IS_VENUS_LOOP = 0 := by
  obtain ⟨f1, f2, f3, _⟩ := copyloop_simple_real_flip mem pre g 0 r6 post hp hpre h6
    (by rw [hr, hlen]; rfl)
  obtain ⟨e1, e2, _, _⟩ := copyloop_simple_venus_flip mem pre2
    (copyloop_simple mem g (pre ++ r6 :: post)).globals 0 r4 post2 f2 hpre2 h4
    (by rw [show (copyloop_simple mem g (pre ++ r6 :: post)).globals.g_venus_job_count = 0
          from f3, hlen2]; rfl)
  refine ⟨?_, f1, f2, ?_, e1, e2⟩
  · intro k
    have hk : (pre.take k).length ≤ 5 := by rw [List.length_take]; omega
    exact (copyloop_simple_real_wait mem (pre.take k) g 0 hp (notify_take mem pre k hpre)
      (by rw [hr]; omega)).1
  · intro k
    have hk : (pre2.take k).length ≤ 3 := by rw [List.length_take]; omega
    exact (copyloop_simple_venus_wait mem (pre2.take k)
      (copyloop_simple mem g (pre ++ r6 :: post)).globals 0 f2 (notify_take mem pre2 k hpre2)
      (by rw [show (copyloop_simple mem g (pre ++ r6 :: post)).globals.g_venus_job_count = 0
            from f3]; omega)).1

theorem round_notify_is_notify : round_notify.notify_from_upstream mem_zero := by
  unfold Round.notify_from_upstream
  decide

theorem notify_replicate (k : Nat) :
    ∀ x ∈ List.replicate k round_notify, x.notify_from_upstream mem_zero := by
  intro x hx
  rw [(List.mem_replicate.mp hx).2]
  exact round_notify_is_notify

/-- C12 witness: ten copies of a NOTIFY line fed to `copyloop_simple` from the
initial globals: return on the 6th with phase VENUS, then on the 4th with phase REAL. -/
theorem copyloop_simple_phase_flips_witness :
    (∀ k, (copyloop_simple mem_zero {} ((List.replicate 5 round_notify).take k)).flow
        = LoopFlow.waiting)
    ∧ (copyloop_simple mem_zero {} (List.replicate 5 round_notify ++ round_notify :: [])).flow
        = LoopFlow.exit 1
    ∧ (copyloop_simple mem_zero {}
        (List.replicate 5 round_notify ++ round_notify :: [])).globals.IS_VENUS_LOOP = 1
    ∧ (∀ k, (copyloop_simple mem_zero (copyloop_simple mem_zero {}
          (List.replicate 5 round_notify ++ round_notify :: [])).globals
          ((List.replicate 3 round_notify).take k)).flow = LoopFlow.waiting)
    ∧ (copyloop_simple mem_zero (copyloop_simple mem_zero {}
          (List.replicate 5 round_notify ++ round_notify :: [])).globals
          (List.replicate 3 round_notify ++ round_notify :: [])).flow = LoopFlow.exit 1
    ∧ (copyloop_simple mem_zero (copyloop_simple mem_zero {}
          (List.replicate 5 round_notify ++ round_notify :: [])).globals
          (List.replicate 3 round_notify ++ round_notify :: [])).globals.IS_VENUS_LOOP = 0 :=
  copyloop_simple_phase_flips mem_zero {} rfl rfl rfl
    (List.replicate 5 round_notify) round_notify [] (by decide) (notify_replicate 5)
    round_notify_is_notify
    (List.replicate 3 round_notify) round_notify [] (by decide) (notify_replicate 3)
    round_notify_is_notify

/-! ## The MITM relay and the driver: evaluations -/

/-- C13 (failing input): from phase REAL with both counters zero, six upstream
NOTIFY chunks leave `copyloop_venus` running in phase REAL (IS_VENUS_LOOP = 0,
`g_real_job_count` = 6, all six chunks forwarded): the REAL branch tests
`g_venus_job_count > 5`. -/
theorem copyloop_venus_six_notifies :
    (copyloop_venus mem_zero {} (List.replicate 6 round_notify)).map
        (fun run => (run.globals.IS_VENUS_LOOP, run.globals.g_real_job_count,
          run.globals.g_venus_job_count, run.flow, run.outputs.length))
      = some (0, 6, 0, LoopFlow.waiting, 6) := by
  decide

/-- Were the word set to 1 beforehand, a CONNECT request for 127.0.0.1:80 would
still make the driver call `connect_socks_target` on the client's own request
(descriptor 7, where the venus pool would answer on 9): the venus branch is
tested after the word was overwritten with 7. -/
theorem clientthread_preset_phase_dials_client_target :
    (clientthread_step world_split { IS_VENUS_LOOP := 1 } peer1 socksstate.SS_3_AUTHED
        [5, 1, 0, 1, 127, 0, 0, 1, 0, 80]).events
      = [Event.connect_target [5, 1, 0, 1, 127, 0, 0, 1, 0, 80] 7,
         Event.write [5, 0, 0, 1, 0, 0, 0, 0, 0, 0], Event.copyloop 7]
    ∧ connect_socks_target_parse world_split [5, 1, 0, 1, 127, 0, 0, 1, 0, 80] 10
      = some (Target.dest (bytes "127.0.0.1" ++ [0]) 80)
    ∧ connect_socks_target_dial world_split {} (VENUS_POOL_URL ++ [0]) VENUS_POOL_URL_PORT = 9 := by
  decide

/-- C17 (failing input): in VENUS phase the SUBMIT line with params
`["bob", "x"]` goes upstream with the whole span `["bob",` replaced, so the
opening bracket, both quotes and the comma are lost; the claim expects
`["rayraycoin.v2", "x"]`. -/
theorem repalce_name_send_drops_delimiters :
    (copyloop_venus_step mem_zero { IS_VENUS_LOOP := 1 }
        (round_of true
          "\x7b\"params\": [\"bob\", \"x\"], \"id\": 4, \"method\": \"mining.submit\"\x7d\n")).map
        (fun s => s.outputs)
      = some [{ to_fd1 := false,
                bytes := bytes
                  "\x7b\"params\": rayraycoin.v2 \"x\"], \"id\": 4, \"method\": \"mining.submit\"\x7d\n" }]
    ∧ bytes "\x7b\"params\": rayraycoin.v2 \"x\"], \"id\": 4, \"method\": \"mining.submit\"\x7d\n"
      ≠ bytes
        "\x7b\"params\": [\"rayraycoin.v2\", \"x\"], \"id\": 4, \"method\": \"mining.submit\"\x7d\n" := by
  decide

/-- C20 (failing input): a 600-byte INIT_SUBSCRIBE chunk is stored whole, 601
bytes with its terminator, in the 512-byte slot; a 300-byte difficulty
parameter list, 301 bytes with its terminator, in the 256-byte slot. -/
theorem cached_replies_exceed_slots :
    (copyloop_venus_step mem_zero {} round_long_subscribe_reply).map
        (fun s => s.globals.g_real_init_sub_ret.length + 1) = some 601
    ∧ (copyloop_venus_step mem_zero {} round_long_difficulty).map
        (fun s => s.globals.g_real_diff_value.length + 1) = some 301
    ∧ round_long_subscribe_reply.data.length = 600
    ∧ 512 < 601 ∧ 256 < 301 := by
  decide

/-! ## `strreplace` on memory that holds more than a C string -/

theorem cstr_append_nul (x y : List Nat) (hx : ∀ c ∈ x, c ≠ 0) : cstr (x ++ 0 :: y) = x := by
  rw [cstr_append_zero, cstr_of_nulfree x hx]

theorem strstr_cstr_needle (o p : List Nat) : strstr o (cstr p) = strstr o p := by
  unfold strstr
  rw [cstr_idem]

theorem strlen_cstr (p : List Nat) : strlen (cstr p) = strlen p := by
  unfold strlen
  rw [cstr_idem]

theorem strncpy_cstr (r : List Nat) (n : Nat) : strncpy (cstr r) n = strncpy r n := by
  unfold strncpy
  rw [strlen_cstr, cstr_idem]

theorem strreplace_count_cstr_pattern (p : List Nat) :
    ∀ (fuel : Nat) (o : List Nat) (c : Nat),
      strreplace_count (cstr p) fuel o c = strreplace_count p fuel o c := by
  intro fuel
  induction fuel with
  | zero => intro o c; rfl
  | succ fuel ih =>
    intro o c
    unfold strreplace_count
    rw [strstr_cstr_needle, strlen_cstr]
    cases strstr o p with
    | none => rfl
    | some k => exact ih _ _

theorem strreplace_copy_cstr_args (p r : List Nat) :
    ∀ (fuel : Nat) (o ret : List Nat),
      strreplace_copy (cstr p) (cstr r) fuel o ret = strreplace_copy p r fuel o ret := by
  intro fuel
  induction fuel with
  | zero => intro o ret; rfl
  | succ fuel ih =>
    intro o ret
    unfold strreplace_copy
    rw [strstr_cstr_needle, strlen_cstr, strlen_cstr, strncpy_cstr]
    cases strstr o p with
    | none => rfl
    | some k => exact ih _ _

theorem strreplace_cstr_args (fuel : Nat) (o p r : List Nat) :
    strreplace fuel o (cstr p) (cstr r) = strreplace fuel o p r := by
  unfold strreplace
  rw [strreplace_count_cstr_pattern, strreplace_copy_cstr_args]

theorem strstr_append_nul (x y p : List Nat) (hx : ∀ c ∈ x, c ≠ 0) :
    strstr (x ++ 0 :: y) p = strstr x p := by
  unfold strstr
  rw [cstr_append_nul x y hx, cstr_of_nulfree x hx]

theorem strstr_bound (x p : List Nat) (k : Nat) (hx : ∀ c ∈ x, c ≠ 0)
    (hk : strstr x p = some k) : k + strlen p ≤ x.length := by
  unfold strstr at hk
  rw [cstr_of_nulfree x hx] at hk
  obtain ⟨hpre, hle, _⟩ := strstrFrom_eq_some (cstr p) x k hk
  have := hpre.length_le
  simp at this
  unfold strlen
  omega

theorem strreplace_count_append_nul (p y : List Nat) :
    ∀ (fuel : Nat) (x : List Nat) (c : Nat), (∀ b ∈ x, b ≠ 0) →
      strreplace_count p fuel (x ++ 0 :: y) c = strreplace_count p fuel x c := by
  intro fuel
  induction fuel with
  | zero => intro x c _; rfl
  | succ fuel ih =>
    intro x c hx
    unfold strreplace_count
    rw [strstr_append_nul x y p hx]
    cases hk : strstr x p with
    | none => rfl
    | some k =>
      have hb := strstr_bound x p k hx hk
      simp only
      rw [List.drop_append_of_le_length hb]
      exact ih _ _ (nulfree_drop x _ hx)

theorem strncpy_append_nul (x y : List Nat) (n : Nat) (hx : ∀ c ∈ x, c ≠ 0) :
    strncpy (x ++ 0 :: y) n = strncpy x n := by
  unfold strncpy strlen
  rw [cstr_append_nul x y hx, cstr_of_nulfree x hx]

theorem strreplace_copy_append_nul (p r y : List Nat) :
    ∀ (fuel : Nat) (x ret : List Nat), (∀ b ∈ x, b ≠ 0) →
      strreplace_copy p r fuel (x ++ 0 :: y) ret = strreplace_copy p r fuel x ret := by
  intro fuel
  induction fuel with
  | zero => intro x ret _; rfl
  | succ fuel ih =>
    intro x ret hx
    unfold strreplace_copy
    rw [strstr_append_nul x y p hx]
    cases hk : strstr x p with
    | none => simp only [cstr_append_nul x y hx, cstr_of_nulfree x hx]
    | some k =>
      have hb := strstr_bound x p k hx hk
      simp only
      rw [List.drop_append_of_le_length hb, strncpy_append_nul x y k hx]
      exact ih _ _ (nulfree_drop x _ hx)

theorem strreplace_append_nul (fuel : Nat) (x y p r : List Nat) (hx : ∀ b ∈ x, b ≠ 0) :
    strreplace fuel (x ++ 0 :: y) p r = strreplace fuel x p r := by
  unfold strreplace
  rw [strreplace_count_append_nul p y fuel x 0 hx, strreplace_copy_append_nul p r y fuel x [] hx]

theorem strreplace_call_nulfree (x p r : List Nat) (hx : ∀ b ∈ x, b ≠ 0) (hp : cstr p ≠ []) :
    strreplace_call x p r = some (substitute_spec (cstr p) (cstr r) 0 x) := by
  unfold strreplace_call
  rw [← strreplace_cstr_args]
  apply strreplace_eq_substitute_spec x (cstr p) (cstr r) _ hx (cstr_nulfree p) (cstr_nulfree r) hp
  unfold strlen
  rw [cstr_of_nulfree x hx]
  omega

theorem strreplace_call_append_nul (x y p r : List Nat) (hx : ∀ b ∈ x, b ≠ 0)
    (hp : cstr p ≠ []) :
    strreplace_call (x ++ 0 :: y) p r = some (substitute_spec (cstr p) (cstr r) 0 x) := by
  have h := strreplace_call_nulfree x p r hx hp
  unfold strreplace_call at h ⊢
  rw [strreplace_append_nul _ x y p r hx]
  have hl : strlen (x ++ 0 :: y) = strlen x := by
    unfold strlen
    rw [cstr_append_nul x y hx, cstr_of_nulfree x hx]
  rw [hl]
  exact h

/-! ## Sending with writes that succeed -/

theorem chunk_mem_short (mem : Memory) (data : List Nat) (h : data.length < 1024) :
    ∃ y, chunk_mem mem data = data ++ 0 :: y := by
  obtain ⟨k, hk⟩ : ∃ k, 1024 - data.length = k + 1 := ⟨1023 - data.length, by omega⟩
  exact ⟨List.replicate k 0 ++ mem.after_buf, by
    simp [chunk_mem, hk, List.replicate_succ]⟩

theorem send_buf_all (buf : List Nat) (results : List Int) (hpos : ∀ m ∈ results, 0 < m)
    (hlen : strlen buf ≤ results.length) :
    (send_buf buf results).bytes = cstr buf
      ∧ (send_buf buf results).status ≠ WriteStatus.waiting
      ∧ (∀ m ∈ (send_buf buf results).rest, 0 < m)
      ∧ results.length ≤ (send_buf buf results).rest.length + strlen buf := by
  unfold send_buf
  by_cases h0 : strlen buf ≤ 0
  · have hnil : cstr buf = [] := List.length_eq_zero.mp (by unfold strlen at h0; omega)
    simp only [h0, if_true]
    exact ⟨hnil.symm, by decide, hpos, by omega⟩
  · simp only [h0, if_false]
    obtain ⟨h1, h2, h3, h4⟩ := write_loop_all (cstr buf) results 0 hpos
      (by unfold strlen at hlen; omega)
    refine ⟨by simpa using h1, by rw [h2]; decide, h3, ?_⟩
    unfold strlen
    omega

theorem send_seq_all :
    ∀ (msgs : List (Bool × List Nat)) (results : List Int), (∀ m ∈ results, 0 < m) →
      (msgs.map (fun m => strlen m.2)).sum ≤ results.length →
      send_seq msgs results
        = (msgs.map (fun m => { to_fd1 := m.1, bytes := cstr m.2 }), LoopFlow.next) := by
  intro msgs
  induction msgs with
  | nil => intro results _ _; rfl
  | cons m more ih =>
    intro results hpos hlen
    obtain ⟨fd, buf⟩ := m
    simp only [List.map_cons, List.sum_cons] at hlen
    obtain ⟨h1, h2, h3, h4⟩ := send_buf_all buf results hpos (by omega)
    have hrec := ih (send_buf buf results).rest h3 (by omega)
    unfold send_seq
    cases hs : (send_buf buf results).status with
    | waiting => exact absurd hs h2
    | complete => simp [hrec, h1]
    | failed => simp [hrec, h1]

theorem relay_sends_all (g : Globals) (msgs : List (Bool × List Nat)) (results : List Int)
    (hpos : ∀ m ∈ results, 0 < m)
    (hlen : (msgs.map (fun m => strlen m.2)).sum ≤ results.length) :
    relay_sends g msgs results
      = { globals := g, retry := 0,
          outputs := msgs.map (fun m => { to_fd1 := m.1, bytes := cstr m.2 }),
          flow := LoopFlow.next } := by
  unfold relay_sends
  rw [send_seq_all msgs results hpos hlen]

/-! ## Chunks no rule applies to -/

theorem cstr_chunk_mem (mem : Memory) (data : List Nat) (h : data.length < 1024) :
    cstr (chunk_mem mem data) = cstr data := by
  obtain ⟨y, hy⟩ := chunk_mem_short mem data h
  rw [hy, cstr_append_zero]

/-- C19 (as stated, refuted): the chunk `41 00 42` from the client matches no
rule, yet only the byte `41` is written upstream. -/
theorem copyloop_venus_transparency_counterexample :
    no_rule_matches (check_stratum_msg_type (chunk_mem mem_zero round_with_nul.data))
        (decide (round_with_nul.select = Select.fd1_ready))
    ∧ (copyloop_venus_step mem_zero {} round_with_nul).map (fun s => s.outputs)
        = some [{ to_fd1 := false, bytes := [0x41] }]
    ∧ ([0x41] : List Nat) ≠ round_with_nul.data := by
  unfold no_rule_matches
  decide

/-- C19 (amended): a chunk of `1 <= n < 1024` bytes that matches no rule is
written to the opposite socket up to its first zero byte, hence in full and in
order when it contains no zero byte; nothing else is written and the globals
are unchanged. -/
theorem copyloop_venus_forwards_unmatched (mem : Memory) (g : Globals) (r : Round)
    (hsel : r.select = Select.fd1_ready ∨ r.select = Select.fd2_ready)
    (h1 : 1 ≤ r.data.length) (h2 : r.data.length < 1024)
    (hno : no_rule_matches (check_stratum_msg_type (chunk_mem mem r.data))
      (decide (r.select = Select.fd1_ready)))
    (hpos : ∀ m ∈ r.writes, 0 < m) (hlen : r.data.length ≤ r.writes.length) :
    copyloop_venus_step mem g r
        = some { globals := g, retry := 0,
                 outputs := [{ to_fd1 := !decide (r.select = Select.fd1_ready),
                               bytes := cstr r.data }],
                 flow := LoopFlow.next }
      ∧ ((∀ c ∈ r.data, c ≠ 0) → cstr r.data = r.data) := by
  refine ⟨?_, cstr_of_nulfree r.data⟩
  obtain ⟨n1, n2, n3, n4, n5, n6⟩ := hno
  have hn0 : ¬ r.data.length ≤ 0 := by omega
  have hcs := cstr_chunk_mem mem r.data h2
  have hsl : strlen (chunk_mem mem r.data) ≤ r.writes.length := by
    unfold strlen
    rw [hcs]
    have : (cstr r.data).length ≤ r.data.length := by
      unfold cstr; exact (List.takeWhile_sublist _).length_le
    omega
  have hsend := relay_sends_all g [(!decide (r.select = Select.fd1_ready), chunk_mem mem r.data)]
    r.writes hpos (by simpa using hsl)
  rcases hsel with h | h
  · rw [h] at n1 n2 n3 hsend ⊢
    simp at n1 n2 n3 hsend
    simp [copyloop_venus_step, h, hn0, n1, n2, n3, hsend, hcs]
  · rw [h] at n4 n5 n6 hsend ⊢
    simp at n4 n5 n6 hsend
    simp [copyloop_venus_step, h, hn0, n4, n5, n6, hsend, hcs]

/-- C19 witness: the line `hello` from the client, which names no method,
goes upstream unchanged. -/
theorem copyloop_venus_forwards_unmatched_witness :
    copyloop_venus_step mem_zero {} (round_of true "hello\n")
        = some { globals := {}, retry := 0,
                 outputs := [{ to_fd1 := !decide ((round_of true "hello\n").select
                                 = Select.fd1_ready),
                               bytes := cstr (round_of true "hello\n").data }],
                 flow := LoopFlow.next }
      ∧ ((∀ c ∈ (round_of true "hello\n").data, c ≠ 0) →
          cstr (round_of true "hello\n").data = (round_of true "hello\n").data) :=
  copyloop_venus_forwards_unmatched mem_zero {} (round_of true "hello\n") (Or.inl rfl)
    (by decide) (by decide) (by unfold no_rule_matches; decide) (by decide) (by decide)

/-! ## Slices of a chunk -/

theorem strstrFrom_single (c : Nat) (pre rest : List Nat) (h : c ∉ pre) :
    strstrFrom [c] (pre ++ c :: rest) = some pre.length := by
  apply strstrFrom_eq_some_of
  · rw [List.drop_left]
    exact ⟨rest, rfl⟩
  · intro j hj hp
    rw [List.drop_append_of_le_length (Nat.le_of_lt hj)] at hp
    cases hd : pre.drop j with
    | nil =>
      have := List.drop_eq_nil_iff.mp hd
      omega
    | cons a tl =>
      rw [hd] at hp
      obtain ⟨u, hu⟩ := hp
      simp at hu
      have ha : a ∈ pre := List.mem_of_mem_drop (hd ▸ List.mem_cons_self a tl)
      exact h (hu.1 ▸ ha)

theorem find_target_str_with_pattern_at (data y p1 p2 : List Nat) (i k : Nat)
    (hd : ∀ c ∈ data, c ≠ 0) (h1 : ∀ c ∈ p1, c ≠ 0) (h2 : ∀ c ∈ p2, c ≠ 0)
    (hi : strstrFrom p1 data = some i) (hk : strstrFrom p2 (data.drop i) = some k)
    (hsmall : data.length < 2 ^ 64) :
    find_target_str_with_pattern (data ++ 0 :: y) p1 p2
      = some ((data.drop i).take (k + p2.length)) := by
  have hile : i ≤ data.length := (strstrFrom_eq_some p1 data i hi).2.1
  have hdi : ∀ c ∈ data.drop i, c ≠ 0 := nulfree_drop data i hd
  have hpre := (strstrFrom_eq_some p2 (data.drop i) k hk).1
  have hkle := (strstrFrom_eq_some p2 (data.drop i) k hk).2.1
  have hb : k + p2.length ≤ (data.drop i).length := by
    have := hpre.length_le
    simp at this hkle ⊢
    omega
  have hb2 : k + p2.length < 2 ^ 64 := by simp at hb; omega
  unfold find_target_str_with_pattern
  rw [strstr_append_nul data y p1 hd, strstr_of_nulfree data p1 hd h1, hi]
  simp only
  rw [List.drop_append_of_le_length hile, strstr_append_nul _ y p2 hdi,
    strstr_of_nulfree _ p2 hdi h2, hk]
  simp only [strlen, cstr_of_nulfree p2 h2, Nat.mod_eq_of_lt hb2]
  rw [strncpy_append_nul _ y _ hdi, strncpy_of_le _ _ hdi hb]

/-! ## The AUTH replay -/

theorem find_id_in_chunk (x rest y : List Nat)
    (hnf : ∀ c ∈ bytes "\x7b\"id\":" ++ x ++ bytes "," ++ rest, c ≠ 0) (hx : 44 ∉ x)
    (hlen : (bytes "\x7b\"id\":" ++ x ++ bytes "," ++ rest).length < 1024) :
    find_target_str_with_pattern ((bytes "\x7b\"id\":" ++ x ++ bytes "," ++ rest) ++ 0 :: y)
        (bytes "\"id\":") (bytes ",")
      = some (bytes "\"id\":" ++ x ++ bytes ",") := by
  have hK : bytes "\"id\":" = [34, 105, 100, 34, 58] := by decide
  have hB : bytes "\x7b\"id\":" = 123 :: [34, 105, 100, 34, 58] := by decide
  have hC : bytes "," = [44] := by decide
  have hdata : bytes "\x7b\"id\":" ++ x ++ bytes "," ++ rest
      = 123 :: (([34, 105, 100, 34, 58] ++ x) ++ 44 :: rest) := by
    rw [hB, hC]; simp
  rw [hdata] at hnf hlen ⊢
  rw [hK, hC]
  have hi : strstrFrom [34, 105, 100, 34, 58] (123 :: (([34, 105, 100, 34, 58] ++ x) ++ 44 :: rest))
      = some 1 := by
    apply strstrFrom_eq_some_of
    · exact ⟨x ++ 44 :: rest, by simp⟩
    · intro j hj hp
      have hj0 : j = 0 := by omega
      subst hj0
      obtain ⟨u, hu⟩ := hp
      simp at hu
  have hk : strstrFrom [44]
      ((123 :: (([34, 105, 100, 34, 58] ++ x) ++ 44 :: rest)).drop 1)
      = some ([34, 105, 100, 34, 58] ++ x).length := by
    rw [List.drop_one, List.tail_cons]
    apply strstrFrom_single
    intro hmem
    rcases List.mem_append.mp hmem with h | h
    · revert h; decide
    · exact hx h
  rw [find_target_str_with_pattern_at _ y _ _ 1 _ hnf (by decide) (by decide) hi hk
    (by omega)]
  rw [List.drop_one, List.tail_cons]
  have : ([34, 105, 100, 34, 58] ++ x).length + [44].length
      = (([34, 105, 100, 34, 58] ++ x) ++ [44]).length := by simp
  rw [this, show ([34, 105, 100, 34, 58] ++ x) ++ 44 :: rest
      = (([34, 105, 100, 34, 58] ++ x) ++ [44]) ++ rest by simp, List.take_left]

theorem repalce_id_payload_result_true (mem : Memory) (x rest y t t2 : List Nat)
    (hnf : ∀ c ∈ bytes "\x7b\"id\":" ++ x ++ bytes "," ++ rest, c ≠ 0) (hx : 44 ∉ x)
    (hlen : (bytes "\x7b\"id\":" ++ x ++ bytes "," ++ rest).length < 1024)
    (hblock : mem.after_block = 0 :: t) (hblock2 : mem.after_block2 = 0 :: t2) :
    repalce_id_payload mem ((bytes "\x7b\"id\":" ++ x ++ bytes "," ++ rest) ++ 0 :: y)
        g_result_true_msg_template
      = some (result_true_reply x) := by
  have hold : find_target_str_with_pattern g_result_true_msg_template (bytes "\"id\":")
      (bytes ",") = some (bytes "\"id\": REPLACE_PATTERN,") := by decide
  have hnew_nf : ∀ c ∈ bytes "\"id\":" ++ x ++ bytes ",", c ≠ 0 := by
    intro c hc
    apply hnf c
    have hB : bytes "\x7b\"id\":" = 123 :: bytes "\"id\":" := by decide
    rw [hB]
    simp only [List.cons_append, List.mem_cons, List.mem_append] at hc ⊢
    tauto
  unfold repalce_id_payload
  rw [find_id_in_chunk x rest y hnf hx hlen, hold, hblock, hblock2]
  simp only [Option.some_bind]
  rw [strreplace_call_nulfree _ _ _ (by decide)
    (by rw [cstr_append_nul _ t2 (by decide)]; decide)]
  rw [cstr_append_nul _ t2 (by decide), cstr_append_nul _ t hnew_nf]
  rw [substitute_spec_found _ _ _ 1 (by decide) (by decide)]
  rw [substitute_spec_absent _ _ _ (by decide)]
  have h1 : g_result_true_msg_template.take 1 = [123] := by decide
  have h2 : g_result_true_msg_template.drop (1 + (bytes "\"id\": REPLACE_PATTERN,").length)
      = bytes "\"result\": true,\"error\": null\x7d" := by decide
  have hB : bytes "\x7b\"id\":" = 123 :: bytes "\"id\":" := by decide
  have hT : bytes ",\"result\": true,\"error\": null\x7d"
      = bytes "," ++ bytes "\"result\": true,\"error\": null\x7d" := by decide
  rw [h1, h2]
  unfold result_true_reply
  rw [hB, hT]
  simp

theorem strreplace_call_set_difficulty (d : List Nat) :
    strreplace_call g_set_diff_msg_template REPLACE_PATTERN d
      = some (set_difficulty_reply (cstr d)) := by
  rw [strreplace_call_nulfree _ _ _ (by decide) (by decide)]
  rw [cstr_of_nulfree REPLACE_PATTERN (by decide)]
  rw [substitute_spec_found _ _ _ 57 (by decide) (by decide)]
  rw [substitute_spec_absent _ _ _ (by decide)]
  have h1 : g_set_diff_msg_template.take 57
      = bytes "\x7b\"id\": null,\"method\": \"mining.set_difficulty\",\"params\": [" := by
    decide
  have h2 : g_set_diff_msg_template.drop (57 + REPLACE_PATTERN.length) = bytes "]\x7d" := by
    decide
  rw [h1, h2]
  rfl

theorem result_true_reply_nulfree (x : List Nat) (hx : ∀ c ∈ x, c ≠ 0) :
    ∀ c ∈ result_true_reply x, c ≠ 0 := by
  have h1 : ∀ c ∈ bytes "\x7b\"id\":", c ≠ 0 := by decide
  have h2 : ∀ c ∈ bytes ",\"result\": true,\"error\": null\x7d", c ≠ 0 := by decide
  intro c hc
  unfold result_true_reply at hc
  rcases List.mem_append.mp hc with h | h
  · rcases List.mem_append.mp h with h3 | h3
    · exact h1 c h3
    · exact hx c h3
  · exact h2 c h

theorem set_difficulty_reply_nulfree (d : List Nat) (hd : ∀ c ∈ d, c ≠ 0) :
    ∀ c ∈ set_difficulty_reply d, c ≠ 0 := by
  have h1 : ∀ c ∈ bytes
      "\x7b\"id\": null,\"method\": \"mining.set_difficulty\",\"params\": [", c ≠ 0 := by
    decide
  have h2 : ∀ c ∈ bytes "]\x7d", c ≠ 0 := by decide
  intro c hc
  unfold set_difficulty_reply at hc
  rcases List.mem_append.mp hc with h | h
  · rcases List.mem_append.mp h with h3 | h3
    · exact h1 c h3
    · exact hd c h3
  · exact h2 c h

theorem auth_replay_core (mem : Memory) (g : Globals) (r : Round) (x rest t t2 D N : List Nat)
    (hdata : r.data = bytes "\x7b\"id\":" ++ x ++ bytes "," ++ rest)
    (hnf : ∀ c ∈ r.data, c ≠ 0) (hlen : r.data.length < 1024) (hx : 44 ∉ x)
    (hblock : mem.after_block = 0 :: t) (hblock2 : mem.after_block2 = 0 :: t2)
    (hpos : ∀ m ∈ r.writes, 0 < m)
    (hw : (result_true_reply x).length + (set_difficulty_reply (cstr D)).length + strlen N
      ≤ r.writes.length) :
    (repalce_id_payload mem (chunk_mem mem r.data) g_result_true_msg_template).bind (fun p1 =>
        (strreplace_call g_set_diff_msg_template REPLACE_PATTERN D).map fun p2 =>
          relay_sends g [(true, p1), (true, p2), (true, N)] r.writes)
      = some { globals := g, retry := 0,
               outputs := [{ to_fd1 := true, bytes := result_true_reply x },
                           { to_fd1 := true, bytes := set_difficulty_reply (cstr D) },
                           { to_fd1 := true, bytes := cstr N }],
               flow := LoopFlow.next } := by
  obtain ⟨y, hy⟩ := chunk_mem_short mem r.data hlen
  have hxnf : ∀ c ∈ x, c ≠ 0 := by
    intro c hc
    apply hnf c
    rw [hdata]
    simp only [List.mem_append]
    tauto
  have hA := cstr_of_nulfree _ (result_true_reply_nulfree x hxnf)
  have hB := cstr_of_nulfree _ (set_difficulty_reply_nulfree (cstr D) (cstr_nulfree D))
  rw [hy, hdata, repalce_id_payload_result_true mem x rest y t t2 (hdata ▸ hnf) hx
    (hdata ▸ hlen) hblock hblock2, strreplace_call_set_difficulty]
  simp only [Option.some_bind, Option.map_some']
  rw [relay_sends_all g _ r.writes hpos (by
    simp only [List.map_cons, List.map_nil, List.sum_cons, List.sum_nil, strlen, hA, hB]
    unfold strlen at hw
    omega)]
  simp only [List.map_cons, List.map_nil, hA, hB]

/-- C18 (code defect): a client AUTH chunk with id 2 arriving in phase VENUS
with cached difficulty `1024` and a cached notify, on a heap where the block of
the second slice is followed by the bytes `ZZ1`: the slice of the template is
read back as `"id": REPLACE_PATTERN,ZZ1`, which does not occur in the template,
so the first message sent to the client is the template itself, placeholder
included, and not `{"id": 2,"result": true,"error": null}`.  With zero bytes
behind both blocks and no cached notify, the third `send_buf` writes nothing. -/
theorem copyloop_venus_auth_replay_unterminated :
    (copyloop_venus_step mem_dirty globals_venus_cached round_auth).map
        (fun s => s.outputs)
      = some [{ to_fd1 := true, bytes := g_result_true_msg_template },
              { to_fd1 := true, bytes := set_difficulty_reply (bytes "1024") },
              { to_fd1 := true,
                bytes := bytes "\x7b\"id\":null,\"method\":\"mining.notify\"\x7d\n" }]
    ∧ g_result_true_msg_template
        = bytes "\x7b\"id\": REPLACE_PATTERN,\"result\": true,\"error\": null\x7d"
    ∧ g_result_true_msg_template ≠ result_true_reply (bytes " 2")
    ∧ (find_target_str_with_pattern g_result_true_msg_template (bytes "\"id\":")
          (bytes ",")).map (fun b => cstr (b ++ mem_dirty.after_block2))
        = some (bytes "\"id\": REPLACE_PATTERN,ZZ1")
    ∧ (copyloop_venus_step mem_zero
          { IS_VENUS_LOOP := 1, g_venus_diff_value := bytes "1024" } round_auth).map
        (fun s => s.outputs)
      = some [{ to_fd1 := true, bytes := result_true_reply (bytes " 2") },
              { to_fd1 := true, bytes := set_difficulty_reply (bytes "1024") },
              { to_fd1 := true, bytes := [] }] := by
  decide

/-! ## The worker-name rewrite -/

theorem strstrFrom_bracket (P tail : List Nat) (hP : ¬ [91, 34] <:+: P) :
    strstrFrom [91, 34] (P ++ 91 :: 34 :: tail) = some P.length := by
  apply strstrFrom_eq_some_of
  · rw [List.drop_left]
    exact ⟨tail, rfl⟩
  · intro j hj hp
    rw [List.drop_append_of_le_length (Nat.le_of_lt hj)] at hp
    cases hd : P.drop j with
    | nil =>
      have := List.drop_eq_nil_iff.mp hd
      omega
    | cons a tl =>
      rw [hd] at hp
      obtain ⟨u, hu⟩ := hp
      cases tl with
      | nil => simp at hu
      | cons b tl2 =>
        simp at hu
        apply hP
        have hpre : [91, 34] <+: P.drop j := by
          rw [hd, ← hu.1, ← hu.2.1]
          exact ⟨tl2, rfl⟩
        exact occurs_of_prefix_drop hpre

theorem repalce_name_payload_eq (mem : Memory) (P w S y t : List Nat)
    (hnf : ∀ c ∈ P ++ bytes "[\"" ++ w ++ bytes "\"," ++ S, c ≠ 0)
    (hlen : (P ++ bytes "[\"" ++ w ++ bytes "\"," ++ S).length < 1024)
    (hP : ¬ bytes "[\"" <:+: P) (hw : 44 ∉ w) (hblock : mem.after_block = 0 :: t) :
    repalce_name_payload mem ((P ++ bytes "[\"" ++ w ++ bytes "\"," ++ S) ++ 0 :: y)
      = some (P ++ VENUS_WORKER_NAME
          ++ substitute_spec (bytes "[\"" ++ w ++ bytes "\",") VENUS_WORKER_NAME 0 S) := by
  have hL : bytes "[\"" = [91, 34] := by decide
  have hR : bytes "\"," = [34, 44] := by decide
  have hC : bytes "," = [44] := by decide
  rw [hL, hR] at hnf hlen ⊢
  rw [hL] at hP
  have hdata : P ++ [91, 34] ++ w ++ [34, 44] ++ S
      = P ++ 91 :: 34 :: (w ++ 34 :: 44 :: S) := by simp
  have hi : strstrFrom [91, 34] (P ++ [91, 34] ++ w ++ [34, 44] ++ S) = some P.length := by
    rw [hdata]; exact strstrFrom_bracket P _ hP
  have hdrop : (P ++ [91, 34] ++ w ++ [34, 44] ++ S).drop P.length
      = ([91, 34] ++ w ++ [34]) ++ 44 :: S := by
    rw [hdata, List.drop_left]; simp
  have hk : strstrFrom [44] ((P ++ [91, 34] ++ w ++ [34, 44] ++ S).drop P.length)
      = some ([91, 34] ++ w ++ [34]).length := by
    rw [hdrop]
    apply strstrFrom_single
    intro hmem
    simp only [List.mem_append, List.mem_cons, List.mem_singleton] at hmem
    rcases hmem with (h | h) | h
    · rcases h with h | h | h <;> simp at h
    · exact hw h
    · rcases h with h | h <;> simp at h
  have hpat_nf : ∀ c ∈ [91, 34] ++ w ++ [34, 44], c ≠ 0 := by
    intro c hc
    apply hnf c
    simp only [List.mem_append] at hc ⊢
    tauto
  have hpat_ne : [91, 34] ++ w ++ [34, 44] ≠ [] := by simp
  have hslice : find_target_str_with_pattern ((P ++ [91, 34] ++ w ++ [34, 44] ++ S) ++ 0 :: y)
      (bytes "[\"") (bytes ",") = some ([91, 34] ++ w ++ [34, 44]) := by
    rw [hL, hC, find_target_str_with_pattern_at _ y _ _ P.length _ hnf (by decide) (by decide)
      hi hk (by omega), hdrop]
    have : ([91, 34] ++ w ++ [34]).length + [44].length
        = (([91, 34] ++ w ++ [34]) ++ [44]).length := by simp
    rw [this, show ([91, 34] ++ w ++ [34]) ++ 44 :: S
        = (([91, 34] ++ w ++ [34]) ++ [44]) ++ S by simp, List.take_left]
    simp
  have hfirst : strstrFrom ([91, 34] ++ w ++ [34, 44]) (P ++ [91, 34] ++ w ++ [34, 44] ++ S)
      = some P.length := by
    apply strstrFrom_eq_some_of
    · rw [show P ++ [91, 34] ++ w ++ [34, 44] ++ S = P ++ (([91, 34] ++ w ++ [34, 44]) ++ S)
        by simp, List.drop_left]
      exact ⟨S, rfl⟩
    · intro j hj hp
      have hno := (strstrFrom_eq_some _ _ _ hi).2.2 j hj
      apply hno
      exact List.IsPrefix.trans ⟨w ++ [34, 44], by simp⟩ hp
  unfold repalce_name_payload
  rw [hslice, hblock]
  simp only [Option.some_bind]
  rw [strreplace_call_append_nul _ y _ _ hnf
    (by rw [cstr_append_nul _ t hpat_nf]; exact hpat_ne)]
  rw [cstr_append_nul _ t hpat_nf, cstr_of_nulfree VENUS_WORKER_NAME (by decide)]
  rw [substitute_spec_found _ _ _ P.length hpat_ne hfirst]
  congr 1
  congr 1
  · congr 1
    rw [show P ++ [91, 34] ++ w ++ [34, 44] ++ S = P ++ ([91, 34] ++ w ++ [34, 44] ++ S)
      by simp, List.take_left]
  · congr 1
    rw [show P ++ [91, 34] ++ w ++ [34, 44] ++ S = (P ++ ([91, 34] ++ w ++ [34, 44])) ++ S
      by simp]
    rw [← List.length_append, List.drop_left]

/-- C16 (code defect): in VENUS phase, on a heap where the slice block is
followed by the bytes `ZZ`, the SUBMIT line of worker `bob` goes upstream
unchanged: the slice `["bob",` is read back as the string `["bob",ZZ`, which
does not occur in the chunk, so nothing is replaced, the line still names `bob`
and does not contain `rayraycoin.v2`.  With a zero byte right behind the block
only the span `["bob",` is replaced, and the authorize request with params
`["bob", "bob"]` still carries `bob`. -/
theorem copyloop_venus_leaks_worker_name :
    (copyloop_venus_step mem_dirty { IS_VENUS_LOOP := 1 }
        (round_of true
          "\x7b\"params\": [\"bob\", \"x\"], \"id\": 4, \"method\": \"mining.submit\"\x7d\n")).map
        (fun s => s.outputs)
      = some [{ to_fd1 := false,
                bytes := bytes
                  "\x7b\"params\": [\"bob\", \"x\"], \"id\": 4, \"method\": \"mining.submit\"\x7d\n" }]
    ∧ bytes "bob" ≠ VENUS_WORKER_NAME
    ∧ bytes "bob" <:+: bytes
        "\x7b\"params\": [\"bob\", \"x\"], \"id\": 4, \"method\": \"mining.submit\"\x7d\n"
    ∧ ¬ (VENUS_WORKER_NAME <:+: bytes
        "\x7b\"params\": [\"bob\", \"x\"], \"id\": 4, \"method\": \"mining.submit\"\x7d\n")
    ∧ (find_target_str_with_pattern
          (chunk_mem mem_dirty (bytes
            "\x7b\"params\": [\"bob\", \"x\"], \"id\": 4, \"method\": \"mining.submit\"\x7d\n"))
          (bytes "[\"") (bytes ",")).map (fun b => cstr (b ++ mem_dirty.after_block))
        = some (bytes "[\"bob\",ZZ")
    ∧ (copyloop_venus_step mem_zero { IS_VENUS_LOOP := 1 }
        (round_of true
          "\x7b\"id\": 2, \"method\": \"mining.authorize\", \"params\": [\"bob\", \"bob\"]\x7d\n")).map
        (fun s => s.outputs)
      = some [{ to_fd1 := false,
                bytes := bytes
                  "\x7b\"id\": 2, \"method\": \"mining.authorize\", \"params\": rayraycoin.v2 \"bob\"]\x7d\n" }]
    ∧ bytes "bob" <:+: bytes
        "\x7b\"id\": 2, \"method\": \"mining.authorize\", \"params\": rayraycoin.v2 \"bob\"]\x7d\n" := by
  decide

/-! ## Dial errors and the guard word -/

theorem eval_errno_reply (errno : Nat) : reply_code (eval_errno errno) = errno_reply_spec errno := by
  unfold eval_errno errno_reply_spec reply_code
  split_ifs <;> rfl

/-- Outside a failing `socket()` the dial follows the error table: 09 for a
failed resolve, the table entry of `errno` for a failed bind or connect. -/
theorem dial_error_mapping (w : World) (g : Globals) (namebuf : List Nat) (port : Nat) :
    ((w.dial (cstr namebuf) port).resolve_rc ≠ 0 →
        reply_code (connect_socks_target_dial w g namebuf port) = 9)
    ∧ ((w.dial (cstr namebuf) port).resolve_rc = 0 → (w.dial (cstr namebuf) port).socket_fd ≠ -1 →
        (g.bind_mode = true ∧ (w.dial (cstr namebuf) port).bind_rc = -1
          ∨ (w.dial (cstr namebuf) port).connect_rc = -1) →
        reply_code (connect_socks_target_dial w g namebuf port)
          = errno_reply_spec (w.dial (cstr namebuf) port).errno) := by
  constructor
  · intro h
    simp [connect_socks_target_dial, h, reply_code]
  · intro h0 h1 h2
    rw [← eval_errno_reply]
    congr 1
    unfold connect_socks_target_dial
    simp only [h0, h1, ne_eq, not_true_eq_false, if_false]
    rcases h2 with ⟨hb, hr⟩ | hc
    · simp [hb, hr]
    · simp [hc]

/-- C22 (code defect): when `socket()` fails with `EAFNOSUPPORT` the function
returns -5 and the thread replies `05`, where the error table has `08`; the
same `errno` from a failing `connect()` gives -8. -/
theorem connect_socks_target_socket_failure :
    connect_socks_target world_no_socket {} connect_request connect_request.length = some (-5)
    ∧ (clientthread_step world_no_socket {} peer1 socksstate.SS_3_AUTHED connect_request).events
        = [Event.connect_target connect_request (-5), Event.write [5, 5, 0, 1, 0, 0, 0, 0, 0, 0]]
    ∧ errno_reply_spec EAFNOSUPPORT = 8
    ∧ connect_socks_target (world_connect_fails EAFNOSUPPORT) {} connect_request
        connect_request.length = some (-8) := by
  decide

/-- The value of `IS_VENUS_LOOP` a CONNECT request leaves behind: 7 when
`connect_socks_target` returns a negative code, 4 otherwise. -/
theorem step_authed_guard (w : World) (g : Globals) (cl : client) (buf : List Nat) (ret : Int)
    (hg : g.IS_VENUS_LOOP ≤ 6)
    (hr : connect_socks_target w g buf buf.length = some ret) :
    (clientthread_step w g cl socksstate.SS_3_AUTHED buf).globals.IS_VENUS_LOOP
      = if ret < 0 then 7 else 4 := by
  have hg2 : ¬ g.IS_VENUS_LOOP > 6 := by omega
  have h7 : ¬ ((7 : Int) = -1) := by decide
  simp only [clientthread_step, hg2, if_false, h7, connect_socks_target_guard_irrelevant, hr,
    Option.map_some']
  split_ifs <;> rfl

/-- With `IS_VENUS_LOOP` above 6 a thread in the Authed state does not get past
the wait loop, whatever it received. -/
theorem step_authed_hangs (w : World) (g : Globals) (cl : client) (buf : List Nat)
    (hg : g.IS_VENUS_LOOP > 6) :
    (clientthread_step w g cl socksstate.SS_3_AUTHED buf).flow = Flow.hang
      ∧ (clientthread_step w g cl socksstate.SS_3_AUTHED buf).events = [] := by
  simp [clientthread_step, hg]

/-- C23 (code defect): after a CONNECT request whose dial is refused the thread
leaves the loop with `IS_VENUS_LOOP` still 7, and the next thread that reaches
the Authed state stays in the wait loop; after a successful dial the word is 4. -/
theorem dial_failure_keeps_guard :
    (clientthread_step (world_connect_fails ECONNREFUSED) {} peer1 socksstate.SS_3_AUTHED
        connect_request).events
      = [Event.connect_target connect_request (-5), Event.write [5, 5, 0, 1, 0, 0, 0, 0, 0, 0]]
    ∧ (clientthread_step (world_connect_fails ECONNREFUSED) {} peer1 socksstate.SS_3_AUTHED
        connect_request).flow = Flow.breakloop
    ∧ (clientthread_step (world_connect_fails ECONNREFUSED) {} peer1 socksstate.SS_3_AUTHED
        connect_request).globals.IS_VENUS_LOOP = 7
    ∧ (clientthread_step world_ok
        (clientthread_step (world_connect_fails ECONNREFUSED) {} peer1 socksstate.SS_3_AUTHED
          connect_request).globals peer1 socksstate.SS_3_AUTHED connect_request).flow = Flow.hang
    ∧ (clientthread_step world_ok
        (clientthread_step (world_connect_fails ECONNREFUSED) {} peer1 socksstate.SS_3_AUTHED
          connect_request).globals peer1 socksstate.SS_3_AUTHED connect_request).events = []
    ∧ (clientthread_step world_ok {} peer1 socksstate.SS_3_AUTHED
        connect_request).globals.IS_VENUS_LOOP = 4 := by
  decide

/-! ## Slices without their delimiters -/

/-- C21 (code defect): in the REAL phase an upstream `mining.set_difficulty`
line written as `"params": [2048]` has no left delimiter `"params":[`, and a
client `mining.subscribe` line ending in `"id":1` has no comma after the left
delimiter while a reply is cached; in both cases the slice gets a NULL from
`strstr` and the relay step does not complete. -/
theorem copyloop_venus_slice_fails :
    check_stratum_msg_type (chunk_mem mem_zero round_spaced_difficulty.data) = STM_SET_DIFFICULT
    ∧ strstr (chunk_mem mem_zero round_spaced_difficulty.data) (bytes "\"params\":[") = none
    ∧ (copyloop_venus_step mem_zero {} round_spaced_difficulty).isNone = true
    ∧ (copyloop_venus mem_zero {} [round_spaced_difficulty]).isNone = true
    ∧ check_stratum_msg_type (chunk_mem mem_zero round_subscribe_id_last.data) = STM_SUBSCRIBE
    ∧ find_target_str_with_pattern (chunk_mem mem_zero round_subscribe_id_last.data)
        (bytes "\"id\":") (bytes ",") = none
    ∧ (copyloop_venus_step mem_zero globals_real_cached round_subscribe_id_last).isNone = true := by
  decide

/-! ## The chunk that reaches the flip threshold -/

theorem copyloop_venus_step_notify (mem : Memory) (g : Globals) (r : Round)
    (hn : r.notify_from_upstream mem) (hlen : r.data.length < 1024)
    (hnul : ∀ c ∈ r.data, c ≠ 0) :
    copyloop_venus_step mem g r
      = some (if g.IS_VENUS_LOOP = 1 then
          if g.g_venus_job_count + 1 > 3 then
            { globals := { g with g_venus_notify_job_ret := r.data,
                                  g_venus_job_count := g.g_venus_job_count + 1,
                                  g_real_job_count := 0, IS_VENUS_LOOP := 0 },
              retry := 0, outputs := [], flow := LoopFlow.exit 1 }
          else
            { globals := { g with g_venus_notify_job_ret := r.data,
                                  g_venus_job_count := g.g_venus_job_count + 1 },
              retry := 0, outputs := [{ to_fd1 := true, bytes := r.data }],
              flow := LoopFlow.next }
        else if g.IS_VENUS_LOOP = 0 then
          if g.g_venus_job_count > 5 then
            { globals := { g with g_real_notify_job_ret := r.data,
                                  g_real_job_count := g.g_real_job_count + 1,
                                  g_venus_job_count := 0, IS_VENUS_LOOP := 1 },
              retry := 0, outputs := [], flow := LoopFlow.exit 1 }
          else
            { globals := { g with g_real_notify_job_ret := r.data,
                                  g_real_job_count := g.g_real_job_count + 1 },
              retry := 0, outputs := [{ to_fd1 := true, bytes := r.data }],
              flow := LoopFlow.next }
        else
          { globals := g, retry := 0, outputs := [{ to_fd1 := true, bytes := r.data }],
            flow := LoopFlow.next }) := by
  obtain ⟨hsel, hpos, hty, hw, hwl⟩ := hn
  have hc : cstr (chunk_mem mem r.data) = r.data := by
    rw [cstr_chunk_mem mem r.data hlen, cstr_of_nulfree r.data hnul]
  have hs : ∀ g1 : Globals, relay_sends g1 [(true, chunk_mem mem r.data)] r.writes
      = { globals := g1, retry := 0, outputs := [{ to_fd1 := true, bytes := r.data }],
          flow := LoopFlow.next } := by
    intro g1
    rw [relay_sends_all g1 _ r.writes hw (by simp [strlen, hc]; exact hwl)]
    simp [hc]
  have h0 : ¬ r.data.length ≤ 0 := by omega
  have e1 : ¬ (STM_NOTIFY = STM_SUBSCRIBE) := by decide
  have e2 : ¬ (STM_NOTIFY = STM_AUTH) := by decide
  have e3 : ¬ (STM_NOTIFY = STM_SUBMIT) := by decide
  have e4 : ¬ (STM_NOTIFY = STM_INIT_SUBSCRIBE) := by decide
  have e5 : ¬ (STM_NOTIFY = STM_SET_DIFFICULT) := by decide
  unfold copyloop_venus_step
  rw [hsel]
  simp only [h0, if_false, hty, e1, e2, e3, e4, e5, false_and, backup_msg, hc]
  simp
  split_ifs <;> first | rfl | rw [hs]

/-- C24 (as stated, refuted): of six NOTIFY chunks read by `copyloop_simple`
from the initial globals only the first five are written to the client before
it returns 1, and of four read by `copyloop_venus` in phase VENUS only the
first three: the chunk that reaches the threshold is not written. -/
theorem flip_chunk_not_written_counterexample :
    (copyloop_simple mem_zero {} (List.replicate 6 round_notify)).outputs
        = List.replicate 5 { to_fd1 := true, bytes := round_notify.data }
    ∧ (copyloop_simple mem_zero {} (List.replicate 6 round_notify)).flow = LoopFlow.exit 1
    ∧ (copyloop_venus mem_zero { IS_VENUS_LOOP := 1 } (List.replicate 4 round_notify)).map
          (fun run => (run.flow, run.outputs))
        = some (LoopFlow.exit 1, List.replicate 3 { to_fd1 := true, bytes := round_notify.data }) := by
  decide

/-- C24 (amended): a NOTIFY chunk read from upstream by `copyloop_simple`, or
by `copyloop_venus` when it is shorter than 1024 bytes and has no zero byte, is
either written in full to the client with the relay going on, or the relay
returns 1 and nothing of the chunk is written. -/
theorem notify_chunk_written_unless_redial (mem : Memory) (g : Globals) (retry : Nat)
    (r : Round) (hn : r.notify_from_upstream mem) :
    ((copyloop_simple_step mem g retry r).flow = LoopFlow.next
        ∧ (copyloop_simple_step mem g retry r).outputs = [{ to_fd1 := true, bytes := r.data }]
      ∨ (copyloop_simple_step mem g retry r).flow = LoopFlow.exit 1
        ∧ (copyloop_simple_step mem g retry r).outputs = [])
    ∧ (r.data.length < 1024 → (∀ c ∈ r.data, c ≠ 0) →
        ∃ s, copyloop_venus_step mem g r = some s
          ∧ (s.flow = LoopFlow.next ∧ s.outputs = [{ to_fd1 := true, bytes := r.data }]
            ∨ s.flow = LoopFlow.exit 1 ∧ s.outputs = [])) := by
  constructor
  · rw [copyloop_simple_step_notify mem g retry r hn]
    split_ifs <;> simp
  · intro hlen hnul
    refine ⟨_, copyloop_venus_step_notify mem g r hn hlen hnul, ?_⟩
    split_ifs <;> simp

/-- C24 witness: the NOTIFY line `round_notify` read in the initial globals is
written whole by `copyloop_simple`, and `copyloop_venus` completes its step on
it in one of the two ways. -/
theorem notify_chunk_written_unless_redial_witness :
    round_notify.notify_from_upstream mem_zero
    ∧ (copyloop_simple_step mem_zero {} 0 round_notify).outputs
        = [{ to_fd1 := true, bytes := round_notify.data }]
    ∧ ∃ s, copyloop_venus_step mem_zero {} round_notify = some s
        ∧ (s.flow = LoopFlow.next
            ∧ s.outputs = [{ to_fd1 := true, bytes := round_notify.data }]
          ∨ s.flow = LoopFlow.exit 1 ∧ s.outputs = []) :=
  ⟨round_notify_is_notify,
   ((notify_chunk_written_unless_redial mem_zero {} 0 round_notify round_notify_is_notify).1.elim
      (fun h => h.2) (fun h => absurd h.1 (by decide))),
   (notify_chunk_written_unless_redial mem_zero {} 0 round_notify round_notify_is_notify).2
      (by decide) (by decide)⟩

/-! ## Bounds of the negotiation parsers -/

theorem getElem?_of_lt (buf : List Nat) (i : Nat) (h : i < buf.length) :
    ∃ b, buf[i]? = some b ∧ b ∈ buf :=
  ⟨buf[i], List.getElem?_eq_getElem h, List.getElem_mem h⟩

theorem read_bytes_of_le (buf : List Nat) (off len : Nat) (h : off + len ≤ buf.length) :
    read_bytes buf off len = some ((buf.drop off).take len) := by
  unfold read_bytes
  rw [if_pos h]

theorem port_at_in_bounds (buf namebuf : List Nat) (minlen : Nat) (h2 : 2 ≤ minlen)
    (hn : minlen ≤ buf.length) :
    ∃ t, (buf[minlen - 2]?.bind fun hi => buf[minlen - 1]?.bind fun lo =>
      some (Target.dest namebuf ((hi <<< 8 ||| lo) % 2 ^ 16))) = some t := by
  obtain ⟨hi, e1, -⟩ := getElem?_of_lt buf (minlen - 2) (by omega)
  obtain ⟨lo, e2, -⟩ := getElem?_of_lt buf (minlen - 1) (by omega)
  rw [e1, Option.some_bind, e2, Option.some_bind]
  exact ⟨_, rfl⟩

theorem numeric_in_bounds (w : World) (buf : List Nat) (af minlen alen : Nat) (h2 : 2 ≤ minlen)
    (ha : 4 + alen ≤ minlen) :
    ∃ t, (if buf.length < minlen then some (Target.error EC_GENERAL_FAILURE) else
      (read_bytes buf 4 alen).bind fun a =>
        match inet_ntop w af a 256 with
        | none => some (Target.error EC_GENERAL_FAILURE)
        | some text =>
          buf[minlen - 2]?.bind fun hi => buf[minlen - 1]?.bind fun lo =>
            some (Target.dest (text ++ [0]) ((hi <<< 8 ||| lo) % 2 ^ 16))) = some t := by
  by_cases c : buf.length < minlen
  · exact ⟨_, if_pos c⟩
  rw [if_neg c, read_bytes_of_le buf 4 alen (by omega), Option.some_bind]
  cases inet_ntop w af ((buf.drop 4).take alen) 256 with
  | none => exact ⟨_, rfl⟩
  | some text => exact port_at_in_bounds buf (text ++ [0]) minlen h2 (by omega)

theorem connect_socks_target_parse_in_bounds (w : World) (buf : List Nat)
    (hb : ∀ b ∈ buf, b < 256) :
    ∃ t, connect_socks_target_parse w buf buf.length = some t := by
  unfold connect_socks_target_parse
  by_cases c1 : buf.length < 5
  · exact ⟨_, if_pos c1⟩
  rw [if_neg c1]
  obtain ⟨b0, e0, -⟩ := getElem?_of_lt buf 0 (by omega)
  obtain ⟨b1, e1, -⟩ := getElem?_of_lt buf 1 (by omega)
  obtain ⟨b2, e2, -⟩ := getElem?_of_lt buf 2 (by omega)
  obtain ⟨atyp, e3, -⟩ := getElem?_of_lt buf 3 (by omega)
  obtain ⟨l, e4, m4⟩ := getElem?_of_lt buf 4 (by omega)
  have hl : ¬ 256 ≤ l := by have := hb l m4; omega
  rw [e0, Option.some_bind]
  by_cases c0 : b0 ≠ 5
  · exact ⟨_, if_pos c0⟩
  rw [if_neg c0, e1, Option.some_bind]
  by_cases d1 : b1 ≠ 1
  · exact ⟨_, if_pos d1⟩
  rw [if_neg d1, e2, Option.some_bind]
  by_cases d2 : b2 ≠ 0
  · exact ⟨_, if_pos d2⟩
  rw [if_neg d2, e3, Option.some_bind]
  dsimp only
  by_cases a4 : atyp = 4
  · rw [if_pos a4]
    exact numeric_in_bounds w buf AF_INET6 (4 + 2 + 16) 16 (by omega) (by omega)
  rw [if_neg a4]
  by_cases a1 : atyp = 1
  · rw [if_pos a1]
    exact numeric_in_bounds w buf AF_INET (4 + 4 + 2) 4 (by omega) (by omega)
  rw [if_neg a1]
  by_cases a3 : atyp = 3
  · rw [if_pos a3, e4, Option.some_bind]
    by_cases c : buf.length < 4 + 2 + l + 1
    · exact ⟨_, if_pos c⟩
    rw [if_neg c, read_bytes_of_le buf (4 + 1) l (by omega), Option.some_bind, if_neg hl]
    exact port_at_in_bounds buf _ (4 + 2 + l + 1) (by omega) (by omega)
  · exact ⟨_, if_neg a3⟩

theorem check_credentials_in_bounds (g : Globals) (buf user pass : List Nat)
    (hb : ∀ b ∈ buf, b < 256) (hu : g.auth_user = some user) (hp : g.auth_pass = some pass) :
    ∃ ec, check_credentials g buf buf.length = some ec := by
  unfold check_credentials
  by_cases c1 : buf.length < 5
  · exact ⟨_, if_pos c1⟩
  rw [if_neg c1]
  obtain ⟨b0, e0, -⟩ := getElem?_of_lt buf 0 (by omega)
  obtain ⟨ulen, e1, m1⟩ := getElem?_of_lt buf 1 (by omega)
  rw [e0, Option.some_bind]
  by_cases c0 : b0 ≠ 1
  · exact ⟨_, if_pos c0⟩
  rw [if_neg c0, e1, Option.some_bind]
  by_cases c2 : buf.length < 2 + ulen + 2
  · exact ⟨_, if_pos c2⟩
  obtain ⟨plen, e2, m2⟩ := getElem?_of_lt buf (2 + ulen) (by omega)
  rw [if_neg c2, e2, Option.some_bind]
  by_cases c3 : buf.length < 2 + ulen + 1 + plen
  · exact ⟨_, if_pos c3⟩
  have hl : ¬ (256 ≤ ulen ∨ 256 ≤ plen) := by
    have := hb ulen m1
    have := hb plen m2
    omega
  rw [if_neg c3, read_bytes_of_le buf 2 ulen (by omega), Option.some_bind,
    read_bytes_of_le buf (2 + ulen + 1) plen (by omega), Option.some_bind, if_neg hl]
  dsimp only
  rw [hu, Option.some_bind, hp]
  split_ifs <;> first | exact ⟨_, rfl⟩ | (rw [Option.some_bind]; split_ifs <;> exact ⟨_, rfl⟩)

/-- C25: on a buffer that holds exactly the `n` received bytes (each below
256), with credentials configured, neither the parsing part of
`connect_socks_target` nor `check_credentials` reaches an out-of-range branch:
every read is at an index below `n` and the name, user and password lengths
written to the 256-byte buffers are at most 255, so both return a value. -/
theorem negotiation_parsers_in_bounds (w : World) (g : Globals) (buf : List Nat)
    (hb : ∀ b ∈ buf, b < 256) (hu : g.auth_user.isSome = true)
    (hp : g.auth_pass.isSome = true) :
    (connect_socks_target_parse w buf buf.length).isSome = true
    ∧ (check_credentials g buf buf.length).isSome = true := by
  obtain ⟨user, hu1⟩ := Option.isSome_iff_exists.mp hu
  obtain ⟨pass, hp1⟩ := Option.isSome_iff_exists.mp hp
  obtain ⟨t, ht⟩ := connect_socks_target_parse_in_bounds w buf hb
  obtain ⟨ec, hec⟩ := check_credentials_in_bounds g buf user pass hb hu1 hp1
  rw [ht, hec]
  exact ⟨rfl, rfl⟩

/-- C25 witness: the 7-byte frame `05 01 00 03 FF 61 62`, whose name length
byte 255 points far beyond the received bytes, is handled without any
out-of-range access by both parsers. -/
theorem negotiation_parsers_in_bounds_witness :
    (∀ b ∈ [5, 1, 0, 3, 255, 97, 98], b < 256)
    ∧ (connect_socks_target_parse world_ok [5, 1, 0, 3, 255, 97, 98] 7).isSome = true
    ∧ (check_credentials globals_up [5, 1, 0, 3, 255, 97, 98] 7).isSome = true :=
  ⟨by decide,
   negotiation_parsers_in_bounds world_ok globals_up [5, 1, 0, 3, 255, 97, 98] (by decide)
     (by decide) (by decide)⟩

/-! ## The allocation size of `strreplace` -/

theorem strreplace_count_length (pat rep : List Nat) (hp : ∀ c ∈ pat, c ≠ 0) (hne : pat ≠ []) :
    ∀ (fuel : Nat) (o : List Nat) (cnt : Nat), (∀ c ∈ o, c ≠ 0) → o.length < fuel →
      cnt + o.length < 2 ^ 64 →
      ∃ k, strreplace_count pat fuel o cnt = some (cnt + k)
        ∧ k * pat.length ≤ o.length
        ∧ (substitute_spec pat rep 0 o).length + k * pat.length
            = o.length + k * rep.length := by
  intro fuel
  induction fuel with
  | zero => intro o cnt _ hf; omega
  | succ fuel ih =>
    intro o cnt ho hf hsz
    unfold strreplace_count
    rw [strstr_of_nulfree o pat ho hp]
    cases hk : strstrFrom pat o with
    | none =>
      refine ⟨0, rfl, by omega, ?_⟩
      rw [substitute_spec_absent pat rep o ((strstrFrom_eq_none_iff pat o).mp hk)]
      omega
    | some j =>
      have hb := strstrFrom_found_bound pat o j hne hk
      have hlen : 1 ≤ pat.length := List.length_pos.mpr hne
      have hpl : strlen pat = pat.length := by
        unfold strlen; rw [cstr_of_nulfree pat hp]
      have hdl : (o.drop (j + pat.length)).length = o.length - (j + pat.length) :=
        List.length_drop _ _
      have hmod : (cnt + 1) % 2 ^ 64 = cnt + 1 := Nat.mod_eq_of_lt (by omega)
      obtain ⟨k, h1, h2, h3⟩ := ih (o.drop (j + pat.length)) (cnt + 1)
        (nulfree_drop o _ ho) (by omega) (by omega)
      refine ⟨k + 1, ?_, ?_, ?_⟩
      · simp only [hpl, hmod]
        rw [h1]
        congr 1
        omega
      · rw [Nat.add_mul, Nat.one_mul]
        omega
      · rw [substitute_spec_found pat rep o j hne hk]
        simp only [List.length_append, List.length_take, Nat.add_mul, Nat.one_mul]
        have : min j o.length = j := by omega
        omega

theorem strreplace_retlen_eq (orilen k replen patlen out : Nat)
    (hp : patlen < 2 ^ 64) (hr : replen < 2 ^ 64)
    (h : out + k * patlen = orilen + k * replen) :
    strreplace_retlen orilen k replen patlen = out % 2 ^ 64 := by
  unfold strreplace_retlen
  by_cases c : patlen ≤ replen
  · have hd : (replen + 2 ^ 64 - patlen) % 2 ^ 64 = replen - patlen := by omega
    have hm : k * (replen - patlen) + k * patlen = k * replen := by
      rw [← Nat.mul_add]
      congr 1
      omega
    have he : orilen + k * (replen - patlen) = out := by omega
    rw [hd, he]
  · have hd : (replen + 2 ^ 64 - patlen) % 2 ^ 64 = replen + 2 ^ 64 - patlen := by omega
    have hm : k * (replen + 2 ^ 64 - patlen) + k * patlen = k * replen + k * 2 ^ 64 := by
      rw [← Nat.mul_add, ← Nat.mul_add]
      congr 1
      omega
    have he : orilen + k * (replen + 2 ^ 64 - patlen) = out + k * 2 ^ 64 := by omega
    rw [hd, he, Nat.add_mul_mod_self_right]

/-- C26: for strings without zero byte shorter than 2^64 and a non-empty
pattern, both loops of `strreplace` return, and the `retlen` computed modulo
2^64 from the count of the first loop is the length of the string written by
the copy loop reduced modulo 2^64, also when `replen - patlen` wraps: it is
exactly that length whenever the written string is shorter than 2^64 bytes. -/
theorem strreplace_retlen_exact (src pat rep : List Nat) (fuel : Nat)
    (hs : ∀ c ∈ src, c ≠ 0) (hp : ∀ c ∈ pat, c ≠ 0) (hr : ∀ c ∈ rep, c ≠ 0)
    (hne : pat ≠ []) (hf : src.length < fuel) (hsz : src.length < 2 ^ 64)
    (hpz : pat.length < 2 ^ 64) (hrz : rep.length < 2 ^ 64) :
    ∃ patcnt out, strreplace_count pat fuel src 0 = some patcnt
      ∧ strreplace fuel src pat rep = some out
      ∧ strreplace_retlen (strlen src) patcnt (strlen rep) (strlen pat) = out.length % 2 ^ 64
      ∧ (out.length < 2 ^ 64 →
          strreplace_retlen (strlen src) patcnt (strlen rep) (strlen pat) = out.length) := by
  obtain ⟨k, h1, _, h3⟩ := strreplace_count_length pat rep hp hne fuel src 0 hs hf (by omega)
  have hlen : strreplace_retlen (strlen src) (0 + k) (strlen rep) (strlen pat)
      = (substitute_spec pat rep 0 src).length % 2 ^ 64 := by
    unfold strlen
    rw [cstr_of_nulfree src hs, cstr_of_nulfree rep hr, cstr_of_nulfree pat hp, Nat.zero_add]
    exact strreplace_retlen_eq src.length k rep.length pat.length _ hpz hrz h3
  exact ⟨0 + k, substitute_spec pat rep 0 src, h1,
    strreplace_eq_substitute_spec src pat rep fuel hs hp hr hne hf, hlen,
    fun ho => hlen.trans (Nat.mod_eq_of_lt ho)⟩

/-- C26 witness: replacing `aa` by `b` in `aaaxaaaa` finds 3 occurrences and
writes the 5 bytes `baxbb`; `replen - patlen` wraps to 2^64 - 1 and
`8 + 3 * (2^64 - 1)` is 5 modulo 2^64. -/
theorem strreplace_retlen_exact_witness :
    strreplace_count (bytes "aa") 9 (bytes "aaaxaaaa") 0 = some 3
    ∧ strreplace 9 (bytes "aaaxaaaa") (bytes "aa") (bytes "b") = some (bytes "baxbb")
    ∧ strreplace_retlen 8 3 1 2 = 5 := by
  obtain ⟨c, out, h1, h2, _, h3⟩ := strreplace_retlen_exact (bytes "aaaxaaaa") (bytes "aa")
    (bytes "b") 9 (by decide) (by decide) (by decide) (by decide) (by decide) (by decide)
    (by decide) (by decide)
  have e1 : strreplace_count (bytes "aa") 9 (bytes "aaaxaaaa") 0 = some 3 := by decide
  have e2 : strreplace 9 (bytes "aaaxaaaa") (bytes "aa") (bytes "b") = some (bytes "baxbb") := by
    decide
  rw [e1] at h1
  rw [e2] at h2
  cases h1
  cases h2
  exact ⟨e1, e2, h3 (by decide)⟩

/-! ## The phase word as the driver sees it -/

end MicroSocks
